import Mathlib

/-!
# The video4linux version 1 capture backend (`zebra/v4l1.c`)

A shallow embedding of the backend's format negotiation, buffer provisioning
and frame queue, followed by the properties proved about them.

Conventions of the embedding:

* a pointer to a `zebra_image_t` is a natural number, a nullable pointer an
  `Option Nat`; the images live in a heap `State.image`;
* every request made to the outside (the device, the address space, the lock)
  is appended to `State.trace`; the answer is taken from a `Device`, which may
  answer differently after every history;
* `State.steps` holds the same requests and, between them, every assignment
  to a field of the queue (`next`, `nq_image`, `dq_image`), in the order in
  which the program makes them;
* a function that can hit an `assert` or index an array out of its bounds
  returns `Except crash _`.
-/

namespace V4l1

/-! ## Data model -/

/-- Severity of a recorded error (`errsev_t`). -/
inductive errsev_t
  | SEV_FATAL
  | SEV_ERROR
  | SEV_OK
  deriving DecidableEq, Repr

/-- Kind of a recorded error (`zebra_error_t`). -/
inductive zebra_error_t
  | ZEBRA_OK
  | ZEBRA_ERR_NOMEM
  | ZEBRA_ERR_UNSUPPORTED
  | ZEBRA_ERR_INVALID
  | ZEBRA_ERR_SYSTEM
  | ZEBRA_ERR_LOCKING
  | ZEBRA_ERR_BUSY
  deriving DecidableEq, Repr

/-- Video data transfer mode (`video_iomode_t`). -/
inductive video_iomode_t
  | VIDEO_INVALID
  | VIDEO_READWRITE
  | VIDEO_MMAP
  deriving DecidableEq, Repr

/-- Input interface type (`video_interface_t`). -/
inductive video_interface_t
  | VIDEO_INVALID
  | VIDEO_V4L1
  | VIDEO_V4L2
  deriving DecidableEq, Repr

open errsev_t zebra_error_t video_iomode_t

/-- The `struct video_picture` of the V4L1 interface. -/
structure video_picture where
  brightness : Nat
  hue : Nat
  colour : Nat
  contrast : Nat
  whiteness : Nat
  depth : Nat
  palette : Nat
  deriving DecidableEq, Repr

/-- The `struct video_mmap` of the V4L1 interface. -/
structure video_mmap where
  frame : Int
  height : Nat
  width : Nat
  format : Nat
  deriving DecidableEq, Repr

/-- The `struct video_mbuf` of the V4L1 interface: total size of the region,
number of frames, and the array of frame offsets. -/
structure video_mbuf where
  size : Int
  frames : Int
  offsets : List Int
  deriving DecidableEq, Repr

/-- The `struct video_window` of the V4L1 interface. -/
structure video_window where
  x : Int
  y : Int
  width : Nat
  height : Nat
  chromakey : Nat
  flags : Nat
  deriving DecidableEq, Repr

/-- The `struct video_capability` of the V4L1 interface, without the name of
the device. -/
structure video_capability where
  type : Int
  channels : Int
  audios : Int
  maxwidth : Int
  maxheight : Int
  minwidth : Int
  minheight : Int
  deriving DecidableEq, Repr

/-- What `memset(&vcap, 0, sizeof(vcap))` leaves in a `video_capability`. -/
def video_capability.zero : video_capability :=
  { type := 0, channels := 0, audios := 0, maxwidth := 0, maxheight := 0,
    minwidth := 0, minheight := 0 }

/-- What `memset(&vwin, 0, sizeof(vwin))` leaves in a `video_window`. -/
def video_window.zero : video_window :=
  { x := 0, y := 0, width := 0, height := 0, chromakey := 0, flags := 0 }

/-- A function pointer of the session: one of the functions of v4l1.c that
`_zebra_v4l1_probe` stores; a pointer that is `NULL` is `none`. -/
inductive video_fn
  | v4l1_init
  | v4l1_cleanup
  | v4l1_start
  | v4l1_stop
  | v4l1_nq
  | v4l1_dq
  deriving DecidableEq, Repr

/-- What `memset(&vpic, 0, sizeof(vpic))` leaves in a `video_picture`. -/
def video_picture.zero : video_picture :=
  { brightness := 0, hue := 0, colour := 0, contrast := 0, whiteness := 0,
    depth := 0, palette := 0 }

/-- What `memset(&vbuf, 0, sizeof(vbuf))` leaves in a `video_mbuf` the array
of which holds `n` offsets. -/
def video_mbuf.zero (n : Nat) : video_mbuf :=
  { size := 0, frames := 0, offsets := List.replicate n 0 }

/-- Modelled from the spec: the declaration of `zebra_image_t` (image.h) is
not among the sources.  One capture slot: the queue link used while the
buffer is enqueued, the slot index, the byte pointer and the byte length. -/
structure zebra_image_t where
  next : Option Nat
  srcidx : Int
  data : Int
  datalen : Nat
  deriving DecidableEq, Repr

/-- Modelled from the spec: the declaration of `zebra_video_t` (video.h) is not
among the sources.  One capture device binding, with the fields that v4l1.c
reads and writes: the recorded error, the device handle, the capture window,
the transfer mode, the active encoding (external code and V4L1 palette index),
the list of supported codes, the per-frame byte length, the mapped region, the
frame buffers and the head and tail of the queue. -/
structure zebra_video_t where
  err_sev : errsev_t
  err_type : zebra_error_t
  fd : Int
  width : Nat
  height : Nat
  intf : video_interface_t
  iomode : video_iomode_t
  active : Bool
  format : Nat
  palette : Nat
  formats : Option (List Nat)
  datalen : Nat
  buflen : Nat
  buf : Int
  num_images : Int
  images : List Nat
  nq_image : Option Nat
  dq_image : Option Nat
  init : Option video_fn := none
  cleanup : Option video_fn := none
  start : Option video_fn := none
  stop : Option video_fn := none
  nq : Option video_fn := none
  dq : Option video_fn := none

/-- A request made to the outside of the program. -/
inductive Event
  | lock
  | unlock
  | VIDIOCGCAP
  | VIDIOCGWIN
  | VIDIOCSWIN (vwin : video_window)
  | VIDIOCGPICT
  | VIDIOCSPICT (vpic : video_picture)
  | VIDIOCGMBUF
  | VIDIOCMCAPTURE (vmap : video_mmap)
  | VIDIOCSYNC (frame : Int)
  | read (data : Int) (len : Nat)
  | mmap (len : Nat)
  | munmap (addr : Int) (len : Nat)
  | calloc (n : Nat)
  | realloc (n : Nat)
  | close (fd : Int)
  | sys_open (path : String)
  deriving DecidableEq, Repr

/-- The outside of the program: for every request, the answer given after the
history of requests made so far.  An `ioctl` that fills a structure receives
the structure as the program prepared it and gives back the return value and
the structure as the driver left it. -/
structure Device where
  VIDIOCGWIN : List Event → video_window → Int × video_window
  VIDIOCSWIN : List Event → video_window → Int
  VIDIOCGPICT : List Event → video_picture → Int × video_picture
  VIDIOCSPICT : List Event → video_picture → Int
  VIDIOCGMBUF : List Event → video_mbuf → Int × video_mbuf
  VIDIOCMCAPTURE : List Event → video_mmap → Int
  VIDIOCSYNC : List Event → Int → Int
  read : List Event → Int → Nat → Int
  mmap : List Event → Nat → Int
  munmap : List Event → Int → Nat → Int
  calloc : List Event → Nat → Bool
  realloc : List Event → Nat → Bool
  errno : List Event → Int
  VIDIOCGCAP : List Event → video_capability → Int × video_capability :=
    fun _ vcap => (0, vcap)
  close : List Event → Int → Int := fun _ _ => 0
  sys_open : List Event → String → Int := fun _ _ => 3

/-- One step of the program that the lock is about: an assignment to a field
of the queue, which is the link of an image (`img->next = v`), the tail
(`vdo->nq_image = v`) or the head (`vdo->dq_image = v`), or a request to the
outside. -/
inductive Step
  | set_next (img : Nat) (v : Option Nat)
  | set_nq_image (v : Option Nat)
  | set_dq_image (v : Option Nat)
  | request (e : Event)
  deriving DecidableEq, Repr

/-- The state of the program: the session, the heap of images, the requests
made so far, from which the device answers, and the steps made so far: the
requests again, and between them the assignments to the fields of the queue,
in the order in which the program makes them. -/
structure State where
  vdo : zebra_video_t
  image : Nat → zebra_image_t
  trace : List Event
  steps : List Step := []

/-- Why a run of the program stopped without returning. -/
inductive crash
  | assert_failed
  | out_of_bounds
  | null_call
  deriving DecidableEq, Repr

/-- Append a request to the trace and to the steps. -/
def State.log (s : State) (e : Event) : State :=
  { s with trace := s.trace ++ [e], steps := s.steps ++ [Step.request e] }

/-- The assignment `p->next = n`. -/
def State.set_next (s : State) (p : Nat) (n : Option Nat) : State :=
  { s with
    image := fun q => if q = p then { s.image q with next := n } else s.image q,
    steps := s.steps ++ [Step.set_next p n] }

/-- The assignment `vdo->nq_image = v`. -/
def State.set_nq_image (s : State) (v : Option Nat) : State :=
  { s with vdo := { s.vdo with nq_image := v }, steps := s.steps ++ [Step.set_nq_image v] }

/-- The assignment `vdo->dq_image = v`. -/
def State.set_dq_image (s : State) (v : Option Nat) : State :=
  { s with vdo := { s.vdo with dq_image := v }, steps := s.steps ++ [Step.set_dq_image v] }

/-- The assignment `p->data = d`. -/
def State.set_data (s : State) (p : Nat) (d : Int) : State :=
  { s with image := fun q => if q = p then { s.image q with data := d } else s.image q }

/-- The assignment `p->datalen = n`. -/
def State.set_datalen (s : State) (p : Nat) (n : Nat) : State :=
  { s with image := fun q => if q = p then { s.image q with datalen := n } else s.image q }

/-- Modelled from the spec: `err_capture` (error.h) is not among the sources.
A failure is reported to the caller as a result carrying severity and kind:
both are stored in the session and -1 is returned. -/
def err_capture (s : State) (sev : errsev_t) (type : zebra_error_t) : Int × State :=
  (-1, { s with vdo := { s.vdo with err_sev := sev, err_type := type } })

/-- Modelled from the spec: `video_unlock` (video.h) is not among the sources.
The lock that protects the queue linkage is released; the release is a
request to the outside and reports no failure. -/
def video_unlock (s : State) : Int × State :=
  (0, s.log Event.unlock)

/-- Modelled from the spec: `video_lock` (video.h) is not among the sources.
The lock that protects the queue linkage is acquired. -/
def video_lock (s : State) : Int × State :=
  (0, s.log Event.lock)

/-! ## Machine arithmetic -/

/-- A value of type `unsigned` (32 bits): the window size is held in fields of
this type, and arithmetic on it is done modulo 2^32. -/
def uint (x : Nat) : Nat := x % 2 ^ 32

/-- The conversion of an `int` to `unsigned long` (64 bits): a negative value
wraps around. -/
def ulong_of_int (x : Int) : Nat :=
  if 0 ≤ x then x.toNat else (x + 2 ^ 64).toNat

/-- The subtraction `a - b` of two values of type `int` (32 bits), as the
compiled code computes it: the difference modulo 2^32, taken in the range of
`int`.  It is the difference itself when that is in the range. -/
def int_sub (a b : Int) : Int := (a - b + 2 ^ 31) % 2 ^ 32 - 2 ^ 31

/-- The array access `a[i]` with an `int` index: `none` outside the array. -/
def index? {α : Type} (a : List α) (i : Int) : Option α :=
  if 0 ≤ i then a[i.toNat]? else none

/-! ## The frame queue -/

/-- The function `v4l1_nq`: append `img` to the tail of the queue, release the
lock and, in shared-memory mode, ask the device to capture into the slot. -/
def v4l1_nq (dev : Device) (s : State) (img : Nat) : Int × State :=
  let s1 := s.set_next img none
  let s2 := match s1.vdo.nq_image with
    | some t => s1.set_next t (some img)
    | none => s1
  let s3 := s2.set_nq_image (some img)
  let s4 := if s3.vdo.dq_image = none then s3.set_dq_image (some img) else s3
  let u := video_unlock s4
  if u.1 ≠ 0 then (-1, u.2)
  else if u.2.vdo.iomode ≠ VIDEO_MMAP then (0, u.2)
  else
    let vmap : video_mmap :=
      { frame := (u.2.image img).srcidx, width := u.2.vdo.width,
        height := u.2.vdo.height, format := u.2.vdo.palette }
    let rc := dev.VIDIOCMCAPTURE u.2.trace vmap
    let s5 := u.2.log (Event.VIDIOCMCAPTURE vmap)
    if rc < 0 then err_capture s5 SEV_ERROR ZEBRA_ERR_SYSTEM
    else (0, s5)

/-- The function `v4l1_dq`: pop the head of the queue, release the lock and
wait for the capture of that slot (shared-memory mode) or read the frame
(read mode).  The result is the image, or `none` for `NULL`. -/
def v4l1_dq (dev : Device) (s : State) : Option Nat × State :=
  let img := s.vdo.dq_image
  let s1 : State := match img with
    | some p =>
        (s.set_dq_image (s.image p).next).set_next p none
    | none => s
  let u := video_unlock s1
  if u.1 ≠ 0 then (none, u.2)
  else match img with
    | none => (none, (err_capture u.2 SEV_ERROR ZEBRA_ERR_BUSY).2)
    | some p =>
        if u.2.vdo.iomode = VIDEO_MMAP then
          let frame := (u.2.image p).srcidx
          let rc := dev.VIDIOCSYNC u.2.trace frame
          let s2 := u.2.log (Event.VIDIOCSYNC frame)
          if rc < 0 then (none, (err_capture s2 SEV_ERROR ZEBRA_ERR_SYSTEM).2)
          else (some p, s2)
        else
          let n := dev.read u.2.trace (u.2.image p).data (u.2.image p).datalen
          let s2 := u.2.log (Event.read (u.2.image p).data (u.2.image p).datalen)
          if ulong_of_int n ≠ (u.2.image p).datalen then
            (none, (err_capture s2 SEV_ERROR ZEBRA_ERR_SYSTEM).2)
          else (some p, s2)

/-- One call of the consumer or of the producer on the queue. -/
inductive Call
  | nq (img : Nat)
  | dq
  deriving DecidableEq, Repr

/-- The record of an interleaving of `v4l1_nq` and `v4l1_dq` calls: the state
reached, the buffers passed to `v4l1_nq`, the buffers returned by `v4l1_dq`,
the buffers submitted and not retrieved since, and whether every submission
was of a buffer that was not in the queue at that moment. -/
structure Run where
  st : State
  submitted : List Nat
  retrieved : List Nat
  queued : List Nat
  fresh : Bool

/-- One call of an interleaving. -/
def Run.step (dev : Device) (r : Run) : Call → Run
  | Call.nq img =>
      { st := (v4l1_nq dev r.st img).2,
        submitted := r.submitted ++ [img],
        retrieved := r.retrieved,
        queued := r.queued ++ [img],
        fresh := r.fresh && decide (img ∉ r.queued) }
  | Call.dq =>
      match (v4l1_dq dev r.st).1 with
      | some p =>
          { st := (v4l1_dq dev r.st).2,
            submitted := r.submitted,
            retrieved := r.retrieved ++ [p],
            queued := r.queued.erase p,
            fresh := r.fresh }
      | none => { r with st := (v4l1_dq dev r.st).2 }

/-- An interleaving of calls, from the state `s`. -/
def run (dev : Device) (s : State) (calls : List Call) : Run :=
  calls.foldl (Run.step dev)
    { st := s, submitted := [], retrieved := [], queued := [], fresh := true }

/-- Submit the buffers of a list one after another. -/
def nq_all (dev : Device) (s : State) : List Nat → State
  | [] => s
  | img :: rest => nq_all dev (v4l1_nq dev s img).2 rest

/-- The results of `n` successive calls of `v4l1_dq`, and the state reached. -/
def dq_n (dev : Device) (s : State) : Nat → List (Option Nat) × State
  | 0 => ([], s)
  | n + 1 =>
      let r := v4l1_dq dev s
      let t := dq_n dev r.2 n
      (r.1 :: t.1, t.2)

/-- The links of the queue: following `next` from the head `h` visits the
buffers of `q` in order and then reaches `NULL`. -/
def chained (image : Nat → zebra_image_t) : Option Nat → List Nat → Prop
  | h, [] => h = none
  | h, a :: rest => h = some a ∧ chained image (image a).next rest

/-- The queue of the session holds the pairwise distinct buffers of `q`, in
this order: `dq_image` is the head of the links and, unless the queue is
empty, `nq_image` is the last buffer. -/
def queue_holds (s : State) (q : List Nat) : Prop :=
  q.Nodup ∧ chained s.image s.vdo.dq_image q ∧ (q ≠ [] → s.vdo.nq_image = q.getLast?)

/-- Every request that `v4l1_dq` makes to the device succeeds: the wait for a
capture is accepted and a read delivers the requested length. -/
def retrieval_succeeds (dev : Device) : Prop :=
  (∀ hist frame, 0 ≤ dev.VIDIOCSYNC hist frame) ∧
  (∀ hist data len, dev.read hist data len = (len : Int))

/-! ## The table of encodings -/

/-- One entry of the table of encodings (`v4l1_format_t`): external code and
bits per pixel. -/
structure v4l1_format_t where
  format : Nat
  bpp : Nat
  deriving DecidableEq, Repr

/-- Modelled from the spec: the macro `fourcc` (a header of the repository) is
not among the sources.  The external encoding code is a four-character
identifier: the four characters are the four bytes of a 32-bit code, the first
one the least significant. -/
def fourcc (a b c d : Char) : Nat :=
  a.toNat ||| (b.toNat <<< 8) ||| (c.toNat <<< 16) ||| (d.toNat <<< 24)

/-- The constant `VIDEO_PALETTE_YUV410P` of linux/videodev.h: the palette
index of the entry that the table below marks `YUV410P`, its last one. -/
def VIDEO_PALETTE_YUV410P : Nat := 16

/-- The constant `VIDEO_MAX_FRAME` of linux/videodev.h: the number of offsets
that a `struct video_mbuf` holds. -/
def VIDEO_MAX_FRAME : Nat := 32

/-- The address `MAP_FAILED` that `mmap` returns when it fails (`(void*)-1`). -/
def MAP_FAILED : Int := -1

/-- The static V4L1 "palette" mappings `v4l1_formats[17]`, indexed by palette. -/
def v4l1_formats : List v4l1_format_t :=
  [ ⟨0, 0⟩,
    ⟨fourcc 'G' 'R' 'E' 'Y', 8⟩,
    ⟨fourcc 'H' 'I' '2' '4', 8⟩,
    ⟨fourcc 'R' 'G' 'B' 'P', 16⟩,
    ⟨fourcc 'B' 'G' 'R' '3', 24⟩,
    ⟨fourcc 'B' 'G' 'R' '4', 32⟩,
    ⟨fourcc 'R' 'G' 'B' 'O', 16⟩,
    ⟨fourcc 'Y' 'U' 'Y' '2', 16⟩,
    ⟨fourcc 'Y' 'U' 'Y' 'V', 16⟩,
    ⟨fourcc 'U' 'Y' 'V' 'Y', 16⟩,
    ⟨0, 12⟩,
    ⟨fourcc 'Y' '4' '1' 'P', 12⟩,
    ⟨0, 0⟩,
    ⟨fourcc '4' '2' '2' 'P', 16⟩,
    ⟨fourcc '4' '1' '1' 'P', 12⟩,
    ⟨fourcc 'Y' 'U' '1' '2', 12⟩,
    ⟨fourcc 'Y' 'U' 'V' '9', 9⟩ ]

/-- The array access `v4l1_formats[i]`, made for `i <= VIDEO_PALETTE_YUV410P`. -/
def v4l1_formats_at (i : Nat) : v4l1_format_t :=
  v4l1_formats.getD i ⟨0, 0⟩

/-! ## Format negotiation -/

/-- Modelled from the spec: `err_capture_int` (error.h) is not among the
sources.  As `err_capture`, with an integer argument for the message. -/
def err_capture_int (s : State) (sev : errsev_t) (type : zebra_error_t) (_arg : Nat) :
    Int × State :=
  err_capture s sev type

/-- The loop `for(ifmt = 1; ifmt <= VIDEO_PALETTE_YUV410P; ifmt++)` of
`v4l1_set_format`, which stops at the first entry whose code is `fmt`; the
result is the value of `ifmt` after the loop.  The first argument bounds the
number of iterations. -/
def set_format_scan (fmt : Nat) : Nat → Nat → Nat
  | 0, ifmt => ifmt
  | fuel + 1, ifmt =>
      if ifmt ≤ VIDEO_PALETTE_YUV410P then
        if (v4l1_formats_at ifmt).format = fmt then ifmt
        else set_format_scan fmt fuel (ifmt + 1)
      else ifmt

/-- The value of `ifmt` when the search loop of `v4l1_set_format` is left. -/
def set_format_ifmt (fmt : Nat) : Nat :=
  set_format_scan fmt VIDEO_PALETTE_YUV410P 1

/-- The function `v4l1_set_format`: look the code up in the table, set the
palette and depth of the entry, query them again, and on an exact round trip
store the encoding and the byte length of a frame. -/
def v4l1_set_format (dev : Device) (s : State) (fmt : Nat) : Int × State :=
  let g1 := dev.VIDIOCGPICT s.trace video_picture.zero
  let s1 := s.log Event.VIDIOCGPICT
  if g1.1 < 0 then err_capture s1 SEV_ERROR ZEBRA_ERR_SYSTEM
  else
    let s2 : State := { s1 with vdo := { s1.vdo with palette := 0 } }
    let ifmt := set_format_ifmt fmt
    if fmt = 0 ∨ ifmt ≥ VIDEO_PALETTE_YUV410P then
      err_capture_int s2 SEV_ERROR ZEBRA_ERR_INVALID fmt
    else
      let vpic : video_picture :=
        { g1.2 with palette := ifmt, depth := (v4l1_formats_at ifmt).bpp }
      let rc := dev.VIDIOCSPICT s2.trace vpic
      let s3 := s2.log (Event.VIDIOCSPICT vpic)
      if rc < 0 then err_capture s3 SEV_ERROR ZEBRA_ERR_SYSTEM
      else
        let g2 := dev.VIDIOCGPICT s3.trace video_picture.zero
        let s4 := s3.log Event.VIDIOCGPICT
        if g2.1 < 0 then err_capture s4 SEV_ERROR ZEBRA_ERR_SYSTEM
        else if g2.2.palette ≠ ifmt ∨ g2.2.depth ≠ (v4l1_formats_at ifmt).bpp then
          err_capture_int s4 SEV_ERROR ZEBRA_ERR_INVALID fmt
        else
          (0, { s4 with vdo := { s4.vdo with
                  format := fmt,
                  palette := ifmt,
                  datalen :=
                    uint (uint (uint (s4.vdo.width * s4.vdo.height) * g2.2.depth) + 7)
                      >>> 3 } })

/-- The picture structure that `v4l1_set_format` passes to the set request for
the code `fmt`: the result of the first query with the palette and the depth
of the table entry found. -/
def set_format_request (dev : Device) (s : State) (fmt : Nat) : video_picture :=
  { (dev.VIDIOCGPICT s.trace video_picture.zero).2 with
      palette := set_format_ifmt fmt,
      depth := (v4l1_formats_at (set_format_ifmt fmt)).bpp }

/-- The answer of the device to the set request of `v4l1_set_format`. -/
def set_format_set_rc (dev : Device) (s : State) (fmt : Nat) : Int :=
  dev.VIDIOCSPICT (s.trace ++ [Event.VIDIOCGPICT]) (set_format_request dev s fmt)

/-- The answer of the device to the query that `v4l1_set_format` makes after
the set request. -/
def set_format_requery (dev : Device) (s : State) (fmt : Nat) : Int × video_picture :=
  dev.VIDIOCGPICT
    (s.trace ++ [Event.VIDIOCGPICT] ++ [Event.VIDIOCSPICT (set_format_request dev s fmt)])
    video_picture.zero

/-- The loop `for(i = 1; i <= VIDEO_PALETTE_YUV410P; i++)` of
`v4l1_probe_formats`, from the index `i` on: the picture structure, the number
of codes listed so far and the state are carried along.  The first argument
bounds the number of iterations. -/
def probe_formats_loop (dev : Device) :
    Nat → Nat → video_picture → Nat → State → video_picture × Nat × State
  | 0, _, vpic, num_formats, s => (vpic, num_formats, s)
  | fuel + 1, i, vpic, num_formats, s =>
      if i ≤ VIDEO_PALETTE_YUV410P then
        if (v4l1_formats_at i).format = 0 then
          probe_formats_loop dev fuel (i + 1) vpic num_formats s
        else
          let vpic1 : video_picture :=
            { vpic with depth := (v4l1_formats_at i).bpp, palette := i }
          let rc := dev.VIDIOCSPICT s.trace vpic1
          let s1 := s.log (Event.VIDIOCSPICT vpic1)
          if rc < 0 then probe_formats_loop dev fuel (i + 1) vpic1 num_formats s1
          else
            let g := dev.VIDIOCGPICT s1.trace vpic1
            let s2 := s1.log Event.VIDIOCGPICT
            if g.1 < 0 ∨ g.2.palette ≠ i then
              probe_formats_loop dev fuel (i + 1) g.2 num_formats s2
            else
              probe_formats_loop dev fuel (i + 1) g.2 (num_formats + 1)
                { s2 with vdo := { s2.vdo with
                    formats := s2.vdo.formats.map
                      (fun l => l.set num_formats (v4l1_formats_at i).format) } }
      else (vpic, num_formats, s)

/-- The function `v4l1_probe_formats`: note the current encoding, list the
codes of the table that the device accepts, shrink the list, and set the
current encoding again. -/
def v4l1_probe_formats (dev : Device) (s : State) : Except crash (Int × State) :=
  let g := dev.VIDIOCGPICT s.trace video_picture.zero
  let s1 := s.log Event.VIDIOCGPICT
  if g.1 < 0 then .ok (err_capture s1 SEV_ERROR ZEBRA_ERR_SYSTEM)
  else
    let s2 : State := { s1 with vdo := { s1.vdo with format := 0 } }
    let s3 : State :=
      if g.2.palette ≤ VIDEO_PALETTE_YUV410P then
        { s2 with vdo := { s2.vdo with format := (v4l1_formats_at g.2.palette).format } }
      else s2
    let got := dev.calloc s3.trace 16
    let s4 := s3.log (Event.calloc 16)
    if got = false then
      .ok (err_capture { s4 with vdo := { s4.vdo with formats := none } }
            SEV_FATAL ZEBRA_ERR_NOMEM)
    else
      let s5 : State :=
        { s4 with vdo := { s4.vdo with formats := some (List.replicate 16 0) } }
      let r := probe_formats_loop dev VIDEO_PALETTE_YUV410P 1 g.2 0 s5
      let num_formats := r.2.1
      let kept := dev.realloc r.2.2.trace (num_formats + 1)
      let s6 := r.2.2.log (Event.realloc (num_formats + 1))
      if kept = false then .error crash.assert_failed
      else
        let s7 : State :=
          { s6 with vdo := { s6.vdo with
              formats := s6.vdo.formats.map (fun l => l.take (num_formats + 1)) } }
        .ok (v4l1_set_format dev s7 s7.vdo.format)

/-! ## Buffer provisioning -/

/-- The body of the loop of `v4l1_mmap_buffers` for the index `i`: the image of
slot `i` gets its pointer into the region and, when a next slot exists, the
distance to the next offset as its length.  The distance is a difference of
two `int`, converted to the `unsigned long` of the length. -/
def mmap_buffers_body (vbuf : video_mbuf) (i : Nat) (s : State) : Except crash State :=
  match s.vdo.images[i]?, vbuf.offsets[i]? with
  | some img, some off =>
      let s1 := s.set_data img (s.vdo.buf + off)
      if (i : Int) + 1 < s1.vdo.num_images then
        match vbuf.offsets[i + 1]? with
        | some off1 =>
            if off1 > off then .ok (s1.set_datalen img (ulong_of_int (int_sub off1 off)))
            else .error crash.assert_failed
        | none => .error crash.out_of_bounds
      else .ok s1
  | _, _ => .error crash.out_of_bounds

/-- The loop `for(i = 0; i < vbuf.frames; i++)` of `v4l1_mmap_buffers`, from the
index `i` on; the result is the value of `i` after the loop and the state.
The first argument bounds the number of iterations. -/
def mmap_buffers_loop (vbuf : video_mbuf) : Nat → Nat → State → Except crash (Nat × State)
  | 0, i, s => .ok (i, s)
  | fuel + 1, i, s =>
      if (i : Int) < vbuf.frames then
        match mmap_buffers_body vbuf i s with
        | .ok s1 => mmap_buffers_loop vbuf fuel (i + 1) s1
        | .error c => .error c
      else .ok (i, s)

/-- The end of `v4l1_mmap_buffers`, once the region is mapped: the loop over
the frames, then the length of the last buffer, which is what is left of the
region after its offset. -/
def mmap_buffers_partition (vbuf : video_mbuf) (s : State) : Except crash (Int × State) :=
  match mmap_buffers_loop vbuf vbuf.frames.toNat 0 s with
  | .error c => .error c
  | .ok (i, s1) =>
      match index? vbuf.offsets ((i : Int) - 1), index? s1.vdo.images ((i : Int) - 1) with
      | some off, some img =>
          if vbuf.size > off then
            .ok (0, s1.set_datalen img (ulong_of_int (int_sub vbuf.size off)))
          else .error crash.assert_failed
      | _, _ => .error crash.out_of_bounds

/-- The state of `v4l1_mmap_buffers` after the call of `mmap` for the geometry
`vbuf`: the size and the address of the region are stored. -/
def mmap_buffers_mapped (dev : Device) (s : State) (vbuf : video_mbuf) : State :=
  { ((s.log Event.VIDIOCGMBUF).log (Event.mmap (ulong_of_int vbuf.size))) with
    vdo := { s.vdo with
      buflen := ulong_of_int vbuf.size,
      buf := dev.mmap (s.trace ++ [Event.VIDIOCGMBUF]) (ulong_of_int vbuf.size) } }

/-- The function `v4l1_mmap_buffers`: query the buffer geometry, map the region
and give every frame buffer its sub-range of the region. -/
def v4l1_mmap_buffers (dev : Device) (s : State) : Except crash (Int × State) :=
  let g := dev.VIDIOCGMBUF s.trace (video_mbuf.zero VIDEO_MAX_FRAME)
  if g.1 < 0 then .ok (err_capture (s.log Event.VIDIOCGMBUF) SEV_ERROR ZEBRA_ERR_SYSTEM)
  else
    let vbuf := g.2
    if vbuf.frames = 0 ∨ vbuf.size = 0 then .error crash.assert_failed
    else
      let s1 := mmap_buffers_mapped dev s vbuf
      if s1.vdo.buf = MAP_FAILED then .ok (err_capture s1 SEV_ERROR ZEBRA_ERR_SYSTEM)
      else mmap_buffers_partition vbuf s1

/-! ## Session lifecycle -/

/-- The constant `EINVAL` of errno.h. -/
def EINVAL : Int := 22

/-- The conversion of an `int` to `unsigned` (32 bits). -/
def uint_of_int (x : Int) : Nat := (x % 2 ^ 32).toNat

/-- The function `v4l1_cleanup`: in shared-memory mode, a region whose address
is not `NULL` is unmapped and the address is reset. -/
def v4l1_cleanup (dev : Device) (s : State) : Int × State :=
  if s.vdo.iomode = VIDEO_MMAP ∧ s.vdo.buf ≠ 0 then
    let rc := dev.munmap s.trace s.vdo.buf s.vdo.buflen
    let s1 := s.log (Event.munmap s.vdo.buf s.vdo.buflen)
    if rc ≠ 0 then err_capture s1 SEV_ERROR ZEBRA_ERR_SYSTEM
    else (0, { s1 with vdo := { s1.vdo with buf := 0 } })
  else (0, s)

/-- The function `v4l1_probe_iomode`: read mode unless the device reports a
buffer geometry with frames and a size, in which case shared-memory mode with
at most as many images as the device has frames. -/
def v4l1_probe_iomode (dev : Device) (s : State) : Int × State :=
  let s1 : State := { s with vdo := { s.vdo with iomode := VIDEO_READWRITE } }
  let g := dev.VIDIOCGMBUF s1.trace (video_mbuf.zero VIDEO_MAX_FRAME)
  let s2 := s1.log Event.VIDIOCGMBUF
  if g.1 < 0 then
    if dev.errno s2.trace ≠ EINVAL then err_capture s2 SEV_ERROR ZEBRA_ERR_SYSTEM
    else (0, s2)
  else if g.2.frames = 0 ∨ g.2.size = 0 then (0, s2)
  else
    let s3 : State := { s2 with vdo := { s2.vdo with iomode := VIDEO_MMAP } }
    if s3.vdo.num_images > g.2.frames then
      (0, { s3 with vdo := { s3.vdo with num_images := g.2.frames } })
    else (0, s3)

/-- The loop `for(i = 0; i < vdo->num_images; i++)` of `v4l1_stop`, from the
index `i` on.  The first argument bounds the number of iterations. -/
def v4l1_stop_loop : Nat → Nat → State → Except crash State
  | 0, _, s => .ok s
  | fuel + 1, i, s =>
      if (i : Int) < s.vdo.num_images then
        match s.vdo.images[i]? with
        | some img => v4l1_stop_loop fuel (i + 1) (s.set_next img none)
        | none => .error crash.out_of_bounds
      else .ok s

/-- The function `v4l1_stop`: clear the link of every image, reset the head and
the tail of the queue (`vdo->nq_image = vdo->dq_image = NULL` assigns
`dq_image`, then `nq_image`), release the lock. -/
def v4l1_stop (s : State) : Except crash (Int × State) :=
  match v4l1_stop_loop s.vdo.num_images.toNat 0 s with
  | .error c => .error c
  | .ok s1 =>
      .ok (video_unlock ((s1.set_dq_image none).set_nq_image none))

/-- The call `vdo->nq(vdo, img)` through the function pointer of the session. -/
def call_nq (dev : Device) (s : State) (img : Nat) : Except crash (Int × State) :=
  match s.vdo.nq with
  | some video_fn.v4l1_nq => .ok (v4l1_nq dev s img)
  | _ => .error crash.null_call

/-- The call `vdo->stop(vdo)` through the function pointer of the session. -/
def call_stop (s : State) : Except crash (Int × State) :=
  match s.vdo.stop with
  | some video_fn.v4l1_stop => v4l1_stop s
  | _ => .error crash.null_call

/-- The statement `if(vdo->cleanup) vdo->cleanup(vdo);`, the result of the
call being dropped. -/
def call_cleanup (dev : Device) (s : State) : Except crash State :=
  match s.vdo.cleanup with
  | none => .ok s
  | some video_fn.v4l1_cleanup => .ok (v4l1_cleanup dev s).2
  | some _ => .error crash.null_call

/-- The loop `for(i = 0; i < vdo->num_images; i++)` of `v4l1_start`, from the
index `i` on: image `i` is submitted and, unless it is the last one, the lock
is taken again.  The first argument bounds the number of iterations. -/
def v4l1_start_loop (dev : Device) : Nat → Nat → State → Except crash (Int × State)
  | 0, _, s => .ok (0, s)
  | fuel + 1, i, s =>
      if (i : Int) < s.vdo.num_images then
        match s.vdo.images[i]? with
        | none => .error crash.out_of_bounds
        | some img =>
            match call_nq dev s img with
            | .error c => .error c
            | .ok r =>
                if r.1 ≠ 0 then .ok (-1, r.2)
                else if (i : Int) + 1 < r.2.vdo.num_images then
                  if (video_lock r.2).1 ≠ 0 then .ok (-1, (video_lock r.2).2)
                  else v4l1_start_loop dev fuel (i + 1) (video_lock r.2).2
                else v4l1_start_loop dev fuel (i + 1) r.2
      else .ok (0, s)

/-- The function `v4l1_start`: enqueue all buffers. -/
def v4l1_start (dev : Device) (s : State) : Except crash (Int × State) :=
  v4l1_start_loop dev s.vdo.num_images.toNat 0 s

/-- The function `v4l1_init`: set the format and, in shared-memory mode, map
the buffers. -/
def v4l1_init (dev : Device) (s : State) (fmt : Nat) : Except crash (Int × State) :=
  let r := v4l1_set_format dev s fmt
  if r.1 ≠ 0 then .ok (-1, r.2)
  else if r.2.vdo.iomode = VIDEO_MMAP then
    match v4l1_mmap_buffers dev r.2 with
    | .error c => .error c
    | .ok m => if m.1 ≠ 0 then .ok (-1, m.2) else .ok (0, m.2)
  else .ok (0, r.2)

/-- The end of `v4l1_init_window` after a resize that failed or shrank the
window: the window `vwin` of the first query is set again, errors ignored, and
the resulting window is queried and stored. -/
def init_window_recover (dev : Device) (s : State) (vwin : video_window) : Int × State :=
  let s1 := s.log (Event.VIDIOCSWIN vwin)
  let g := dev.VIDIOCGWIN s1.trace video_window.zero
  let s2 := s1.log Event.VIDIOCGWIN
  if g.1 < 0 then err_capture s2 SEV_ERROR ZEBRA_ERR_SYSTEM
  else (0, { s2 with vdo := { s2.vdo with width := g.2.width, height := g.2.height } })

/-- The function `v4l1_init_window`: query the window, and unless it already
has the size stored in the session, ask for that size and store the size that
the device then reports. -/
def v4l1_init_window (dev : Device) (s : State) : Int × State :=
  let g := dev.VIDIOCGWIN s.trace video_window.zero
  let s1 := s.log Event.VIDIOCGWIN
  if g.1 < 0 then err_capture s1 SEV_ERROR ZEBRA_ERR_SYSTEM
  else
    let vwin := g.2
    if vwin.width = s1.vdo.width ∧ vwin.height = s1.vdo.height then (0, s1)
    else
      let maxwin : video_window :=
        { vwin with width := s1.vdo.width, height := s1.vdo.height }
      let rc := dev.VIDIOCSWIN s1.trace maxwin
      let s2 := s1.log (Event.VIDIOCSWIN maxwin)
      if 0 ≤ rc then
        let g2 := dev.VIDIOCGWIN s2.trace video_window.zero
        let s3 := s2.log Event.VIDIOCGWIN
        if g2.1 < 0 then err_capture s3 SEV_ERROR ZEBRA_ERR_SYSTEM
        else
          let s4 : State :=
            { s3 with vdo := { s3.vdo with width := g2.2.width, height := g2.2.height } }
          if g2.2.width ≥ vwin.width ∧ g2.2.height ≥ vwin.height then (0, s4)
          else init_window_recover dev s4 vwin
      else init_window_recover dev s2 vwin

/-- The function `_zebra_v4l1_probe`: check that the device captures, take its
maximum window, negotiate the window, the formats and the transfer mode, and
store the functions of this backend in the session. -/
def _zebra_v4l1_probe (dev : Device) (s : State) : Except crash (Int × State) :=
  let g := dev.VIDIOCGCAP s.trace video_capability.zero
  let s1 := s.log Event.VIDIOCGCAP
  if g.1 < 0 then .ok (err_capture s1 SEV_ERROR ZEBRA_ERR_UNSUPPORTED)
  else if g.2.type % 2 = 0 then .ok (err_capture s1 SEV_ERROR ZEBRA_ERR_UNSUPPORTED)
  else
    let s2 : State :=
      { s1 with vdo := { s1.vdo with
          width := uint_of_int g.2.maxwidth, height := uint_of_int g.2.maxheight } }
    let w := v4l1_init_window dev s2
    if w.1 ≠ 0 then .ok (-1, w.2)
    else
      match v4l1_probe_formats dev w.2 with
      | .error c => .error c
      | .ok f =>
          if f.1 ≠ 0 then .ok (-1, f.2)
          else
            let m := v4l1_probe_iomode dev f.2
            if m.1 ≠ 0 then .ok (-1, m.2)
            else
              .ok (0, { m.2 with vdo := { m.2.vdo with
                    intf := video_interface_t.VIDEO_V4L1,
                    init := some video_fn.v4l1_init,
                    cleanup := some video_fn.v4l1_cleanup,
                    start := some video_fn.v4l1_start,
                    stop := some video_fn.v4l1_stop,
                    nq := some video_fn.v4l1_nq,
                    dq := some video_fn.v4l1_dq } })

/-- The statement `if(vdo->active) { vdo->active = 0; vdo->stop(vdo); }` of
`_zebra_video_open`, the result of the call being dropped. -/
def video_close_stop (s : State) : Except crash State :=
  if s.vdo.active = true then
    match call_stop { s with vdo := { s.vdo with active := false } } with
    | .error c => .error c
    | .ok r => .ok r.2
  else .ok s

/-- The block `if(vdo->fd >= 0)` of `_zebra_video_open`, which closes an open
device: the lock is taken, an active session is stopped, the buffers are
released, the handle is closed and forgotten, the lock is released. -/
def video_close_block (dev : Device) (s : State) : Except crash State :=
  if 0 ≤ s.vdo.fd then
    match video_close_stop (video_lock s).2 with
    | .error c => .error c
    | .ok s2 =>
        match call_cleanup dev s2 with
        | .error c => .error c
        | .ok s3 =>
            .ok (video_unlock
              { (s3.log (Event.close s3.vdo.fd)) with vdo := { s3.vdo with fd := -1 } }).2
  else .ok s

/-- The function `_zebra_video_open`, in the build without linux/videodev2.h
(with it, the probe of the newer protocol, which is in another file, runs
before `_zebra_v4l1_probe`): close the open device; then, unless the name is
`NULL`, open the named device, or /dev/video0 for the empty name, and probe
it. -/
def _zebra_video_open (dev : Device) (s : State) (name : Option String) :
    Except crash (Int × State) :=
  match video_close_block dev s with
  | .error c => .error c
  | .ok s1 =>
      match name with
      | none => .ok (0, s1)
      | some given =>
          let path : String := if given.isEmpty then "/dev/video0" else given
          let fd := dev.sys_open s1.trace path
          let s2 : State := { (s1.log (Event.sys_open path)) with
            vdo := { s1.vdo with fd := fd } }
          if fd < 0 then .ok (err_capture s2 SEV_ERROR ZEBRA_ERR_SYSTEM)
          else
            match _zebra_v4l1_probe dev s2 with
            | .error c => .error c
            | .ok r =>
                if r.1 ≠ 0 ∧ 0 ≤ r.2.vdo.fd then
                  .ok (r.1, { (r.2.log (Event.close r.2.vdo.fd)) with
                    vdo := { r.2.vdo with fd := -1 } })
                else .ok r

/-! ## The steps of a call -/

/-- Whether a step writes a field of the queue. -/
def Step.is_queue_write : Step → Bool
  | Step.request _ => false
  | _ => true

/-- Whether a step is a request to the device: the start of a capture, the
wait for a capture, or a read. -/
def Step.is_device_request : Step → Bool
  | Step.request (Event.VIDIOCMCAPTURE _) => true
  | Step.request (Event.VIDIOCSYNC _) => true
  | Step.request (Event.read _ _) => true
  | _ => false

/-! ## Concrete sessions and devices used in the examples -/

/-- A device on which every request succeeds: a set request is accepted, a
picture query gives back `vpic`, a geometry query gives back `vbuf`, a read
delivers the requested length and the mapping is placed at `base`. -/
def device_ok (vpic : video_picture) (vbuf : video_mbuf) (base : Int) : Device :=
  { VIDIOCGWIN := fun _ w => (0, w),
    VIDIOCSWIN := fun _ _ => 0,
    VIDIOCGPICT := fun _ _ => (0, vpic),
    VIDIOCSPICT := fun _ _ => 0,
    VIDIOCGMBUF := fun _ _ => (0, vbuf),
    VIDIOCMCAPTURE := fun _ _ => 0,
    VIDIOCSYNC := fun _ _ => 0,
    read := fun _ _ n => n,
    mmap := fun _ _ => base,
    munmap := fun _ _ _ => 0,
    calloc := fun _ _ => true,
    realloc := fun _ _ => true,
    errno := fun _ => 0 }

/-- The picture structure of the last set request of a history, all zero
when there has been none. -/
def last_set_picture (hist : List Event) : video_picture :=
  hist.foldl
    (fun acc e => match e with
      | Event.VIDIOCSPICT vpic => vpic
      | _ => acc)
    video_picture.zero

/-- A device that accepts every set request and answers a picture query with
the palette and the depth of the last set request. -/
def device_echo : Device :=
  { device_ok video_picture.zero (video_mbuf.zero 0) 0 with
    VIDIOCGPICT := fun hist _ => (0, last_set_picture hist) }

/-- A device that accepts every set request and answers a picture query with
the palette of the last set request, but always with the depth 8. -/
def device_depth8 : Device :=
  { device_ok video_picture.zero (video_mbuf.zero 0) 0 with
    VIDIOCGPICT := fun hist _ => (0, { last_set_picture hist with depth := 8 }) }

/-- A device on which the picture query fails. -/
def device_no_picture : Device :=
  { device_ok video_picture.zero (video_mbuf.zero 0) 0 with
    VIDIOCGPICT := fun _ vpic => (-1, vpic) }

/-- A picture structure with the given palette and depth. -/
def picture (palette depth : Nat) : video_picture :=
  { video_picture.zero with palette := palette, depth := depth }

/-- An image of slot `i` that is in no queue and has no storage yet. -/
def image_init (i : Nat) : zebra_image_t :=
  { next := none, srcidx := i, data := 0, datalen := 0 }

/-- A session with `n` frame buffers, nothing queued, nothing negotiated. -/
def vdo_init (n : Nat) (mode : video_iomode_t) : zebra_video_t :=
  { err_sev := SEV_OK, err_type := ZEBRA_OK, fd := 3, width := 320, height := 240,
    intf := video_interface_t.VIDEO_INVALID, iomode := mode, active := false,
    format := 0, palette := 0, formats := none, datalen := 0, buflen := 0, buf := 0,
    num_images := n, images := List.range n, nq_image := none, dq_image := none }

/-- The stopped session with `n` frame buffers: image `i` is the buffer of
slot `i`, no request has been made. -/
def state_init (n : Nat) (mode : video_iomode_t) : State :=
  { vdo := vdo_init n mode, image := image_init, trace := [] }

/-- The history before the last window query (`VIDIOCGWIN`) of a trace, `none`
when the trace has no window query. -/
def last_window_query : List Event → Option (List Event)
  | [] => none
  | e :: rest =>
      match last_window_query rest with
      | some hist => some (e :: hist)
      | none => if e = Event.VIDIOCGWIN then some [] else none

/-- A device whose buffer-geometry query fails with the error number `errno`
after the driver has filled in `vbuf`. -/
def device_geometry_fails (errno : Int) (vbuf : video_mbuf) : Device :=
  { device_ok video_picture.zero vbuf 4096 with
    VIDIOCGMBUF := fun _ _ => (-1, vbuf),
    errno := fun _ => errno }

/-- A device that reports the geometry `vbuf` but on which `mmap` fails, and
`munmap` of an address that is not a mapping fails as well. -/
def device_mmap_fails (vbuf : video_mbuf) : Device :=
  { device_ok video_picture.zero vbuf 4096 with
    mmap := fun _ _ => MAP_FAILED,
    munmap := fun _ addr _ => if addr = 4096 then 0 else -1 }

/-- A device that answers a window query with the window of the last
successful set request, a window of 320 x 240 before any, and that accepts a
set request only up to the size `maxw` x `maxh`. -/
def device_window (maxw maxh : Nat) : Device :=
  { device_ok video_picture.zero (video_mbuf.zero 0) 4096 with
    VIDIOCSWIN := fun _ vwin => if vwin.width ≤ maxw ∧ vwin.height ≤ maxh then 0 else -1,
    VIDIOCGWIN := fun hist _ =>
      (0, hist.foldl
        (fun acc e => match e with
          | Event.VIDIOCSWIN vwin =>
              if vwin.width ≤ maxw ∧ vwin.height ≤ maxh then vwin else acc
          | _ => acc)
        { video_window.zero with width := 320, height := 240 }) }

/-- The session of `state_init` after `_zebra_v4l1_probe` has stored the
functions of this backend, with the device handle 3 open. -/
def state_bound (n : Nat) (mode : video_iomode_t) : State :=
  { state_init n mode with
    vdo := { vdo_init n mode with
      intf := video_interface_t.VIDEO_V4L1,
      init := some video_fn.v4l1_init,
      cleanup := some video_fn.v4l1_cleanup,
      start := some video_fn.v4l1_start,
      stop := some video_fn.v4l1_stop,
      nq := some video_fn.v4l1_nq,
      dq := some video_fn.v4l1_dq } }

/-- The session of `state_bound` with four buffers in shared-memory mode, after
it has been started and its first buffer has been retrieved, on a device on
which every request succeeds. -/
def state_streaming : State :=
  match v4l1_start (device_ok video_picture.zero (video_mbuf.zero 0) 4096)
      (state_bound 4 VIDEO_MMAP) with
  | .ok r => (v4l1_dq (device_ok video_picture.zero (video_mbuf.zero 0) 4096) r.2).2
  | .error _ => state_bound 4 VIDEO_MMAP

/-- C1, evaluated on the code: from the stopped session with one buffer, on a
device where every request succeeds, the calls submit 0, retrieve, submit 0,
retrieve, retrieve only ever submit the buffer while it is not in the queue,
yet they retrieve it three times for two submissions; the retrieved sequence
is not a prefix of the submitted one.  The second submission finds the buffer
still recorded as the tail (`nq_image`) and links it to itself. -/
theorem v4l1_queue_resubmitted_tail_retrieved_twice :
    (state_init 1 VIDEO_MMAP).vdo.nq_image = none ∧
    (state_init 1 VIDEO_MMAP).vdo.dq_image = none ∧
    (run (device_ok video_picture.zero (video_mbuf.zero 0) 0) (state_init 1 VIDEO_MMAP)
        [Call.nq 0, Call.dq, Call.nq 0, Call.dq, Call.dq]).fresh = true ∧
    (run (device_ok video_picture.zero (video_mbuf.zero 0) 0) (state_init 1 VIDEO_MMAP)
        [Call.nq 0, Call.dq, Call.nq 0, Call.dq, Call.dq]).submitted = [0, 0] ∧
    (run (device_ok video_picture.zero (video_mbuf.zero 0) 0) (state_init 1 VIDEO_MMAP)
        [Call.nq 0, Call.dq, Call.nq 0, Call.dq, Call.dq]).retrieved = [0, 0, 0] ∧
    ¬ ((run (device_ok video_picture.zero (video_mbuf.zero 0) 0) (state_init 1 VIDEO_MMAP)
        [Call.nq 0, Call.dq, Call.nq 0, Call.dq, Call.dq]).retrieved <+:
       (run (device_ok video_picture.zero (video_mbuf.zero 0) 0) (state_init 1 VIDEO_MMAP)
        [Call.nq 0, Call.dq, Call.nq 0, Call.dq, Call.dq]).submitted) := by
  refine ⟨rfl, rfl, rfl, rfl, rfl, ?_⟩
  have h1 : (run (device_ok video_picture.zero (video_mbuf.zero 0) 0) (state_init 1 VIDEO_MMAP)
        [Call.nq 0, Call.dq, Call.nq 0, Call.dq, Call.dq]).retrieved = [0, 0, 0] := rfl
  have h2 : (run (device_ok video_picture.zero (video_mbuf.zero 0) 0) (state_init 1 VIDEO_MMAP)
        [Call.nq 0, Call.dq, Call.nq 0, Call.dq, Call.dq]).submitted = [0, 0] := rfl
  rw [h1, h2]
  decide

/-- C2, evaluated on the code: after buffer 0 has been submitted to the
stopped session and retrieved, the queue is empty (`dq_image` is `NULL`);
submitting the one-element list [0] then makes the next two calls of
`v4l1_dq` both succeed and both return buffer 0, in read mode as in
shared-memory mode. -/
theorem v4l1_queue_single_buffer_returned_twice :
    (v4l1_dq (device_ok video_picture.zero (video_mbuf.zero 0) 0)
        (v4l1_nq (device_ok video_picture.zero (video_mbuf.zero 0) 0)
          (state_init 1 VIDEO_READWRITE) 0).2).1 = some 0 ∧
    (v4l1_dq (device_ok video_picture.zero (video_mbuf.zero 0) 0)
        (v4l1_nq (device_ok video_picture.zero (video_mbuf.zero 0) 0)
          (state_init 1 VIDEO_READWRITE) 0).2).2.vdo.dq_image = none ∧
    (dq_n (device_ok video_picture.zero (video_mbuf.zero 0) 0)
        (nq_all (device_ok video_picture.zero (video_mbuf.zero 0) 0)
          (v4l1_dq (device_ok video_picture.zero (video_mbuf.zero 0) 0)
            (v4l1_nq (device_ok video_picture.zero (video_mbuf.zero 0) 0)
              (state_init 1 VIDEO_READWRITE) 0).2).2 [0]) 3).1 = [some 0, some 0, none] ∧
    (dq_n (device_ok video_picture.zero (video_mbuf.zero 0) 0)
        (nq_all (device_ok video_picture.zero (video_mbuf.zero 0) 0)
          (v4l1_dq (device_ok video_picture.zero (video_mbuf.zero 0) 0)
            (v4l1_nq (device_ok video_picture.zero (video_mbuf.zero 0) 0)
              (state_init 1 VIDEO_MMAP) 0).2).2 [0]) 3).1 = [some 0, some 0, none] :=
  ⟨rfl, rfl, rfl, rfl⟩

/-- C3: when the queue is empty (`dq_image` is `NULL`), `v4l1_dq` returns no
buffer, records an error of kind `ZEBRA_ERR_BUSY`, makes no request but the
release of the lock (no `VIDIOCSYNC`, no `read`), and leaves `nq_image`,
`dq_image` and the whole heap of images, so every `next` link, unchanged. -/
theorem v4l1_dq_empty_queue_busy (dev : Device) (s : State)
    (hempty : s.vdo.dq_image = none) :
    (v4l1_dq dev s).1 = none ∧
    (v4l1_dq dev s).2.vdo.err_sev = SEV_ERROR ∧
    (v4l1_dq dev s).2.vdo.err_type = ZEBRA_ERR_BUSY ∧
    (v4l1_dq dev s).2.trace = s.trace ++ [Event.unlock] ∧
    (v4l1_dq dev s).2.vdo.nq_image = s.vdo.nq_image ∧
    (v4l1_dq dev s).2.vdo.dq_image = s.vdo.dq_image ∧
    (v4l1_dq dev s).2.image = s.image ∧
    (∀ p, ((v4l1_dq dev s).2.image p).next = (s.image p).next) := by
  simp [v4l1_dq, hempty, video_unlock, err_capture, State.log]

/-- C3 at a concrete session: the stopped session with four buffers. -/
theorem v4l1_dq_empty_queue_busy_witness :
    (state_init 4 VIDEO_MMAP).vdo.dq_image = none ∧
    (v4l1_dq device_echo (state_init 4 VIDEO_MMAP)).1 = none ∧
    (v4l1_dq device_echo (state_init 4 VIDEO_MMAP)).2.vdo.err_type = ZEBRA_ERR_BUSY ∧
    (v4l1_dq device_echo (state_init 4 VIDEO_MMAP)).2.trace = [Event.unlock] :=
  ⟨rfl, (v4l1_dq_empty_queue_busy device_echo (state_init 4 VIDEO_MMAP) rfl).1,
    (v4l1_dq_empty_queue_busy device_echo (state_init 4 VIDEO_MMAP) rfl).2.2.1,
    (v4l1_dq_empty_queue_busy device_echo (state_init 4 VIDEO_MMAP) rfl).2.2.2.1⟩

/-- The queue fields after `v4l1_nq`, whatever the device answers. -/
lemma v4l1_nq_queue (dev : Device) (s : State) (img : Nat) :
    (v4l1_nq dev s img).2.vdo.nq_image = some img ∧
    (v4l1_nq dev s img).2.vdo.dq_image =
      (if s.vdo.dq_image = none then some img else s.vdo.dq_image) ∧
    (v4l1_nq dev s img).2.image =
      (match s.vdo.nq_image with
        | some t => (s.set_next img none).set_next t (some img)
        | none => s.set_next img none).image := by
  unfold v4l1_nq
  cases hnq : s.vdo.nq_image <;> cases hdq : s.vdo.dq_image <;>
    simp [State.set_next, State.set_nq_image, State.set_dq_image, video_unlock, State.log,
      err_capture, hnq, hdq] <;>
    split_ifs <;> simp

/-- The queue fields after `v4l1_dq` on a queue with head `a`, whatever the
device answers; the head is returned when the request to the device
succeeds. -/
lemma v4l1_dq_queue (dev : Device) (s : State) (a : Nat) (hd : s.vdo.dq_image = some a) :
    (v4l1_dq dev s).2.vdo.nq_image = s.vdo.nq_image ∧
    (v4l1_dq dev s).2.vdo.dq_image = (s.image a).next ∧
    (v4l1_dq dev s).2.image = (s.set_next a none).image ∧
    (retrieval_succeeds dev → (v4l1_dq dev s).1 = some a) := by
  unfold v4l1_dq
  simp only [hd, video_unlock, State.log, State.set_next, State.set_dq_image, err_capture]
  refine ⟨?_, ?_, ?_, ?_⟩
  · split_ifs <;> simp
  · split_ifs <;> simp
  · split_ifs <;> simp
  · intro hdev
    have h1 := hdev.1
    have h2 := hdev.2
    have h3 : ∀ n : Nat, ulong_of_int (n : Int) = n := fun n => by
      unfold ulong_of_int
      rw [if_pos (Int.natCast_nonneg n)]
      exact Int.toNat_natCast n
    split_ifs with c1 c2 c3 c4
    · simp at c1
    · exact absurd (h1 _ _) (not_le.mpr c3)
    · rfl
    · exact absurd (by rw [h2]; exact h3 _) c4
    · rfl

/-- The links of a queue do not depend on the images outside the queue. -/
lemma chained_congr (image image' : Nat → zebra_image_t) :
    ∀ (q : List Nat) (h : Option Nat), (∀ a ∈ q, (image' a).next = (image a).next) →
      chained image h q → chained image' h q := by
  intro q
  induction q with
  | nil => intro h _ hc; exact hc
  | cons a rest ih =>
      intro h hag hc
      refine ⟨hc.1, ?_⟩
      rw [hag a (List.mem_cons_self _ _)]
      exact ih _ (fun b hb => hag b (List.mem_cons_of_mem _ hb)) hc.2

/-- Linking a new buffer behind the last buffer of a queue appends it. -/
lemma chained_append (image image' : Nat → zebra_image_t) (t img : Nat)
    (ht : (image' t).next = some img) (hi : (image' img).next = none)
    (hother : ∀ p, p ≠ t → p ≠ img → (image' p).next = (image p).next) :
    ∀ (q : List Nat) (h : Option Nat), chained image h q → q.getLast? = some t →
      img ∉ q → q.Nodup → chained image' h (q ++ [img]) := by
  intro q
  induction q with
  | nil => intro h _ hl; simp at hl
  | cons a rest ih =>
      intro h hc hl himg hnd
      have hai : a ≠ img := fun e => himg (e ▸ List.mem_cons_self _ _)
      cases rest with
      | nil =>
          simp only [List.getLast?_singleton, Option.some.injEq] at hl
          subst hl
          exact ⟨hc.1, by rw [ht]; exact ⟨rfl, hi⟩⟩
      | cons b rest' =>
          have hl' : (b :: rest').getLast? = some t := by
            rw [List.getLast?_cons_cons] at hl; exact hl
          have hat : a ≠ t := by
            intro e
            have hmem : t ∈ b :: rest' := List.mem_of_getLast?_eq_some hl'
            exact (List.nodup_cons.mp hnd).1 (e ▸ hmem)
          refine ⟨hc.1, ?_⟩
          have hrec := ih _ hc.2 hl' (fun hm => himg (List.mem_cons_of_mem _ hm))
            (List.nodup_cons.mp hnd).2
          rw [← hother a hat hai] at hrec
          exact hrec

/-- Submitting a buffer that is not in a non-empty queue appends it. -/
lemma v4l1_nq_appends (dev : Device) (s : State) (q : List Nat) (img : Nat)
    (hq : queue_holds s q) (hne : q ≠ []) (himg : img ∉ q) :
    queue_holds (v4l1_nq dev s img).2 (q ++ [img]) := by
  obtain ⟨hnd, hch, hlast⟩ := hq
  obtain ⟨h1, h2, h3⟩ := v4l1_nq_queue dev s img
  have hl := hlast hne
  obtain ⟨t, ht⟩ : ∃ t, q.getLast? = some t := by
    cases hq' : q.getLast? with
    | none => exact absurd (List.getLast?_eq_none_iff.mp hq') hne
    | some t => exact ⟨t, rfl⟩
  rw [ht] at hl
  have htq : t ∈ q := List.mem_of_getLast?_eq_some ht
  have hti : t ≠ img := fun e => himg (e ▸ htq)
  have hdq : s.vdo.dq_image ≠ none := by
    cases q with
    | nil => exact absurd rfl hne
    | cons a rest => rw [hch.1]; simp
  refine ⟨?_, ?_, ?_⟩
  · exact List.Nodup.append hnd (List.nodup_singleton _) (by simpa using himg)
  · rw [h2, if_neg hdq, h3, hl]
    apply chained_append s.image _ t img _ _ _ q _ hch ht himg hnd
    · simp [State.set_next]
    · simp [State.set_next, hti.symm]
    · intro p hp1 hp2; simp [State.set_next, hp1, hp2]
  · intro _
    rw [h1]; simp

/-- Submitting a buffer to an empty queue makes it the queue, unless it is the
buffer that `nq_image` still points at. -/
lemma v4l1_nq_first (dev : Device) (s : State) (img : Nat)
    (hempty : s.vdo.dq_image = none) (htail : s.vdo.nq_image ≠ some img) :
    queue_holds (v4l1_nq dev s img).2 [img] := by
  obtain ⟨h1, h2, h3⟩ := v4l1_nq_queue dev s img
  refine ⟨List.nodup_singleton _, ?_, fun _ => by rw [h1]; rfl⟩
  rw [h2, if_pos hempty, h3]
  refine ⟨rfl, ?_⟩
  cases hnq : s.vdo.nq_image with
  | none => simp [State.set_next, chained]
  | some t =>
      have hti : img ≠ t := by
        intro e; apply htail; rw [hnq, e]
      simp [State.set_next, chained, hti]

/-- Submitting two distinct buffers to an empty queue makes them the queue,
wherever `nq_image` pointed. -/
lemma v4l1_nq_first_two (dev : Device) (s : State) (a b : Nat)
    (hempty : s.vdo.dq_image = none) (hab : a ≠ b) :
    queue_holds (v4l1_nq dev (v4l1_nq dev s a).2 b).2 [a, b] := by
  obtain ⟨h1, h2, h3⟩ := v4l1_nq_queue dev s a
  obtain ⟨k1, k2, k3⟩ := v4l1_nq_queue dev (v4l1_nq dev s a).2 b
  refine ⟨by simp [hab], ?_, fun _ => by rw [k1]; rfl⟩
  rw [k2, k3, h1, h2, if_pos hempty]
  simp only [if_false, reduceCtorEq]
  refine ⟨rfl, ?_⟩
  have e1 : ((((v4l1_nq dev s a).2.set_next b none).set_next a (some b)).image a).next
      = some b := by simp [State.set_next]
  have e2 : ((((v4l1_nq dev s a).2.set_next b none).set_next a (some b)).image b).next
      = none := by simp [State.set_next, hab.symm]
  rw [e1]
  exact ⟨rfl, e2⟩

/-- Retrieving from a non-empty queue removes its first buffer and, when the
request to the device succeeds, returns it. -/
lemma v4l1_dq_pops (dev : Device) (s : State) (a : Nat) (rest : List Nat)
    (hq : queue_holds s (a :: rest)) :
    queue_holds (v4l1_dq dev s).2 rest ∧
    (retrieval_succeeds dev → (v4l1_dq dev s).1 = some a) := by
  obtain ⟨hnd, hch, hlast⟩ := hq
  obtain ⟨h1, h2, h3, h4⟩ := v4l1_dq_queue dev s a hch.1
  refine ⟨⟨(List.nodup_cons.mp hnd).2, ?_, ?_⟩, h4⟩
  · rw [h2, h3]
    apply chained_congr s.image _ rest _ _ hch.2
    intro c hc
    have hca : c ≠ a := fun e => (List.nodup_cons.mp hnd).1 (e ▸ hc)
    simp [State.set_next, hca]
  · intro hne
    rw [h1, hlast (by simp)]
    cases rest with
    | nil => exact absurd rfl hne
    | cons b rest' => rw [List.getLast?_cons_cons]

/-- Retrieving from an empty queue returns `NULL` and leaves the queue
empty. -/
lemma v4l1_dq_empty (dev : Device) (s : State) (hq : queue_holds s []) :
    queue_holds (v4l1_dq dev s).2 [] ∧ (v4l1_dq dev s).1 = none := by
  have hempty : s.vdo.dq_image = none := hq.2.1
  refine ⟨⟨List.nodup_nil, ?_, fun h => absurd rfl h⟩, ?_⟩
  · show (v4l1_dq dev s).2.vdo.dq_image = none
    simp [v4l1_dq, hempty, video_unlock, err_capture, State.log]
  · simp [v4l1_dq, hempty, video_unlock, err_capture, State.log]

/-- Submitting a list of distinct buffers, none of them in the non-empty
queue, appends the list to the queue. -/
lemma nq_all_appends (dev : Device) :
    ∀ (l : List Nat) (s : State) (q : List Nat), queue_holds s q → q ≠ [] →
      (q ++ l).Nodup → queue_holds (nq_all dev s l) (q ++ l) := by
  intro l
  induction l with
  | nil => intro s q hq _ _; simpa [nq_all] using hq
  | cons a rest ih =>
      intro s q hq hne hnd
      have ha : a ∉ q := by
        intro hmem
        have := List.nodup_append.mp hnd
        exact this.2.2 hmem (List.mem_cons_self _ _)
      have hstep := v4l1_nq_appends dev s q a hq hne ha
      have := ih (v4l1_nq dev s a).2 (q ++ [a]) hstep (by simp)
        (by simpa [List.append_assoc] using hnd)
      simpa [nq_all, List.append_assoc] using this

/-- Submitting a list of distinct buffers to an empty queue makes the list the
queue, unless the list is the single buffer that `nq_image` still points
at. -/
lemma nq_all_from_empty (dev : Device) (s : State) (l : List Nat)
    (hempty : s.vdo.dq_image = none) (hnd : l.Nodup)
    (htail : ∀ a, l = [a] → s.vdo.nq_image ≠ some a) :
    queue_holds (nq_all dev s l) l := by
  cases l with
  | nil => exact ⟨List.nodup_nil, hempty, fun h => absurd rfl h⟩
  | cons a rest =>
      cases rest with
      | nil => exact v4l1_nq_first dev s a hempty (htail a rfl)
      | cons b rest' =>
          have hab : a ≠ b := by
            intro e
            exact (List.nodup_cons.mp hnd).1 (e ▸ List.mem_cons_self _ _)
          have h2 := v4l1_nq_first_two dev s a b hempty hab
          have := nq_all_appends dev rest' _ [a, b] h2 (by simp) (by simpa using hnd)
          simpa [nq_all] using this

/-- Retrieving from a queue returns its buffers in order, then `NULL`, when
the requests to the device succeed. -/
lemma dq_n_returns_queue (dev : Device) (hdev : retrieval_succeeds dev) :
    ∀ (q : List Nat) (s : State) (k : Nat), queue_holds s q →
      (dq_n dev s (q.length + k)).1 = q.map some ++ List.replicate k none ∧
      queue_holds (dq_n dev s (q.length + k)).2 [] := by
  intro q
  induction q with
  | nil =>
      intro s k
      induction k generalizing s with
      | zero => intro hq; exact ⟨rfl, hq⟩
      | succ k ih =>
          intro hq
          obtain ⟨h1, h2⟩ := v4l1_dq_empty dev s hq
          obtain ⟨i1, i2⟩ := ih (v4l1_dq dev s).2 h1
          simp only [List.length_nil, Nat.zero_add] at i1 i2 ⊢
          simp only [dq_n, h2, i1, List.map_nil, List.nil_append, List.replicate_succ]
          exact ⟨trivial, i2⟩
  | cons a rest ih =>
      intro s k hq
      obtain ⟨h1, h2⟩ := v4l1_dq_pops dev s a rest hq
      obtain ⟨i1, i2⟩ := ih (v4l1_dq dev s).2 k h1
      have e : (a :: rest).length + k = (rest.length + k) + 1 := by
        simp only [List.length_cons]; omega
      rw [e]
      simp only [dq_n, h2 hdev, i1, List.map_cons, List.cons_append]
      exact ⟨trivial, i2⟩

/-- The queue is first in first out on lists: a list of distinct buffers
submitted one after another to an empty queue is returned in the order of
submission by the following calls of `v4l1_dq`, which then return `NULL`,
provided the requests of `v4l1_dq` to the device succeed and the list is not
the single buffer that `nq_image` still points at. -/
lemma queue_returns_submitted_list (dev : Device) (hdev : retrieval_succeeds dev)
    (s : State) (l : List Nat) (k : Nat)
    (hempty : s.vdo.dq_image = none) (hnd : l.Nodup)
    (htail : ∀ a, l = [a] → s.vdo.nq_image ≠ some a) :
    (dq_n dev (nq_all dev s l) (l.length + k)).1 = l.map some ++ List.replicate k none :=
  (dq_n_returns_queue dev hdev l _ k (nq_all_from_empty dev s l hempty hnd htail)).1

/-! ### Format negotiation -/

/-- Unfolding of `v4l1_set_format` when the first query fails. -/
lemma set_format_query_failed (dev : Device) (s : State) (fmt : Nat)
    (h : (dev.VIDIOCGPICT s.trace video_picture.zero).1 < 0) :
    v4l1_set_format dev s fmt =
      err_capture (s.log Event.VIDIOCGPICT) SEV_ERROR ZEBRA_ERR_SYSTEM := by
  simp [v4l1_set_format, h]

/-- Unfolding of `v4l1_set_format` when the first query succeeds and the code
is rejected. -/
lemma set_format_rejected (dev : Device) (s : State) (fmt : Nat)
    (h : 0 ≤ (dev.VIDIOCGPICT s.trace video_picture.zero).1)
    (hrej : fmt = 0 ∨ set_format_ifmt fmt ≥ VIDEO_PALETTE_YUV410P) :
    v4l1_set_format dev s fmt =
      err_capture_int
        { s.log Event.VIDIOCGPICT with
            vdo := { (s.log Event.VIDIOCGPICT).vdo with palette := 0 } }
        SEV_ERROR ZEBRA_ERR_INVALID fmt := by
  have h' : ¬ (dev.VIDIOCGPICT s.trace video_picture.zero).1 < 0 := not_lt.mpr h
  simp only [v4l1_set_format, h', if_false]
  rw [if_pos hrej]

/-- The search loop of `v4l1_set_format` leaves `ifmt` at an index from the
start index on; when that index is within the table, its entry has the code
searched for. -/
lemma set_format_scan_spec (fmt : Nat) :
    ∀ fuel i, i + fuel = VIDEO_PALETTE_YUV410P + 1 →
      i ≤ set_format_scan fmt fuel i ∧
      (set_format_scan fmt fuel i ≤ VIDEO_PALETTE_YUV410P →
        (v4l1_formats_at (set_format_scan fmt fuel i)).format = fmt) ∧
      (∀ j, i ≤ j → j < set_format_scan fmt fuel i → (v4l1_formats_at j).format ≠ fmt) := by
  intro fuel
  induction fuel with
  | zero =>
      intro i hi
      simp only [set_format_scan]
      refine ⟨le_refl _, fun h => by omega, fun j h1 h2 => by omega⟩
  | succ n ih =>
      intro i hi
      simp only [set_format_scan]
      have hle : i ≤ VIDEO_PALETTE_YUV410P := by omega
      rw [if_pos hle]
      by_cases hm : (v4l1_formats_at i).format = fmt
      · rw [if_pos hm]
        exact ⟨le_refl _, fun _ => hm, fun j h1 h2 => by omega⟩
      · rw [if_neg hm]
        obtain ⟨h1, h2, h3⟩ := ih (i + 1) (by omega)
        refine ⟨by omega, h2, fun j hj1 hj2 => ?_⟩
        by_cases hji : j = i
        · subst hji; exact hm
        · exact h3 j (by omega) hj2

/-- A code that no entry of the table carries leaves `ifmt` past the table. -/
lemma set_format_ifmt_absent (fmt : Nat) (habs : ∀ e ∈ v4l1_formats, e.format ≠ fmt) :
    set_format_ifmt fmt = VIDEO_PALETTE_YUV410P + 1 := by
  obtain ⟨h1, h2, h3⟩ := set_format_scan_spec fmt VIDEO_PALETTE_YUV410P 1 (by omega)
  have hub : ∀ fuel i, i + fuel = VIDEO_PALETTE_YUV410P + 1 →
      set_format_scan fmt fuel i ≤ VIDEO_PALETTE_YUV410P + 1 := by
    intro fuel
    induction fuel with
    | zero => intro i hi; simp only [set_format_scan]; omega
    | succ n ih =>
        intro i hi
        simp only [set_format_scan]
        split_ifs with ha hb
        · omega
        · exact ih (i + 1) (by omega)
        · omega
  have hub1 := hub VIDEO_PALETTE_YUV410P 1 (by omega)
  unfold set_format_ifmt
  by_contra hne
  have hle : set_format_scan fmt VIDEO_PALETTE_YUV410P 1 ≤ VIDEO_PALETTE_YUV410P := by omega
  have hfmt := h2 hle
  have hmem : v4l1_formats_at (set_format_scan fmt VIDEO_PALETTE_YUV410P 1) ∈ v4l1_formats := by
    unfold v4l1_formats_at
    have hlen : set_format_scan fmt VIDEO_PALETTE_YUV410P 1 < v4l1_formats.length := by
      have : v4l1_formats.length = 17 := rfl
      have : VIDEO_PALETTE_YUV410P = 16 := rfl
      omega
    rw [List.getD_eq_getElem _ _ hlen]
    exact List.getElem_mem _
  exact habs _ hmem hfmt

/-- C7, evaluated on the code: the code `YUV9` is a non-zero external code of
the table, the one of its last entry (index 16, `VIDEO_PALETTE_YUV410P`), and
the search loop finds it there; yet on a device that answers every query and
accepts every set request, `v4l1_set_format` rejects it with
`ZEBRA_ERR_INVALID` after the first query, without any set request, because
the rejection test is `ifmt >= VIDEO_PALETTE_YUV410P`.  The entry before it
(`YU12`, index 15) is set and stored. -/
theorem v4l1_set_format_rejects_last_entry :
    (v4l1_formats_at VIDEO_PALETTE_YUV410P).format = fourcc 'Y' 'U' 'V' '9' ∧
    fourcc 'Y' 'U' 'V' '9' ≠ 0 ∧
    set_format_ifmt (fourcc 'Y' 'U' 'V' '9') = 16 ∧
    (v4l1_set_format device_echo (state_init 4 VIDEO_MMAP) (fourcc 'Y' 'U' 'V' '9')).1 = -1 ∧
    (v4l1_set_format device_echo (state_init 4 VIDEO_MMAP)
        (fourcc 'Y' 'U' 'V' '9')).2.vdo.err_type = ZEBRA_ERR_INVALID ∧
    (v4l1_set_format device_echo (state_init 4 VIDEO_MMAP)
        (fourcc 'Y' 'U' 'V' '9')).2.trace = [Event.VIDIOCGPICT] ∧
    (v4l1_set_format device_echo (state_init 4 VIDEO_MMAP) (fourcc 'Y' 'U' '1' '2')).1 = 0 ∧
    (v4l1_set_format device_echo (state_init 4 VIDEO_MMAP)
        (fourcc 'Y' 'U' '1' '2')).2.trace =
      [Event.VIDIOCGPICT, Event.VIDIOCSPICT (picture 15 12), Event.VIDIOCGPICT] := by
  refine ⟨rfl, by decide, rfl, rfl, rfl, rfl, rfl, rfl⟩

/-- C8 as stated fails: with `RGBP` active (palette 3), a request for the code
1, which no entry of the table carries, resets the stored palette to 0; and
when the first picture query fails, the recorded error is `ZEBRA_ERR_SYSTEM`,
not `ZEBRA_ERR_INVALID`. -/
theorem v4l1_set_format_absent_code_resets_palette :
    (∀ e ∈ v4l1_formats, e.format ≠ 1) ∧
    (v4l1_set_format device_echo (state_init 4 VIDEO_MMAP) (fourcc 'R' 'G' 'B' 'P')).1 = 0 ∧
    (v4l1_set_format device_echo (state_init 4 VIDEO_MMAP)
        (fourcc 'R' 'G' 'B' 'P')).2.vdo.palette = 3 ∧
    (v4l1_set_format device_echo
        (v4l1_set_format device_echo (state_init 4 VIDEO_MMAP) (fourcc 'R' 'G' 'B' 'P')).2
        1).2.vdo.err_type = ZEBRA_ERR_INVALID ∧
    (v4l1_set_format device_echo
        (v4l1_set_format device_echo (state_init 4 VIDEO_MMAP) (fourcc 'R' 'G' 'B' 'P')).2
        1).2.vdo.palette = 0 ∧
    (v4l1_set_format device_no_picture (state_init 4 VIDEO_MMAP) 1).2.vdo.err_type =
      ZEBRA_ERR_SYSTEM := by
  refine ⟨by decide, rfl, rfl, rfl, rfl, rfl⟩

/-- C8 as amended: for a code that no entry of the table carries,
`v4l1_set_format` fails and leaves the stored external code `format` and
`datalen` unchanged.  When the first picture query succeeds, the error is
`ZEBRA_ERR_INVALID`, no set request is made and the stored palette index is
reset to 0; when that query fails, the error is `ZEBRA_ERR_SYSTEM` and the
palette index is unchanged. -/
theorem v4l1_set_format_absent_code (dev : Device) (s : State) (fmt : Nat)
    (habs : ∀ e ∈ v4l1_formats, e.format ≠ fmt) :
    (v4l1_set_format dev s fmt).1 = -1 ∧
    (v4l1_set_format dev s fmt).2.vdo.format = s.vdo.format ∧
    (v4l1_set_format dev s fmt).2.vdo.datalen = s.vdo.datalen ∧
    (v4l1_set_format dev s fmt).2.trace = s.trace ++ [Event.VIDIOCGPICT] ∧
    (0 ≤ (dev.VIDIOCGPICT s.trace video_picture.zero).1 →
      (v4l1_set_format dev s fmt).2.vdo.err_type = ZEBRA_ERR_INVALID ∧
      (v4l1_set_format dev s fmt).2.vdo.palette = 0) ∧
    ((dev.VIDIOCGPICT s.trace video_picture.zero).1 < 0 →
      (v4l1_set_format dev s fmt).2.vdo.err_type = ZEBRA_ERR_SYSTEM ∧
      (v4l1_set_format dev s fmt).2.vdo.palette = s.vdo.palette) := by
  have hrej : fmt = 0 ∨ set_format_ifmt fmt ≥ VIDEO_PALETTE_YUV410P := by
    right; rw [set_format_ifmt_absent fmt habs]; omega
  by_cases hq : (dev.VIDIOCGPICT s.trace video_picture.zero).1 < 0
  · rw [set_format_query_failed dev s fmt hq]
    simp [err_capture, State.log, hq]
  · have hq' : 0 ≤ (dev.VIDIOCGPICT s.trace video_picture.zero).1 := not_lt.mp hq
    rw [set_format_rejected dev s fmt hq' hrej]
    simp [err_capture_int, err_capture, State.log, hq, hq']

/-- C8 as amended, at a concrete input: the code 1 on a session with `RGBP`
active. -/
theorem v4l1_set_format_absent_code_witness :
    (∀ e ∈ v4l1_formats, e.format ≠ 1) ∧
    (v4l1_set_format device_echo
        (v4l1_set_format device_echo (state_init 4 VIDEO_MMAP) (fourcc 'R' 'G' 'B' 'P')).2
        1).2.vdo.format =
      (v4l1_set_format device_echo (state_init 4 VIDEO_MMAP)
        (fourcc 'R' 'G' 'B' 'P')).2.vdo.format :=
  ⟨by decide,
    (v4l1_set_format_absent_code device_echo
      (v4l1_set_format device_echo (state_init 4 VIDEO_MMAP) (fourcc 'R' 'G' 'B' 'P')).2
      1 (by decide)).2.1⟩

/-- Every non-zero code of the table is found by the search loop at the index
of its entry. -/
lemma set_format_ifmt_of_entry :
    ∀ i, 1 ≤ i → i ≤ VIDEO_PALETTE_YUV410P → (v4l1_formats_at i).format ≠ 0 →
      set_format_ifmt (v4l1_formats_at i).format = i := by
  decide

/-- For every non-zero code of the table but the one of the last entry, once the
first query has succeeded `v4l1_set_format` makes the set request, with the
index of the entry as palette and the depth of the entry. -/
lemma set_format_issues_set_request (dev : Device) (s : State) (i : Nat)
    (h1 : 1 ≤ i) (h2 : i < VIDEO_PALETTE_YUV410P) (hcode : (v4l1_formats_at i).format ≠ 0)
    (hq : 0 ≤ (dev.VIDIOCGPICT s.trace video_picture.zero).1) :
    (set_format_request dev s (v4l1_formats_at i).format).palette = i ∧
    (set_format_request dev s (v4l1_formats_at i).format).depth = (v4l1_formats_at i).bpp ∧
    ∃ rest, (v4l1_set_format dev s (v4l1_formats_at i).format).2.trace =
      s.trace ++ [Event.VIDIOCGPICT] ++
        [Event.VIDIOCSPICT (set_format_request dev s (v4l1_formats_at i).format)] ++ rest := by
  have hi := set_format_ifmt_of_entry i h1 (le_of_lt h2) hcode
  refine ⟨by simp [set_format_request, hi], by simp [set_format_request, hi], ?_⟩
  have hq' : ¬ (dev.VIDIOCGPICT s.trace video_picture.zero).1 < 0 := not_lt.mpr hq
  have hrej : ¬ ((v4l1_formats_at i).format = 0 ∨
      set_format_ifmt (v4l1_formats_at i).format ≥ VIDEO_PALETTE_YUV410P) := by
    push_neg; exact ⟨hcode, by rw [hi]; exact h2⟩
  simp only [v4l1_set_format, hq', if_false, if_neg hrej, State.log, err_capture,
    err_capture_int, set_format_request]
  split_ifs
  · exact ⟨[], by simp⟩
  · exact ⟨[Event.VIDIOCGPICT], by simp⟩
  · exact ⟨[Event.VIDIOCGPICT], by simp⟩
  · exact ⟨[Event.VIDIOCGPICT], by simp⟩

/-- C9, evaluated on the code: on a device that accepts every set request and
answers every query with the requested palette but the depth 8,
`v4l1_probe_formats` lists all fourteen codes of the table, among them `RGBP`,
whose table depth is 16 and not the depth 8 that the query returned: the loop
compares the palette only.  `v4l1_set_format` on that device refuses the same
code `RGBP`, because it compares the depth as well. -/
theorem v4l1_probe_formats_lists_depth_mismatch :
    (∀ hist vpic, (device_depth8.VIDIOCGPICT hist vpic).2.depth = 8) ∧
    (v4l1_formats_at 3).format = fourcc 'R' 'G' 'B' 'P' ∧
    (v4l1_formats_at 3).bpp = 16 ∧
    (∃ s, v4l1_probe_formats device_depth8 (state_init 4 VIDEO_MMAP) = .ok (-1, s) ∧
      s.vdo.formats =
        some [fourcc 'G' 'R' 'E' 'Y', fourcc 'H' 'I' '2' '4', fourcc 'R' 'G' 'B' 'P',
          fourcc 'B' 'G' 'R' '3', fourcc 'B' 'G' 'R' '4', fourcc 'R' 'G' 'B' 'O',
          fourcc 'Y' 'U' 'Y' '2', fourcc 'Y' 'U' 'Y' 'V', fourcc 'U' 'Y' 'V' 'Y',
          fourcc 'Y' '4' '1' 'P', fourcc '4' '2' '2' 'P', fourcc '4' '1' '1' 'P',
          fourcc 'Y' 'U' '1' '2', fourcc 'Y' 'U' 'V' '9', 0]) ∧
    (v4l1_set_format device_depth8 (state_init 4 VIDEO_MMAP) (fourcc 'R' 'G' 'B' 'P')).1 = -1 ∧
    (v4l1_set_format device_depth8 (state_init 4 VIDEO_MMAP)
        (fourcc 'R' 'G' 'B' 'P')).2.vdo.err_type = ZEBRA_ERR_INVALID := by
  refine ⟨fun _ _ => rfl, rfl, rfl, ⟨_, rfl, rfl⟩, rfl, rfl⟩

/-- Unfolding of `v4l1_set_format` when the first query succeeds, the code is
accepted, and the set request and the second query succeed. -/
lemma set_format_negotiated (dev : Device) (s : State) (fmt : Nat)
    (hq : 0 ≤ (dev.VIDIOCGPICT s.trace video_picture.zero).1)
    (hfmt : fmt ≠ 0) (hifmt : set_format_ifmt fmt < VIDEO_PALETTE_YUV410P)
    (hset : 0 ≤ set_format_set_rc dev s fmt)
    (hre : 0 ≤ (set_format_requery dev s fmt).1) :
    v4l1_set_format dev s fmt =
      if (set_format_requery dev s fmt).2.palette ≠ set_format_ifmt fmt ∨
          (set_format_requery dev s fmt).2.depth ≠ (v4l1_formats_at (set_format_ifmt fmt)).bpp
      then
        err_capture_int
          { vdo := { s.vdo with palette := 0 },
            image := s.image,
            trace := s.trace ++ [Event.VIDIOCGPICT] ++
              [Event.VIDIOCSPICT (set_format_request dev s fmt)] ++ [Event.VIDIOCGPICT],
            steps := s.steps ++ [Step.request Event.VIDIOCGPICT] ++
              [Step.request (Event.VIDIOCSPICT (set_format_request dev s fmt))] ++
              [Step.request Event.VIDIOCGPICT] }
          SEV_ERROR ZEBRA_ERR_INVALID fmt
      else
        (0, { vdo := { s.vdo with
                format := fmt,
                palette := set_format_ifmt fmt,
                datalen :=
                  uint (uint (uint (s.vdo.width * s.vdo.height) *
                    (set_format_requery dev s fmt).2.depth) + 7) >>> 3 },
              image := s.image,
              trace := s.trace ++ [Event.VIDIOCGPICT] ++
                [Event.VIDIOCSPICT (set_format_request dev s fmt)] ++ [Event.VIDIOCGPICT],
              steps := s.steps ++ [Step.request Event.VIDIOCGPICT] ++
                [Step.request (Event.VIDIOCSPICT (set_format_request dev s fmt))] ++
                [Step.request Event.VIDIOCGPICT] }) := by
  have hq' : ¬ (dev.VIDIOCGPICT s.trace video_picture.zero).1 < 0 := not_lt.mpr hq
  have hrej : ¬ (fmt = 0 ∨ set_format_ifmt fmt ≥ VIDEO_PALETTE_YUV410P) := by
    push_neg; exact ⟨hfmt, hifmt⟩
  have hset' : ¬ dev.VIDIOCSPICT (s.trace ++ [Event.VIDIOCGPICT])
      (set_format_request dev s fmt) < 0 := not_lt.mpr hset
  have hre' : ¬ (dev.VIDIOCGPICT (s.trace ++ [Event.VIDIOCGPICT] ++
      [Event.VIDIOCSPICT (set_format_request dev s fmt)]) video_picture.zero).1 < 0 :=
    not_lt.mpr hre
  simp only [v4l1_set_format, hq', if_false, if_neg hrej, State.log]
  simp only [set_format_request] at hset' hre' ⊢
  simp only [hset', if_false, hre', set_format_requery, set_format_request]

/-- When `v4l1_set_format` returns 0, every one of its requests succeeded and
the code was accepted. -/
lemma set_format_success (dev : Device) (s : State) (fmt : Nat)
    (h : (v4l1_set_format dev s fmt).1 = 0) :
    0 ≤ (dev.VIDIOCGPICT s.trace video_picture.zero).1 ∧ fmt ≠ 0 ∧
    set_format_ifmt fmt < VIDEO_PALETTE_YUV410P ∧
    0 ≤ set_format_set_rc dev s fmt ∧
    0 ≤ (set_format_requery dev s fmt).1 ∧
    (set_format_requery dev s fmt).2.palette = set_format_ifmt fmt ∧
    (set_format_requery dev s fmt).2.depth = (v4l1_formats_at (set_format_ifmt fmt)).bpp := by
  by_cases hq : (dev.VIDIOCGPICT s.trace video_picture.zero).1 < 0
  · rw [set_format_query_failed dev s fmt hq] at h
    simp [err_capture] at h
  have hq' : 0 ≤ (dev.VIDIOCGPICT s.trace video_picture.zero).1 := not_lt.mp hq
  by_cases hrej : fmt = 0 ∨ set_format_ifmt fmt ≥ VIDEO_PALETTE_YUV410P
  · rw [set_format_rejected dev s fmt hq' hrej] at h
    simp [err_capture_int, err_capture] at h
  push_neg at hrej
  by_cases hset : set_format_set_rc dev s fmt < 0
  · exfalso
    have hrej' : ¬ (fmt = 0 ∨ set_format_ifmt fmt ≥ VIDEO_PALETTE_YUV410P) := by
      push_neg; exact hrej
    simp only [set_format_set_rc, set_format_request] at hset
    simp only [v4l1_set_format, hq, if_false, if_neg hrej', State.log, hset, if_true,
      err_capture] at h
    simp at h
  have hset' : 0 ≤ set_format_set_rc dev s fmt := not_lt.mp hset
  by_cases hre : (set_format_requery dev s fmt).1 < 0
  · exfalso
    have hrej' : ¬ (fmt = 0 ∨ set_format_ifmt fmt ≥ VIDEO_PALETTE_YUV410P) := by
      push_neg; exact hrej
    simp only [set_format_set_rc, set_format_request] at hset
    simp only [set_format_requery, set_format_request] at hre
    simp only [v4l1_set_format, hq, if_false, if_neg hrej', State.log, hset, hre, if_true,
      err_capture] at h
    simp at h
  have hre' : 0 ≤ (set_format_requery dev s fmt).1 := not_lt.mp hre
  rw [set_format_negotiated dev s fmt hq' hrej.1 hrej.2 hset' hre'] at h
  by_cases hm : (set_format_requery dev s fmt).2.palette ≠ set_format_ifmt fmt ∨
      (set_format_requery dev s fmt).2.depth ≠ (v4l1_formats_at (set_format_ifmt fmt)).bpp
  · rw [if_pos hm] at h
    simp [err_capture_int, err_capture] at h
  · push_neg at hm
    exact ⟨hq', hrej.1, hrej.2, hset', hre', hm.1, hm.2⟩

/-- C10: when `v4l1_set_format` reaches the set request for the code `fmt`, the
set request succeeds and the query after it answers with a palette or a depth
other than those of the table entry, the function fails with
`ZEBRA_ERR_INVALID`, the stored external code and `datalen` are as before and
the stored palette index is not the one of `fmt`.  And whenever the function
returns 0, the set request succeeded and the palette and the depth of the
query after it are exactly those of the table entry. -/
theorem v4l1_set_format_round_trip (dev : Device) (s : State) (fmt : Nat) :
    (0 ≤ (dev.VIDIOCGPICT s.trace video_picture.zero).1 →
      fmt ≠ 0 → set_format_ifmt fmt < VIDEO_PALETTE_YUV410P →
      0 ≤ set_format_set_rc dev s fmt →
      0 ≤ (set_format_requery dev s fmt).1 →
      ((set_format_requery dev s fmt).2.palette ≠ set_format_ifmt fmt ∨
        (set_format_requery dev s fmt).2.depth ≠ (v4l1_formats_at (set_format_ifmt fmt)).bpp) →
      (v4l1_set_format dev s fmt).1 = -1 ∧
      (v4l1_set_format dev s fmt).2.vdo.err_type = ZEBRA_ERR_INVALID ∧
      (v4l1_set_format dev s fmt).2.vdo.format = s.vdo.format ∧
      (v4l1_set_format dev s fmt).2.vdo.datalen = s.vdo.datalen ∧
      (v4l1_set_format dev s fmt).2.vdo.palette ≠ set_format_ifmt fmt) ∧
    ((v4l1_set_format dev s fmt).1 = 0 →
      0 ≤ set_format_set_rc dev s fmt ∧
      0 ≤ (set_format_requery dev s fmt).1 ∧
      (set_format_requery dev s fmt).2.palette = set_format_ifmt fmt ∧
      (set_format_requery dev s fmt).2.depth = (v4l1_formats_at (set_format_ifmt fmt)).bpp ∧
      (v4l1_set_format dev s fmt).2.vdo.format = fmt ∧
      (v4l1_set_format dev s fmt).2.vdo.palette = set_format_ifmt fmt) := by
  constructor
  · intro hq hfmt hifmt hset hre hm
    rw [set_format_negotiated dev s fmt hq hfmt hifmt hset hre, if_pos hm]
    have h1 : 1 ≤ set_format_ifmt fmt :=
      (set_format_scan_spec fmt VIDEO_PALETTE_YUV410P 1 (by omega)).1
    refine ⟨rfl, rfl, rfl, rfl, ?_⟩
    simp only [err_capture_int, err_capture]
    omega
  · intro h
    obtain ⟨hq, hfmt, hifmt, hset, hre, hp, hd⟩ := set_format_success dev s fmt h
    refine ⟨hset, hre, hp, hd, ?_, ?_⟩
    · rw [set_format_negotiated dev s fmt hq hfmt hifmt hset hre]
      rw [if_neg (by push_neg; exact ⟨hp, hd⟩)]
    · rw [set_format_negotiated dev s fmt hq hfmt hifmt hset hre]
      rw [if_neg (by push_neg; exact ⟨hp, hd⟩)]

/-- C10 at concrete inputs: on the device that answers with the depth 8, the
code `RGBP` (depth 16) is refused and nothing is stored; on the device that
answers with what was set, it is accepted and the round trip is exact. -/
theorem v4l1_set_format_round_trip_witness :
    ((v4l1_set_format device_depth8 (state_init 4 VIDEO_MMAP) (fourcc 'R' 'G' 'B' 'P')).1 = -1 ∧
      (v4l1_set_format device_depth8 (state_init 4 VIDEO_MMAP)
        (fourcc 'R' 'G' 'B' 'P')).2.vdo.err_type = ZEBRA_ERR_INVALID ∧
      (v4l1_set_format device_depth8 (state_init 4 VIDEO_MMAP)
        (fourcc 'R' 'G' 'B' 'P')).2.vdo.format = 0 ∧
      (v4l1_set_format device_depth8 (state_init 4 VIDEO_MMAP)
        (fourcc 'R' 'G' 'B' 'P')).2.vdo.datalen = 0 ∧
      (v4l1_set_format device_depth8 (state_init 4 VIDEO_MMAP)
        (fourcc 'R' 'G' 'B' 'P')).2.vdo.palette ≠ 3) ∧
    (set_format_requery device_echo (state_init 4 VIDEO_MMAP) (fourcc 'R' 'G' 'B' 'P')).2.depth
      = 16 :=
  ⟨(v4l1_set_format_round_trip device_depth8 (state_init 4 VIDEO_MMAP)
      (fourcc 'R' 'G' 'B' 'P')).1 (by decide) (by decide) (by decide) (by decide) (by decide)
      (by decide),
    ((v4l1_set_format_round_trip device_echo (state_init 4 VIDEO_MMAP)
      (fourcc 'R' 'G' 'B' 'P')).2 rfl).2.2.2.1⟩

/-- The unsigned computation `(w * h * d + 7) >> 3` of `v4l1_set_format` is the
exact expression reduced modulo 2^32 before the shift. -/
lemma uint_datalen (w h d : Nat) :
    uint (uint (uint (w * h) * d) + 7) >>> 3 = (w * h * d + 7) % 2 ^ 32 / 8 := by
  unfold uint
  rw [Nat.shiftRight_eq_div_pow]
  have h1 : ((w * h % 2 ^ 32 * d) % 2 ^ 32 + 7) % 2 ^ 32 = (w * h * d + 7) % 2 ^ 32 := by
    rw [Nat.add_mod, Nat.mod_mod, Nat.mul_mod, Nat.mod_mod, ← Nat.mul_mod, ← Nat.add_mod]
  rw [h1]

/-- Rounding up the eighth of a natural number. -/
lemma ceil_div_eight (n : Nat) : ⌈(n : ℚ) / 8⌉₊ = (n + 7) / 8 := by
  apply le_antisymm
  · rw [Nat.ceil_le, div_le_iff₀ (by norm_num : (0 : ℚ) < 8)]
    have h : n ≤ (n + 7) / 8 * 8 := by omega
    exact_mod_cast h
  · have h0 : ((n + 7) / 8 : ℕ) ≤ ⌈(n : ℚ) / 8⌉₊ ↔ True := by
      simp only [iff_true]
      by_contra hlt
      push_neg at hlt
      have h1 : (n : ℚ) / 8 ≤ (⌈(n : ℚ) / 8⌉₊ : ℚ) := Nat.le_ceil _
      rw [div_le_iff₀ (by norm_num : (0 : ℚ) < 8)] at h1
      have h2 : n ≤ ⌈(n : ℚ) / 8⌉₊ * 8 := by exact_mod_cast h1
      omega
    exact h0.mpr trivial

/-- C4 as stated fails: with a window of 65536 x 65536 and the code `GREY`
(depth 8), `v4l1_set_format` succeeds and stores the byte length 0, while
ceil(65536 * 65536 * 8 / 8) is 4294967296: the product wraps around in 32-bit
unsigned arithmetic. -/
theorem v4l1_set_format_datalen_wraps :
    (v4l1_set_format device_echo
        { state_init 4 VIDEO_MMAP with
            vdo := { vdo_init 4 VIDEO_MMAP with width := 65536, height := 65536 } }
        (fourcc 'G' 'R' 'E' 'Y')).1 = 0 ∧
    (v4l1_formats_at (set_format_ifmt (fourcc 'G' 'R' 'E' 'Y'))).bpp = 8 ∧
    (v4l1_set_format device_echo
        { state_init 4 VIDEO_MMAP with
            vdo := { vdo_init 4 VIDEO_MMAP with width := 65536, height := 65536 } }
        (fourcc 'G' 'R' 'E' 'Y')).2.vdo.datalen = 0 ∧
    (v4l1_set_format device_echo
        { state_init 4 VIDEO_MMAP with
            vdo := { vdo_init 4 VIDEO_MMAP with width := 65536, height := 65536 } }
        (fourcc 'G' 'R' 'E' 'Y')).2.vdo.datalen ≠ ⌈((65536 * 65536 * 8 : ℕ) : ℚ) / 8⌉₊ := by
  refine ⟨rfl, rfl, rfl, ?_⟩
  rw [ceil_div_eight]
  have h : (v4l1_set_format device_echo
        { state_init 4 VIDEO_MMAP with
            vdo := { vdo_init 4 VIDEO_MMAP with width := 65536, height := 65536 } }
        (fourcc 'G' 'R' 'E' 'Y')).2.vdo.datalen = 0 := rfl
  rw [h]
  norm_num

/-- C4 as amended: a successful `v4l1_set_format` leaves the window as it was
and, for the width `w`, the height `h` and the depth `d` of the table entry of
the code, stores `datalen = ((w * h * d + 7) mod 2^32) >> 3`, the value of
`(w * h * d + 7) >> 3` in 32-bit unsigned arithmetic; whenever
`w * h * d + 7 < 2^32` this is ceil(w * h * d / 8). -/
theorem v4l1_set_format_datalen (dev : Device) (s : State) (fmt : Nat)
    (hok : (v4l1_set_format dev s fmt).1 = 0) :
    (v4l1_set_format dev s fmt).2.vdo.width = s.vdo.width ∧
    (v4l1_set_format dev s fmt).2.vdo.height = s.vdo.height ∧
    (v4l1_set_format dev s fmt).2.vdo.datalen =
      ((s.vdo.width * s.vdo.height * (v4l1_formats_at (set_format_ifmt fmt)).bpp + 7)
        % 2 ^ 32) >>> 3 ∧
    (s.vdo.width * s.vdo.height * (v4l1_formats_at (set_format_ifmt fmt)).bpp + 7 < 2 ^ 32 →
      (v4l1_set_format dev s fmt).2.vdo.datalen =
        ⌈((s.vdo.width * s.vdo.height * (v4l1_formats_at (set_format_ifmt fmt)).bpp : ℕ) : ℚ)
          / 8⌉₊) := by
  obtain ⟨hq, hfmt, hifmt, hset, hre, hp, hd⟩ := set_format_success dev s fmt hok
  have hm : ¬ ((set_format_requery dev s fmt).2.palette ≠ set_format_ifmt fmt ∨
      (set_format_requery dev s fmt).2.depth ≠ (v4l1_formats_at (set_format_ifmt fmt)).bpp) := by
    push_neg; exact ⟨hp, hd⟩
  rw [set_format_negotiated dev s fmt hq hfmt hifmt hset hre, if_neg hm]
  refine ⟨rfl, rfl, ?_, ?_⟩
  · show uint (uint (uint (s.vdo.width * s.vdo.height) *
        (set_format_requery dev s fmt).2.depth) + 7) >>> 3 = _
    rw [hd, uint_datalen, Nat.shiftRight_eq_div_pow]
  · intro hlt
    show uint (uint (uint (s.vdo.width * s.vdo.height) *
        (set_format_requery dev s fmt).2.depth) + 7) >>> 3 = _
    rw [hd, uint_datalen, ceil_div_eight, Nat.mod_eq_of_lt hlt]

/-- C4 as amended, at the example of the specification: a window of 320 x 240
with the code `RGBP` (depth 16) gives the byte length 153600. -/
theorem v4l1_set_format_datalen_witness :
    (v4l1_set_format device_echo (state_init 4 VIDEO_MMAP) (fourcc 'R' 'G' 'B' 'P')).1 = 0 ∧
    (v4l1_set_format device_echo (state_init 4 VIDEO_MMAP)
        (fourcc 'R' 'G' 'B' 'P')).2.vdo.datalen = ((320 * 240 * 16 + 7) % 2 ^ 32) >>> 3 ∧
    ((320 * 240 * 16 + 7) % 2 ^ 32) >>> 3 = 153600 ∧
    (v4l1_set_format device_echo (state_init 4 VIDEO_MMAP)
        (fourcc 'R' 'G' 'B' 'P')).2.vdo.datalen = ⌈((320 * 240 * 16 : ℕ) : ℚ) / 8⌉₊ :=
  ⟨rfl,
    (v4l1_set_format_datalen device_echo (state_init 4 VIDEO_MMAP)
      (fourcc 'R' 'G' 'B' 'P') rfl).2.2.1,
    by decide,
    (v4l1_set_format_datalen device_echo (state_init 4 VIDEO_MMAP)
      (fourcc 'R' 'G' 'B' 'P') rfl).2.2.2 (by decide)⟩

/-! ### Buffer provisioning -/

/-- The conversion to `unsigned long` keeps a value that is not negative. -/
lemma ulong_of_int_nonneg (x : Int) (h : 0 ≤ x) : ((ulong_of_int x : Nat) : Int) = x := by
  unfold ulong_of_int
  rw [if_pos h]
  exact Int.toNat_of_nonneg h

/-- What one iteration of the loop of `v4l1_mmap_buffers` does. -/
lemma mmap_buffers_body_spec (vbuf : video_mbuf) (i : Nat) (s t : State)
    (h : mmap_buffers_body vbuf i s = .ok t) :
    ∃ img off, s.vdo.images[i]? = some img ∧ vbuf.offsets[i]? = some off ∧
      t.vdo = s.vdo ∧ t.trace = s.trace ∧
      (∀ q, q ≠ img → t.image q = s.image q) ∧
      (t.image img).data = s.vdo.buf + off ∧
      ((i : Int) + 1 < s.vdo.num_images →
        ∃ off1, vbuf.offsets[i + 1]? = some off1 ∧ off < off1 ∧
          (t.image img).datalen = ulong_of_int (int_sub off1 off)) ∧
      (¬ (i : Int) + 1 < s.vdo.num_images → (t.image img).datalen = (s.image img).datalen) := by
  unfold mmap_buffers_body at h
  split at h
  · rename_i img off himg hoff
    refine ⟨img, off, himg, hoff, ?_⟩
    by_cases hc : (i : Int) + 1 < s.vdo.num_images
    · have hc' : (i : Int) + 1 < (s.set_data img (s.vdo.buf + off)).vdo.num_images := hc
      simp only [hc', if_true] at h
      split at h
      · rename_i off1 hoff1
        by_cases hgt : off1 > off
        · rw [if_pos hgt] at h
          injection h with h
          subst h
          refine ⟨rfl, rfl, ?_, ?_, ?_, ?_⟩
          · intro q hq
            simp [State.set_datalen, State.set_data, hq]
          · simp [State.set_datalen, State.set_data]
          · intro _
            exact ⟨off1, hoff1, hgt, by simp [State.set_datalen, State.set_data]⟩
          · intro hn; exact absurd hc hn
        · rw [if_neg hgt] at h
          cases h
      · cases h
    · have hc' : ¬ (i : Int) + 1 < (s.set_data img (s.vdo.buf + off)).vdo.num_images := hc
      simp only [hc', if_false] at h
      injection h with h
      subst h
      refine ⟨rfl, rfl, ?_, ?_, ?_, ?_⟩
      · intro q hq
        simp [State.set_data, hq]
      · simp [State.set_data]
      · intro hn; exact absurd hn hc
      · intro _; simp [State.set_data]
  · cases h

/-- What the loop of `v4l1_mmap_buffers` does from the index `i` on, for a
device that reports `n` frames and images `i .. n-1` that are distinct. -/
lemma mmap_buffers_loop_spec (vbuf : video_mbuf) (n : Nat) (hn : vbuf.frames = (n : Int)) :
    ∀ fuel i s k s', i + fuel = n →
      mmap_buffers_loop vbuf fuel i s = .ok (k, s') →
      (∀ a b p, i ≤ a → a < n → i ≤ b → b < n →
        s.vdo.images[a]? = some p → s.vdo.images[b]? = some p → a = b) →
      k = n ∧ s'.vdo = s.vdo ∧ s'.trace = s.trace ∧
      (∀ p, (∀ j, i ≤ j → j < n → s.vdo.images[j]? ≠ some p) → s'.image p = s.image p) ∧
      (∀ j, i ≤ j → j < n →
        ∃ p off, s.vdo.images[j]? = some p ∧ vbuf.offsets[j]? = some off ∧
          (s'.image p).data = s.vdo.buf + off ∧
          ((j : Int) + 1 < s.vdo.num_images →
            ∃ off1, vbuf.offsets[j + 1]? = some off1 ∧ off < off1 ∧
              (s'.image p).datalen = ulong_of_int (int_sub off1 off)) ∧
          (¬ (j : Int) + 1 < s.vdo.num_images →
            (s'.image p).datalen = (s.image p).datalen)) := by
  intro fuel
  induction fuel with
  | zero =>
      intro i s k s' hi h _
      simp only [mmap_buffers_loop] at h
      injection h with h
      injection h with h1 h2
      subst h1; subst h2
      refine ⟨by omega, rfl, rfl, fun _ _ => rfl, fun j h1 h2 => by omega⟩
  | succ m ih =>
      intro i s k s' hi h hinj
      simp only [mmap_buffers_loop] at h
      have hlt : (i : Int) < vbuf.frames := by rw [hn]; exact_mod_cast (by omega : i < n)
      rw [if_pos hlt] at h
      split at h
      · rename_i t ht
        obtain ⟨img, off, himg, hoff, hvdo, htrace, hframe, hdata, hlen1, hlen2⟩ :=
          mmap_buffers_body_spec vbuf i s t ht
        have hinj' : ∀ a b p, i + 1 ≤ a → a < n → i + 1 ≤ b → b < n →
            t.vdo.images[a]? = some p → t.vdo.images[b]? = some p → a = b := by
          intro a b p ha1 ha2 hb1 hb2 hpa hpb
          rw [hvdo] at hpa hpb
          exact hinj a b p (by omega) ha2 (by omega) hb2 hpa hpb
        obtain ⟨hk, hvdo', htrace', hframe', hidx'⟩ := ih (i + 1) t k s' (by omega) h hinj'
        have himg_later : ∀ j, i + 1 ≤ j → j < n → t.vdo.images[j]? ≠ some img := by
          intro j hj1 hj2 hcon
          rw [hvdo] at hcon
          have := hinj i j img (le_refl _) (by omega) (by omega) hj2 himg hcon
          omega
        refine ⟨hk, hvdo'.trans hvdo, htrace'.trans htrace, ?_, ?_⟩
        · intro p hp
          have hne : p ≠ img := by
            intro hcon
            subst hcon
            exact hp i (le_refl _) (by omega) himg
          rw [hframe' p (fun j hj1 hj2 => by rw [hvdo]; exact hp j (by omega) hj2)]
          exact hframe p hne
        · intro j hj1 hj2
          by_cases hji : j = i
          · subst hji
            refine ⟨img, off, himg, hoff, ?_, ?_, ?_⟩
            · rw [hframe' img himg_later]; exact hdata
            · intro hc
              obtain ⟨off1, h1, h2, h3⟩ := hlen1 hc
              exact ⟨off1, h1, h2, by rw [hframe' img himg_later]; exact h3⟩
            · intro hc
              rw [hframe' img himg_later]; exact hlen2 hc
          · obtain ⟨p, offj, hp, hoffj, hd, hl1, hl2⟩ := hidx' j (by omega) hj2
            rw [hvdo] at hp hd hl1 hl2
            have hne : p ≠ img := by
              intro hcon
              subst hcon
              exact hji (hinj i j p (le_refl _) (by omega) (by omega) hj2 himg hp).symm
            refine ⟨p, offj, hp, hoffj, hd, hl1, ?_⟩
            intro hc
            rw [hl2 hc]
            exact congrArg zebra_image_t.datalen (hframe p hne)
      · cases h

/-- The access `a[i - 1]` after a loop that ran at least once. -/
lemma index?_pred {α : Type} (a : List α) (n : Nat) (h : 0 < n) :
    index? a ((n : Int) - 1) = a[n - 1]? := by
  unfold index?
  have h0 : (0 : Int) ≤ (n : Int) - 1 := by omega
  have h1 : ((n : Int) - 1).toNat = n - 1 := by omega
  rw [if_pos h0, h1]

/-- The layout that a successful partition gives to the frame buffers when the
device reports `n` frames, `n` positive, and the images of the slots below `n`
are distinct. -/
lemma mmap_buffers_partition_spec (vbuf : video_mbuf) (s s' : State) (rc : Int) (n : Nat)
    (hok : mmap_buffers_partition vbuf s = .ok (rc, s'))
    (hn : vbuf.frames = (n : Int)) (hnpos : 0 < n)
    (hinj : ∀ a b p, a < n → b < n →
      s.vdo.images[a]? = some p → s.vdo.images[b]? = some p → a = b) :
    rc = 0 ∧ s'.vdo = s.vdo ∧ s'.trace = s.trace ∧
    ∀ j, j < n →
      ∃ p off, s.vdo.images[j]? = some p ∧ vbuf.offsets[j]? = some off ∧
        (s'.image p).data = s.vdo.buf + off ∧
        (j + 1 < n → (j : Int) + 1 < s.vdo.num_images →
          ∃ off1, vbuf.offsets[j + 1]? = some off1 ∧ off < off1 ∧
            (s'.image p).datalen = ulong_of_int (int_sub off1 off)) ∧
        (j + 1 < n → ¬ (j : Int) + 1 < s.vdo.num_images →
          (s'.image p).datalen = (s.image p).datalen) ∧
        (j + 1 = n → off < vbuf.size ∧
          (s'.image p).datalen = ulong_of_int (int_sub vbuf.size off)) := by
  unfold mmap_buffers_partition at hok
  have htn : vbuf.frames.toNat = n := by rw [hn]; exact Int.toNat_natCast n
  rw [htn] at hok
  split at hok
  · cases hok
  · rename_i k s4 hloop
    obtain ⟨hk, hvdo, htr, hframe, hidx⟩ :=
      mmap_buffers_loop_spec vbuf n hn n 0 s k s4 (by omega) hloop
        (fun a b p _ ha _ hb hpa hpb => hinj a b p ha hb hpa hpb)
    subst hk
    rw [index?_pred _ k hnpos, index?_pred _ k hnpos] at hok
    split at hok
    · rename_i offl imgl hoffl himgl
      by_cases hsz : vbuf.size > offl
      · rw [if_pos hsz] at hok
        injection hok with hok
        injection hok with hrc hs'
        subst hs'
        rw [hvdo] at himgl
        refine ⟨hrc.symm, hvdo, htr, ?_⟩
        intro j hj
        obtain ⟨p, off, hp, hoff, hd, hl1, hl2⟩ := hidx j (Nat.zero_le _) hj
        refine ⟨p, off, hp, hoff, ?_, ?_, ?_, ?_⟩
        · show ((s4.set_datalen imgl _).image p).data = _
          simp only [State.set_datalen]
          split_ifs <;> exact hd
        · intro hj1 hc
          have hne : p ≠ imgl := by
            intro hcon
            subst hcon
            have := hinj j (k - 1) p hj (by omega) hp himgl
            omega
          obtain ⟨off1, ho1, hlt, hdl⟩ := hl1 hc
          refine ⟨off1, ho1, hlt, ?_⟩
          show ((s4.set_datalen imgl _).image p).datalen = _
          simp only [State.set_datalen, if_neg hne]
          exact hdl
        · intro hj1 hc
          have hne : p ≠ imgl := by
            intro hcon
            subst hcon
            have := hinj j (k - 1) p hj (by omega) hp himgl
            omega
          show ((s4.set_datalen imgl _).image p).datalen = _
          simp only [State.set_datalen, if_neg hne]
          exact hl2 hc
        · intro hj1
          have hjk : j = k - 1 := by omega
          subst hjk
          have hpe : p = imgl := by
            rw [hp] at himgl
            exact Option.some.inj himgl
          have hoe : off = offl := by
            rw [hoff] at hoffl
            exact Option.some.inj hoffl
          subst hpe; subst hoe
          refine ⟨hsz, ?_⟩
          show ((s4.set_datalen p _).image p).datalen = _
          simp [State.set_datalen]
      · rw [if_neg hsz] at hok; cases hok
    · cases hok

/-- The layout that a successful `v4l1_mmap_buffers` gives to the frame buffers
when the device reports `n` frames and the images of the slots below `n` are
distinct: the region base is the address returned by `mmap`, the image of
slot `j` points at the base plus its offset; its length is the distance to the
next, larger offset when `j + 1` is below both `n` and `num_images`, is left
as it was when `j + 1` is below `n` only, and is the rest of the region for the
last of the `n` slots.  The distances are differences of two `int`. -/
lemma mmap_buffers_layout (dev : Device) (s s' : State) (n : Nat)
    (hok : v4l1_mmap_buffers dev s = .ok (0, s'))
    (hn : (dev.VIDIOCGMBUF s.trace (video_mbuf.zero VIDEO_MAX_FRAME)).2.frames = (n : Int))
    (hinj : ∀ a b p, a < n → b < n →
      s.vdo.images[a]? = some p → s.vdo.images[b]? = some p → a = b) :
    0 < n ∧
    s'.vdo.buf = dev.mmap (s.trace ++ [Event.VIDIOCGMBUF])
      (ulong_of_int (dev.VIDIOCGMBUF s.trace (video_mbuf.zero VIDEO_MAX_FRAME)).2.size) ∧
    s'.vdo.images = s.vdo.images ∧ s'.vdo.num_images = s.vdo.num_images ∧
    ∀ j, j < n →
      ∃ p off, s.vdo.images[j]? = some p ∧
        (dev.VIDIOCGMBUF s.trace (video_mbuf.zero VIDEO_MAX_FRAME)).2.offsets[j]? = some off ∧
        (s'.image p).data = s'.vdo.buf + off ∧
        (j + 1 < n → (j : Int) + 1 < s.vdo.num_images →
          ∃ off1,
            (dev.VIDIOCGMBUF s.trace (video_mbuf.zero VIDEO_MAX_FRAME)).2.offsets[j + 1]?
              = some off1 ∧ off < off1 ∧
            (s'.image p).datalen = ulong_of_int (int_sub off1 off)) ∧
        (j + 1 < n → ¬ (j : Int) + 1 < s.vdo.num_images →
          (s'.image p).datalen = (s.image p).datalen) ∧
        (j + 1 = n →
          off < (dev.VIDIOCGMBUF s.trace (video_mbuf.zero VIDEO_MAX_FRAME)).2.size ∧
          (s'.image p).datalen = ulong_of_int (int_sub
            (dev.VIDIOCGMBUF s.trace (video_mbuf.zero VIDEO_MAX_FRAME)).2.size off)) := by
  unfold v4l1_mmap_buffers at hok
  generalize hg : dev.VIDIOCGMBUF s.trace (video_mbuf.zero VIDEO_MAX_FRAME) = g at hok hn ⊢
  obtain ⟨rc, vbuf⟩ := g
  simp only at hok hn ⊢
  by_cases hrc : rc < 0
  · rw [if_pos hrc] at hok
    simp [err_capture] at hok
  rw [if_neg hrc] at hok
  by_cases hz : vbuf.frames = 0 ∨ vbuf.size = 0
  · rw [if_pos hz] at hok; cases hok
  rw [if_neg hz] at hok
  push_neg at hz
  have hnpos : 0 < n := by
    rcases Nat.eq_zero_or_pos n with h0 | h0
    · exfalso; apply hz.1; rw [hn, h0]; rfl
    · exact h0
  by_cases hmap : (mmap_buffers_mapped dev s vbuf).vdo.buf = MAP_FAILED
  · rw [if_pos hmap] at hok
    simp [err_capture] at hok
  rw [if_neg hmap] at hok
  obtain ⟨-, hvdo, -, hidx⟩ :=
    mmap_buffers_partition_spec vbuf (mmap_buffers_mapped dev s vbuf) s' 0 n hok hn hnpos hinj
  refine ⟨hnpos, ?_, ?_, ?_, ?_⟩
  · rw [hvdo]; rfl
  · rw [hvdo]; rfl
  · rw [hvdo]; rfl
  · intro j hj
    obtain ⟨p, off, hp, hoff, hd, h1, h2, h3⟩ := hidx j hj
    refine ⟨p, off, hp, hoff, ?_, h1, h2, h3⟩
    rw [hvdo]; exact hd

/-- Distinct images in the first `n` slots: no image is in two of them. -/
lemma nodup_take_index_inj (l : List Nat) (n : Nat) (h : (l.take n).Nodup) :
    ∀ a b p, a < n → b < n → l[a]? = some p → l[b]? = some p → a = b := by
  have key : ∀ a b p, a < b → b < n → l[a]? = some p → l[b]? = some p → False := by
    intro a b p hab hb hpa hpb
    have hbl : b < l.length := by
      by_contra hcon
      rw [List.getElem?_eq_none (by omega)] at hpb
      cases hpb
    have hlen : b < (l.take n).length := by
      rw [List.length_take]; omega
    have hne := List.nodup_iff_getElem?_ne_getElem?.mp h a b hab hlen
    rw [List.getElem?_take_of_lt (by omega), List.getElem?_take_of_lt hb, hpa, hpb] at hne
    exact hne rfl
  intro a b p ha hb hpa hpb
  rcases Nat.lt_trichotomy a b with hlt | heq | hgt
  · exact (key a b p hlt hb hpa hpb).elim
  · exact heq
  · exact (key b a p hgt ha hpb hpa).elim

/-- A sum of lengths that are differences of consecutive marks is the
difference of the last and the first mark. -/
lemma sum_consecutive_differences (g : Nat → Nat) (mark : Nat → Int) :
    ∀ (l : List Nat) (i : Nat),
      (∀ j p, l[j]? = some p → ((g p : Nat) : Int) = mark (i + j + 1) - mark (i + j)) →
      (((l.map g).sum : Nat) : Int) = mark (i + l.length) - mark i := by
  intro l
  induction l with
  | nil => intro i _; simp
  | cons a t ih =>
      intro i h
      have h0 := h 0 a (by simp)
      have ht := ih (i + 1) (fun j p hp => by
        have := h (j + 1) p (by simpa using hp)
        have e1 : i + (j + 1) + 1 = i + 1 + j + 1 := by omega
        have e2 : i + (j + 1) = i + 1 + j := by omega
        rw [e1, e2] at this
        exact this)
      simp only [List.map_cons, List.sum_cons, List.length_cons, Nat.cast_add]
      rw [ht, h0]
      have e3 : i + 1 + t.length = i + (t.length + 1) := by omega
      rw [e3]
      simp only [Nat.add_zero]
      ring

/-- A difference of two `int` that is positive and at most `INT_MAX` is
computed without wrap-around, and its conversion to `unsigned long` keeps
it. -/
lemma ulong_int_sub (a b : Int) (h0 : b < a) (h1 : a - b < 2 ^ 31) :
    ((ulong_of_int (int_sub a b) : Nat) : Int) = a - b := by
  have e : int_sub a b = a - b := by
    unfold int_sub
    norm_num at h1 ⊢
    omega
  rw [e]
  exact ulong_of_int_nonneg _ (by omega)

/-- C5 as stated fails.  With two buffers and a device that reports two frames
at the offsets 0x100 and 0x800 of a region of 0x1000 bytes, the lengths are
0x700 and 0x800, which sum to 0xF00: the bytes before the first offset belong
to no buffer.  With `num_images` 2 of three buffers and a device that reports
three frames at 0, 0x400, 0x800 of a region of 0xC00 bytes, the function
succeeds and the two buffers have the lengths 0x400 and 0.  And with two
buffers and a device that reports two frames at the offsets -2147483648 and 1
of a region of size 2, mapped at 0x100000000, the difference of the two
offsets exceeds `INT_MAX`:
it wraps around to -2147483647, which is stored in the `unsigned long` length
as 18446744071562067969. -/
theorem v4l1_mmap_buffers_sum_not_region_size :
    (∃ s', v4l1_mmap_buffers (device_ok video_picture.zero ⟨0x1000, 2, [0x100, 0x800]⟩ 4096)
        (state_init 2 VIDEO_MMAP) = .ok (0, s') ∧
      s'.vdo.num_images = 2 ∧
      ((s'.vdo.images.take 2).map (fun p => (s'.image p).datalen)) = [0x700, 0x800] ∧
      ((s'.vdo.images.take 2).map (fun p => (s'.image p).datalen)).sum ≠ 0x1000) ∧
    (∃ s', v4l1_mmap_buffers (device_ok video_picture.zero ⟨0xC00, 3, [0, 0x400, 0x800]⟩ 4096)
        { state_init 3 VIDEO_MMAP with
            vdo := { vdo_init 3 VIDEO_MMAP with num_images := 2 } } = .ok (0, s') ∧
      s'.vdo.num_images = 2 ∧
      ((s'.vdo.images.take 2).map (fun p => (s'.image p).datalen)) = [0x400, 0] ∧
      ((s'.vdo.images.take 2).map (fun p => (s'.image p).datalen)).sum ≠ 0xC00) ∧
    (∃ s', v4l1_mmap_buffers (device_ok video_picture.zero ⟨2, 2, [-2147483648, 1]⟩ 0x100000000)
        (state_init 2 VIDEO_MMAP) = .ok (0, s') ∧
      s'.vdo.num_images = 2 ∧
      ((s'.vdo.images.take 2).map (fun p => (s'.image p).datalen)) =
        [18446744071562067969, 1] ∧
      (((s'.vdo.images.take 2).map (fun p => (s'.image p).datalen)).sum : Int) ≠ 2 ∧
      (((s'.vdo.images.take 2).map (fun p => (s'.image p).datalen)).sum : Int)
        ≠ 2 - (-2147483648)) := by
  refine ⟨⟨_, rfl, rfl, rfl, by decide⟩, ⟨_, rfl, rfl, rfl, by decide⟩,
    ⟨_, rfl, rfl, rfl, by decide, by decide⟩⟩

/-- C5 as amended: when `v4l1_mmap_buffers` succeeds, the device reports as
many frames as the session has buffers (`num_images`), these buffers are
pairwise distinct, and no difference that the function takes (of an offset and
the one before it, of the region size and the last offset) exceeds `INT_MAX`,
the sum of `datalen` over the buffers is the region size `vbuf.size` minus the
first offset; so it is the region size exactly when the first offset is 0. -/
theorem v4l1_mmap_buffers_datalen_sum (dev : Device) (s s' : State) (n : Nat)
    (hok : v4l1_mmap_buffers dev s = .ok (0, s'))
    (hframes : (dev.VIDIOCGMBUF s.trace (video_mbuf.zero VIDEO_MAX_FRAME)).2.frames = (n : Int))
    (hnum : s.vdo.num_images = (n : Int))
    (hnodup : (s.vdo.images.take n).Nodup)
    (hfit : ∀ i off off1, i + 1 < n →
      (dev.VIDIOCGMBUF s.trace (video_mbuf.zero VIDEO_MAX_FRAME)).2.offsets[i]? = some off →
      (dev.VIDIOCGMBUF s.trace (video_mbuf.zero VIDEO_MAX_FRAME)).2.offsets[i + 1]? = some off1 →
      off1 - off < 2 ^ 31)
    (hfit_last : ∀ off,
      (dev.VIDIOCGMBUF s.trace (video_mbuf.zero VIDEO_MAX_FRAME)).2.offsets[n - 1]? = some off →
      (dev.VIDIOCGMBUF s.trace (video_mbuf.zero VIDEO_MAX_FRAME)).2.size - off < 2 ^ 31) :
    ∃ off0,
      (dev.VIDIOCGMBUF s.trace (video_mbuf.zero VIDEO_MAX_FRAME)).2.offsets[0]? = some off0 ∧
      ((((s'.vdo.images.take n).map (fun p => (s'.image p).datalen)).sum : Nat) : Int) =
        (dev.VIDIOCGMBUF s.trace (video_mbuf.zero VIDEO_MAX_FRAME)).2.size - off0 ∧
      (off0 = 0 →
        ((((s'.vdo.images.take n).map (fun p => (s'.image p).datalen)).sum : Nat) : Int) =
          (dev.VIDIOCGMBUF s.trace (video_mbuf.zero VIDEO_MAX_FRAME)).2.size) := by
  obtain ⟨hnpos, -, himgs, -, hidx⟩ :=
    mmap_buffers_layout dev s s' n hok hframes (nodup_take_index_inj _ n hnodup)
  generalize (dev.VIDIOCGMBUF s.trace (video_mbuf.zero VIDEO_MAX_FRAME)).2 = vbuf
    at hidx hfit hfit_last ⊢
  obtain ⟨p0, off0, -, hoff0, -⟩ := hidx 0 hnpos
  have hlen : (s'.vdo.images.take n).length = n := by
    obtain ⟨p, off, hp, -⟩ := hidx (n - 1) (by omega)
    have : n - 1 < s.vdo.images.length := by
      by_contra hcon
      rw [List.getElem?_eq_none (by omega)] at hp
      cases hp
    rw [List.length_take, himgs]; omega
  have hsum := sum_consecutive_differences (fun p => (s'.image p).datalen)
    (fun j => if j < n then (vbuf.offsets[j]?).getD 0 else vbuf.size)
    (s'.vdo.images.take n) 0 (by
      intro j p hp
      have hj : j < n := by
        by_contra hcon
        rw [List.getElem?_eq_none (by rw [hlen]; omega)] at hp
        cases hp
      rw [List.getElem?_take_of_lt hj, himgs] at hp
      obtain ⟨q, off, hq, hoff, -, h1, -, h3⟩ := hidx j hj
      have hqp : q = p := by rw [hq] at hp; exact Option.some.inj hp
      subst hqp
      simp only [Nat.zero_add]
      rw [if_pos hj, hoff]
      by_cases hlast : j + 1 < n
      · obtain ⟨off1, ho1, hlt, hd⟩ := h1 hlast (by rw [hnum]; exact_mod_cast hlast)
        rw [if_pos hlast, ho1]
        simp only [Option.getD_some]
        rw [hd]
        exact ulong_int_sub _ _ hlt (hfit j off off1 hlast hoff ho1)
      · have hjn : j + 1 = n := by omega
        have hjn' : n - 1 = j := by omega
        rw [if_neg hlast]
        simp only [Option.getD_some]
        rw [(h3 hjn).2]
        exact ulong_int_sub _ _ (h3 hjn).1 (hfit_last off (by rw [hjn']; exact hoff)))
  rw [hlen] at hsum
  simp only [Nat.zero_add, lt_irrefl, if_false, if_pos hnpos, hoff0, Option.getD_some] at hsum
  exact ⟨off0, hoff0, hsum, fun h0 => by rw [hsum, h0, sub_zero]⟩

/-- C5 as amended, at the example of the specification: four buffers, a
region of 0x100000 bytes, the offsets 0, 0x40000, 0x80000, 0xC0000. -/
theorem v4l1_mmap_buffers_datalen_sum_witness :
    ∃ s', v4l1_mmap_buffers
        (device_ok video_picture.zero ⟨0x100000, 4, [0, 0x40000, 0x80000, 0xC0000]⟩ 4096)
        (state_init 4 VIDEO_MMAP) = .ok (0, s') ∧
      ((((s'.vdo.images.take 4).map (fun p => (s'.image p).datalen)).sum : Nat) : Int)
        = 0x100000 := by
  refine ⟨_, rfl, ?_⟩
  obtain ⟨off0, h0, -, h2⟩ := v4l1_mmap_buffers_datalen_sum
    (device_ok video_picture.zero ⟨0x100000, 4, [0, 0x40000, 0x80000, 0xC0000]⟩ 4096)
    (state_init 4 VIDEO_MMAP) _ 4 rfl rfl rfl (by decide)
    (fun i off off1 hi h0 h1 => by
      have h0' : ([0, 0x40000, 0x80000, 0xC0000] : List Int)[i]? = some off := h0
      have h1' : ([0, 0x40000, 0x80000, 0xC0000] : List Int)[i + 1]? = some off1 := h1
      have hi' : i < 3 := by omega
      interval_cases i <;> simp at h0' h1' <;> omega)
    (fun off h => by
      have h' : some (0xC0000 : Int) = some off := h
      rw [← Option.some.inj h']
      decide)
  exact h2 (by
    have h0' : some (0 : Int) = some off0 := h0
    exact (Option.some.inj h0').symm)

/-- C6 as stated fails.  With `num_images` 1 of two buffers and a device that
reports two frames at the offsets 0 and 0x800 of a region of 0x1000 bytes,
`v4l1_mmap_buffers` succeeds with 2 frames, but buffer 0 keeps the length 0
instead of getting 0x800, the distance between the offsets: the length is
assigned in the loop only under the guard `i + 1 < vdo->num_images`.  And
with two buffers and a device that reports two frames at the offsets
-2147483648 and 1 of a region of size 2, mapped at 0x100000000, the length of
buffer 0 is not the
difference 2147483649 of the offsets, which exceeds `INT_MAX`: the `int`
difference wraps around and 18446744071562067969 is stored. -/
theorem v4l1_mmap_buffers_length_guarded_by_num_images :
    (∃ s', v4l1_mmap_buffers (device_ok video_picture.zero ⟨0x1000, 2, [0, 0x800]⟩ 4096)
        { state_init 2 VIDEO_MMAP with
            vdo := { vdo_init 2 VIDEO_MMAP with num_images := 1 } } = .ok (0, s') ∧
      s'.vdo.images[0]? = some 0 ∧
      (s'.image 0).data = 4096 + 0 ∧
      (s'.image 0).datalen = 0 ∧
      ((s'.image 0).datalen : Int) ≠ 0x800 - 0 ∧
      (s'.image 1).datalen = 0x800) ∧
    (∃ s', v4l1_mmap_buffers (device_ok video_picture.zero ⟨2, 2, [-2147483648, 1]⟩ 0x100000000)
        (state_init 2 VIDEO_MMAP) = .ok (0, s') ∧
      s'.vdo.images[0]? = some 0 ∧
      (s'.image 0).data = 0x100000000 + (-2147483648) ∧
      (s'.image 0).datalen = 18446744071562067969 ∧
      ((s'.image 0).datalen : Int) ≠ 1 - (-2147483648) ∧
      (s'.image 1).datalen = 1) :=
  ⟨⟨_, rfl, rfl, rfl, rfl, by decide, rfl⟩, ⟨_, rfl, rfl, rfl, rfl, by decide, rfl⟩⟩

/-- C6 as amended: when `v4l1_mmap_buffers` succeeds, the device reports `n`
frames with `n` at most `num_images`, and the buffers of the first `n` slots
are pairwise distinct, then for every slot `i` below `n` the buffer has
`data` = region base + `offsets[i]`, where the region base is the address
returned by `mmap`; for `i < n - 1` its `datalen` is the `int` difference
`offsets[i + 1] - offsets[i]` converted to `unsigned long`, which is
`offsets[i + 1] - offsets[i]` when that is at most `INT_MAX`; and for the last
slot it is the `int` difference `size - offsets[n - 1]` converted to
`unsigned long`, which is `size - offsets[n - 1]` when that is at most
`INT_MAX`. -/
theorem v4l1_mmap_buffers_partition (dev : Device) (s s' : State) (n : Nat)
    (hok : v4l1_mmap_buffers dev s = .ok (0, s'))
    (hframes : (dev.VIDIOCGMBUF s.trace (video_mbuf.zero VIDEO_MAX_FRAME)).2.frames = (n : Int))
    (hnum : (n : Int) ≤ s.vdo.num_images)
    (hnodup : (s.vdo.images.take n).Nodup) :
    s'.vdo.buf = dev.mmap (s.trace ++ [Event.VIDIOCGMBUF])
      (ulong_of_int (dev.VIDIOCGMBUF s.trace (video_mbuf.zero VIDEO_MAX_FRAME)).2.size) ∧
    ∀ i, i < n →
      ∃ p off, s'.vdo.images[i]? = some p ∧
        (dev.VIDIOCGMBUF s.trace (video_mbuf.zero VIDEO_MAX_FRAME)).2.offsets[i]? = some off ∧
        (s'.image p).data = s'.vdo.buf + off ∧
        (i + 1 < n →
          ∃ off1,
            (dev.VIDIOCGMBUF s.trace (video_mbuf.zero VIDEO_MAX_FRAME)).2.offsets[i + 1]?
              = some off1 ∧
            (s'.image p).datalen = ulong_of_int (int_sub off1 off) ∧
            (off1 - off < 2 ^ 31 → ((s'.image p).datalen : Int) = off1 - off)) ∧
        (i + 1 = n →
          (s'.image p).datalen = ulong_of_int (int_sub
            (dev.VIDIOCGMBUF s.trace (video_mbuf.zero VIDEO_MAX_FRAME)).2.size off) ∧
          ((dev.VIDIOCGMBUF s.trace (video_mbuf.zero VIDEO_MAX_FRAME)).2.size - off < 2 ^ 31 →
            ((s'.image p).datalen : Int) =
              (dev.VIDIOCGMBUF s.trace (video_mbuf.zero VIDEO_MAX_FRAME)).2.size - off)) := by
  obtain ⟨-, hbuf, himgs, -, hidx⟩ :=
    mmap_buffers_layout dev s s' n hok hframes (nodup_take_index_inj _ n hnodup)
  refine ⟨hbuf, fun i hi => ?_⟩
  obtain ⟨p, off, hp, hoff, hd, h1, -, h3⟩ := hidx i hi
  refine ⟨p, off, by rw [himgs]; exact hp, hoff, hd, fun hlt => ?_, fun hlast => ?_⟩
  · have hc : ((i : Int) + 1) < s.vdo.num_images := by
      have : ((i : Int) + 1) < (n : Int) := by exact_mod_cast hlt
      omega
    obtain ⟨off1, ho1, hinc, hdl⟩ := h1 hlt hc
    exact ⟨off1, ho1, hdl, fun hsmall => by rw [hdl]; exact ulong_int_sub _ _ hinc hsmall⟩
  · obtain ⟨hinc, hdl⟩ := h3 hlast
    exact ⟨hdl, fun hsmall => by rw [hdl]; exact ulong_int_sub _ _ hinc hsmall⟩

/-- C6 as amended, at the example of the specification: frame count 4, size
0x100000 and offsets 0, 0x40000, 0x80000, 0xC0000 give four buffers of length
0x40000, at the offsets of the device from the region base. -/
theorem v4l1_mmap_buffers_partition_witness :
    ∃ s', v4l1_mmap_buffers
        (device_ok video_picture.zero ⟨0x100000, 4, [0, 0x40000, 0x80000, 0xC0000]⟩ 4096)
        (state_init 4 VIDEO_MMAP) = .ok (0, s') ∧
      (s'.vdo.images.map (fun p => (s'.image p).datalen)) =
        [0x40000, 0x40000, 0x40000, 0x40000] ∧
      (s'.vdo.images.map (fun p => (s'.image p).data)) =
        [4096, 4096 + 0x40000, 4096 + 0x80000, 4096 + 0xC0000] ∧
      (∀ i, i < 4 →
        ∃ p off, s'.vdo.images[i]? = some p ∧
          ([0, 0x40000, 0x80000, 0xC0000] : List Int)[i]? = some off ∧
          (s'.image p).data = s'.vdo.buf + off ∧
          (i + 1 < 4 →
            ∃ off1, ([0, 0x40000, 0x80000, 0xC0000] : List Int)[i + 1]? = some off1 ∧
              (s'.image p).datalen = ulong_of_int (int_sub off1 off) ∧
              (off1 - off < 2 ^ 31 → ((s'.image p).datalen : Int) = off1 - off)) ∧
          (i + 1 = 4 →
            (s'.image p).datalen = ulong_of_int (int_sub 0x100000 off) ∧
            ((0x100000 : Int) - off < 2 ^ 31 →
              ((s'.image p).datalen : Int) = 0x100000 - off))) :=
  ⟨_, rfl, rfl, rfl,
    (v4l1_mmap_buffers_partition
      (device_ok video_picture.zero ⟨0x100000, 4, [0, 0x40000, 0x80000, 0xC0000]⟩ 4096)
      (state_init 4 VIDEO_MMAP) _ 4 rfl rfl (by decide) (by decide)).2⟩

/-! ### Transfer mode and release -/

/-- C11 as stated fails: when the buffer-geometry query fails with an error
number other than `EINVAL` (here 5, after the driver filled in four frames and
a size), the query is neither unsupported nor reports zero frames or zero
size, yet `v4l1_probe_iomode` does not select `VIDEO_MMAP`: it fails with
`ZEBRA_ERR_SYSTEM` and leaves `VIDEO_READWRITE` selected. -/
theorem v4l1_probe_iomode_query_error :
    (device_geometry_fails 5 ⟨0x100000, 4, [0, 0x40000, 0x80000, 0xC0000]⟩).errno
      [Event.VIDIOCGMBUF] ≠ EINVAL ∧
    (v4l1_probe_iomode (device_geometry_fails 5 ⟨0x100000, 4, [0, 0x40000, 0x80000, 0xC0000]⟩)
      (state_init 4 VIDEO_INVALID)).1 = -1 ∧
    (v4l1_probe_iomode (device_geometry_fails 5 ⟨0x100000, 4, [0, 0x40000, 0x80000, 0xC0000]⟩)
      (state_init 4 VIDEO_INVALID)).2.vdo.err_type = ZEBRA_ERR_SYSTEM ∧
    (v4l1_probe_iomode (device_geometry_fails 5 ⟨0x100000, 4, [0, 0x40000, 0x80000, 0xC0000]⟩)
      (state_init 4 VIDEO_INVALID)).2.vdo.iomode = VIDEO_READWRITE ∧
    (v4l1_probe_iomode (device_geometry_fails 5 ⟨0x100000, 4, [0, 0x40000, 0x80000, 0xC0000]⟩)
      (state_init 4 VIDEO_INVALID)).2.vdo.iomode ≠ VIDEO_MMAP := by
  refine ⟨by decide, rfl, rfl, rfl, by decide⟩

/-- C11 as amended: `v4l1_probe_iomode` selects `VIDEO_READWRITE` and leaves
`num_images` unchanged when the buffer-geometry query fails (it returns 0 when
the error number is `EINVAL`, and fails with `ZEBRA_ERR_SYSTEM` for any other)
or reports zero frames or zero size; when the query succeeds with frames and a
size, it selects `VIDEO_MMAP` and sets `num_images` to the minimum of
`num_images` and the frame count.  So `num_images` never increases, and in
shared-memory mode it never exceeds the frame count of the device. -/
theorem v4l1_probe_iomode_selects (dev : Device) (s : State) :
    ((dev.VIDIOCGMBUF s.trace (video_mbuf.zero VIDEO_MAX_FRAME)).1 < 0 →
      dev.errno (s.trace ++ [Event.VIDIOCGMBUF]) = EINVAL →
      (v4l1_probe_iomode dev s).1 = 0 ∧
      (v4l1_probe_iomode dev s).2.vdo.iomode = VIDEO_READWRITE ∧
      (v4l1_probe_iomode dev s).2.vdo.num_images = s.vdo.num_images) ∧
    ((dev.VIDIOCGMBUF s.trace (video_mbuf.zero VIDEO_MAX_FRAME)).1 < 0 →
      dev.errno (s.trace ++ [Event.VIDIOCGMBUF]) ≠ EINVAL →
      (v4l1_probe_iomode dev s).1 = -1 ∧
      (v4l1_probe_iomode dev s).2.vdo.err_type = ZEBRA_ERR_SYSTEM ∧
      (v4l1_probe_iomode dev s).2.vdo.iomode = VIDEO_READWRITE ∧
      (v4l1_probe_iomode dev s).2.vdo.num_images = s.vdo.num_images) ∧
    (0 ≤ (dev.VIDIOCGMBUF s.trace (video_mbuf.zero VIDEO_MAX_FRAME)).1 →
      ((dev.VIDIOCGMBUF s.trace (video_mbuf.zero VIDEO_MAX_FRAME)).2.frames = 0 ∨
        (dev.VIDIOCGMBUF s.trace (video_mbuf.zero VIDEO_MAX_FRAME)).2.size = 0) →
      (v4l1_probe_iomode dev s).1 = 0 ∧
      (v4l1_probe_iomode dev s).2.vdo.iomode = VIDEO_READWRITE ∧
      (v4l1_probe_iomode dev s).2.vdo.num_images = s.vdo.num_images) ∧
    (0 ≤ (dev.VIDIOCGMBUF s.trace (video_mbuf.zero VIDEO_MAX_FRAME)).1 →
      (dev.VIDIOCGMBUF s.trace (video_mbuf.zero VIDEO_MAX_FRAME)).2.frames ≠ 0 →
      (dev.VIDIOCGMBUF s.trace (video_mbuf.zero VIDEO_MAX_FRAME)).2.size ≠ 0 →
      (v4l1_probe_iomode dev s).1 = 0 ∧
      (v4l1_probe_iomode dev s).2.vdo.iomode = VIDEO_MMAP ∧
      (v4l1_probe_iomode dev s).2.vdo.num_images =
        min s.vdo.num_images
          (dev.VIDIOCGMBUF s.trace (video_mbuf.zero VIDEO_MAX_FRAME)).2.frames) ∧
    (v4l1_probe_iomode dev s).2.vdo.num_images ≤ s.vdo.num_images ∧
    ((v4l1_probe_iomode dev s).2.vdo.iomode = VIDEO_MMAP →
      (v4l1_probe_iomode dev s).2.vdo.num_images ≤
        (dev.VIDIOCGMBUF s.trace (video_mbuf.zero VIDEO_MAX_FRAME)).2.frames) := by
  unfold v4l1_probe_iomode
  simp only [State.log, err_capture]
  generalize dev.VIDIOCGMBUF s.trace (video_mbuf.zero VIDEO_MAX_FRAME) = g
  generalize dev.errno (s.trace ++ [Event.VIDIOCGMBUF]) = e
  obtain ⟨rc, vbuf⟩ := g
  simp only
  by_cases hrc : rc < 0
  · have hrc' : ¬ 0 ≤ rc := not_le.mpr hrc
    by_cases he : e = EINVAL
    · simp [hrc, hrc', he]
    · simp [hrc, hrc', he]
  · have hrc' : 0 ≤ rc := not_lt.mp hrc
    by_cases hz : vbuf.frames = 0 ∨ vbuf.size = 0
    · simp only [hrc, hrc', if_false, if_pos hz]
      simp [hz]
      intro h1
      rcases hz with h | h
      · exact absurd h h1
      · exact h
    · simp only [hrc, hrc', if_false, if_neg hz]
      push_neg at hz
      by_cases hgt : s.vdo.num_images > vbuf.frames
      · simp only [if_pos hgt]
        simp [hz.1, hz.2]
        omega
      · simp only [if_neg hgt]
        simp [hz.1, hz.2]
        omega

/-- C11 as amended, at a concrete input: a session that asks for four images
on a device that reports two frames gets shared-memory mode with two images. -/
theorem v4l1_probe_iomode_selects_witness :
    (v4l1_probe_iomode (device_ok video_picture.zero ⟨0x1000, 2, [0, 0x800]⟩ 4096)
      (state_init 4 VIDEO_INVALID)).2.vdo.iomode = VIDEO_MMAP ∧
    (v4l1_probe_iomode (device_ok video_picture.zero ⟨0x1000, 2, [0, 0x800]⟩ 4096)
      (state_init 4 VIDEO_INVALID)).2.vdo.num_images = min 4 2 :=
  ⟨((v4l1_probe_iomode_selects (device_ok video_picture.zero ⟨0x1000, 2, [0, 0x800]⟩ 4096)
      (state_init 4 VIDEO_INVALID)).2.2.2.1 (by decide) (by decide) (by decide)).2.1,
   ((v4l1_probe_iomode_selects (device_ok video_picture.zero ⟨0x1000, 2, [0, 0x800]⟩ 4096)
      (state_init 4 VIDEO_INVALID)).2.2.2.1 (by decide) (by decide) (by decide)).2.2⟩

/-- C12, evaluated on the code: on a device that reports four frames but on
which `mmap` fails, `v4l1_mmap_buffers` fails and leaves `vdo->buf` at
`MAP_FAILED`, which is not `NULL`; the following `v4l1_cleanup` therefore
makes an unmap request for that address and, the request failing, returns -1
with `ZEBRA_ERR_SYSTEM`.  When it is the geometry query that is rejected,
`vdo->buf` stays `NULL` and `v4l1_cleanup` makes no request; and after a
provisioning that succeeded, two calls of `v4l1_cleanup` make one unmap
request. -/
theorem v4l1_cleanup_unmaps_failed_mapping :
    (∃ s1, v4l1_mmap_buffers
        (device_mmap_fails ⟨0x100000, 4, [0, 0x40000, 0x80000, 0xC0000]⟩)
        (state_init 4 VIDEO_MMAP) = .ok (-1, s1) ∧
      s1.vdo.buf = MAP_FAILED ∧
      (v4l1_cleanup (device_mmap_fails ⟨0x100000, 4, [0, 0x40000, 0x80000, 0xC0000]⟩) s1).1
        = -1 ∧
      (v4l1_cleanup (device_mmap_fails ⟨0x100000, 4, [0, 0x40000, 0x80000, 0xC0000]⟩)
        s1).2.vdo.err_type = ZEBRA_ERR_SYSTEM ∧
      (v4l1_cleanup (device_mmap_fails ⟨0x100000, 4, [0, 0x40000, 0x80000, 0xC0000]⟩)
        s1).2.trace =
        [Event.VIDIOCGMBUF, Event.mmap 0x100000, Event.munmap MAP_FAILED 0x100000]) ∧
    (∃ s1, v4l1_mmap_buffers (device_geometry_fails 5 (video_mbuf.zero 0))
        (state_init 4 VIDEO_MMAP) = .ok (-1, s1) ∧
      s1.vdo.buf = 0 ∧
      (v4l1_cleanup (device_geometry_fails 5 (video_mbuf.zero 0)) s1).1 = 0 ∧
      (v4l1_cleanup (device_geometry_fails 5 (video_mbuf.zero 0)) s1).2.trace =
        [Event.VIDIOCGMBUF]) ∧
    (∃ s1, v4l1_mmap_buffers
        (device_ok video_picture.zero ⟨0x100000, 4, [0, 0x40000, 0x80000, 0xC0000]⟩ 4096)
        (state_init 4 VIDEO_MMAP) = .ok (0, s1) ∧
      (v4l1_cleanup
        (device_ok video_picture.zero ⟨0x100000, 4, [0, 0x40000, 0x80000, 0xC0000]⟩ 4096)
        (v4l1_cleanup
          (device_ok video_picture.zero ⟨0x100000, 4, [0, 0x40000, 0x80000, 0xC0000]⟩ 4096)
          s1).2).2.trace =
        [Event.VIDIOCGMBUF, Event.mmap 0x100000, Event.munmap 4096 0x100000]) :=
  ⟨⟨_, rfl, rfl, rfl, rfl, rfl⟩, ⟨_, rfl, rfl, rfl, rfl⟩, ⟨_, rfl, rfl⟩⟩

/-! ### Closing -/

/-- Closing a session that has no open device does nothing. -/
lemma video_open_null_closed (dev : Device) (s : State) (hfd : s.vdo.fd < 0) :
    _zebra_video_open dev s none = .ok (0, s) := by
  have h : ¬ 0 ≤ s.vdo.fd := not_le.mpr hfd
  simp [_zebra_video_open, video_close_block, h]

/-- The loop of `v4l1_stop` runs to its end when the array of images holds
`num_images` images; it changes the links of images only. -/
lemma v4l1_stop_loop_runs (n : Nat) :
    ∀ fuel i s, i + fuel = n → s.vdo.num_images = (n : Int) → n ≤ s.vdo.images.length →
      ∃ s', v4l1_stop_loop fuel i s = .ok s' ∧ s'.vdo = s.vdo ∧ s'.trace = s.trace ∧
        (∀ p, (∀ j, i ≤ j → j < n → s.vdo.images[j]? ≠ some p) → s'.image p = s.image p) ∧
        (∀ j, i ≤ j → j < n → ∃ p, s.vdo.images[j]? = some p ∧ (s'.image p).next = none) := by
  intro fuel
  induction fuel with
  | zero =>
      intro i s hi _ _
      exact ⟨s, rfl, rfl, rfl, fun _ _ => rfl, fun j h1 h2 => by omega⟩
  | succ m ih =>
      intro i s hi hn hlen
      have hlt : (i : Int) < s.vdo.num_images := by rw [hn]; exact_mod_cast (by omega : i < n)
      have hil : i < s.vdo.images.length := by omega
      simp only [v4l1_stop_loop, if_pos hlt, List.getElem?_eq_getElem hil]
      obtain ⟨s', h1, h2, h3, h4, h5⟩ :=
        ih (i + 1) (s.set_next s.vdo.images[i] none) (by omega) hn hlen
      refine ⟨s', h1, h2, h3, ?_, ?_⟩
      · intro p hp
        rw [h4 p (fun j hj1 hj2 => hp j (by omega) hj2)]
        have hne : p ≠ s.vdo.images[i] := by
          intro hcon
          exact hp i (le_refl _) (by omega) (by rw [List.getElem?_eq_getElem hil, hcon])
        simp [State.set_next, hne]
      · intro j hj1 hj2
        by_cases hji : j = i
        · subst hji
          refine ⟨s.vdo.images[j], List.getElem?_eq_getElem hil, ?_⟩
          by_cases hlater : ∀ k, j + 1 ≤ k → k < n →
              (s.set_next s.vdo.images[j] none).vdo.images[k]? ≠ some s.vdo.images[j]
          · rw [h4 _ hlater]
            simp [State.set_next]
          · push_neg at hlater
            obtain ⟨k, hk1, hk2, hk3⟩ := hlater
            obtain ⟨p, hp1, hp2⟩ := h5 k hk1 hk2
            rw [hk3] at hp1
            rw [Option.some.inj hp1]
            exact hp2
        · exact h5 j (by omega) hj2

/-- What `v4l1_stop` does when the array of images holds `num_images` images:
it returns 0, the head and the tail of the queue are `NULL`, the link of every
one of the images is `NULL`, and the one request made is the release of the
lock. -/
lemma v4l1_stop_spec (s : State) (n : Nat)
    (hn : s.vdo.num_images = (n : Int)) (hlen : n ≤ s.vdo.images.length) :
    ∃ s', v4l1_stop s = .ok (0, s') ∧
      s'.vdo = { s.vdo with nq_image := none, dq_image := none } ∧
      s'.trace = s.trace ++ [Event.unlock] ∧
      (∀ j, j < n → ∃ p, s.vdo.images[j]? = some p ∧ (s'.image p).next = none) := by
  obtain ⟨s1, h1, h2, h3, -, h5⟩ := v4l1_stop_loop_runs n n 0 s (by omega) hn hlen
  have htn : s.vdo.num_images.toNat = n := by rw [hn]; exact Int.toNat_natCast n
  refine ⟨(video_unlock ((s1.set_dq_image none).set_nq_image none)).2, ?_, ?_, ?_, ?_⟩
  · simp only [v4l1_stop, htn, h1]
    rfl
  · simp only [video_unlock, State.log, State.set_nq_image, State.set_dq_image, h2]
  · simp only [video_unlock, State.log, State.set_nq_image, State.set_dq_image, h3]
  · intro j hj
    exact h5 j (Nat.zero_le _) hj

/-- Stopping an active session of this backend on the way to closing it
succeeds and leaves the function pointers as they are. -/
lemma video_close_stop_runs (s : State) (n : Nat)
    (hstop : s.vdo.stop = some video_fn.v4l1_stop)
    (hn : s.vdo.num_images = (n : Int)) (hlen : n ≤ s.vdo.images.length) :
    ∃ s2, video_close_stop s = .ok s2 ∧ s2.vdo.cleanup = s.vdo.cleanup := by
  unfold video_close_stop
  by_cases hact : s.vdo.active = true
  · rw [if_pos hact]
    obtain ⟨s', h1, h2, -, -⟩ :=
      v4l1_stop_spec { s with vdo := { s.vdo with active := false } } n hn hlen
    have e : call_stop { s with vdo := { s.vdo with active := false } } = .ok (0, s') := by
      unfold call_stop
      have hs : ({ s with vdo := { s.vdo with active := false } } : State).vdo.stop
          = some video_fn.v4l1_stop := hstop
      rw [hs]
      exact h1
    rw [e]
    exact ⟨s', rfl, by rw [h2]⟩
  · rw [if_neg hact]
    exact ⟨s, rfl, rfl⟩

/-- C13: on a session with an open device (`fd >= 0`) whose function pointers
are those of this backend and whose array of images holds `num_images` images,
`_zebra_video_open(vdo, NULL)` returns 0 and leaves `fd = -1`; a second call
right after it returns 0 again and leaves the whole state as it is, the trace
of requests included: no stop, no cleanup, no unmap, no release of the
handle. -/
theorem zebra_video_close_idempotent (dev : Device) (s : State) (n : Nat)
    (hfd : 0 ≤ s.vdo.fd)
    (hstop : s.vdo.stop = some video_fn.v4l1_stop)
    (hcleanup : s.vdo.cleanup = some video_fn.v4l1_cleanup)
    (hn : s.vdo.num_images = (n : Int)) (hlen : n ≤ s.vdo.images.length) :
    ∃ s1, _zebra_video_open dev s none = .ok (0, s1) ∧ s1.vdo.fd = -1 ∧
      _zebra_video_open dev s1 none = .ok (0, s1) := by
  obtain ⟨s2, h1, h2⟩ := video_close_stop_runs (video_lock s).2 n hstop hn hlen
  have h3 : call_cleanup dev s2 = .ok (v4l1_cleanup dev s2).2 := by
    unfold call_cleanup
    have hc : s2.vdo.cleanup = some video_fn.v4l1_cleanup := by rw [h2]; exact hcleanup
    rw [hc]
  have key : ∃ s1, _zebra_video_open dev s none = .ok (0, s1) ∧ s1.vdo.fd = -1 := by
    unfold _zebra_video_open video_close_block
    rw [if_pos hfd, h1]
    simp only [h3]
    exact ⟨_, rfl, rfl⟩
  obtain ⟨s1, k1, k2⟩ := key
  exact ⟨s1, k1, k2, video_open_null_closed dev s1 (by rw [k2]; decide)⟩

/-- C13 at a concrete session: an active session of this backend with four
buffers and a mapped region is closed twice; the first call stops it, unmaps
the region and closes the handle, the second call adds no request. -/
theorem zebra_video_close_idempotent_witness :
    ∃ s1, _zebra_video_open (device_ok video_picture.zero (video_mbuf.zero 0) 4096)
        { state_bound 4 VIDEO_MMAP with
          vdo := { (state_bound 4 VIDEO_MMAP).vdo with
            active := true, buf := 4096, buflen := 0x100000 } } none = .ok (0, s1) ∧
      s1.vdo.fd = -1 ∧
      _zebra_video_open (device_ok video_picture.zero (video_mbuf.zero 0) 4096) s1 none
        = .ok (0, s1) :=
  zebra_video_close_idempotent (device_ok video_picture.zero (video_mbuf.zero 0) 4096)
    { state_bound 4 VIDEO_MMAP with
      vdo := { (state_bound 4 VIDEO_MMAP).vdo with
        active := true, buf := 4096, buflen := 0x100000 } } 4
    (by decide) rfl rfl rfl (by decide)

/-! ### Window negotiation -/

/-- C14: when the first window query of `v4l1_init_window` succeeds and
reports the width and the height that the session holds as its maximum, the
function returns 0, its only request is that query (no `VIDIOCSWIN`), and the
width and the height of the session are the reported ones. -/
theorem v4l1_init_window_maximum_already_set (dev : Device) (s : State)
    (hq : 0 ≤ (dev.VIDIOCGWIN s.trace video_window.zero).1)
    (hw : (dev.VIDIOCGWIN s.trace video_window.zero).2.width = s.vdo.width)
    (hh : (dev.VIDIOCGWIN s.trace video_window.zero).2.height = s.vdo.height) :
    (v4l1_init_window dev s).1 = 0 ∧
    (v4l1_init_window dev s).2.trace = s.trace ++ [Event.VIDIOCGWIN] ∧
    (∀ vwin, Event.VIDIOCSWIN vwin ∉ (v4l1_init_window dev s).2.trace.drop s.trace.length) ∧
    (v4l1_init_window dev s).2.vdo.width =
      (dev.VIDIOCGWIN s.trace video_window.zero).2.width ∧
    (v4l1_init_window dev s).2.vdo.height =
      (dev.VIDIOCGWIN s.trace video_window.zero).2.height := by
  have hq' : ¬ (dev.VIDIOCGWIN s.trace video_window.zero).1 < 0 := not_lt.mpr hq
  have e : v4l1_init_window dev s = (0, s.log Event.VIDIOCGWIN) := by
    unfold v4l1_init_window
    simp only [hq', if_false]
    rw [if_pos ⟨hw, hh⟩]
  rw [e]
  refine ⟨rfl, rfl, ?_, hw.symm, hh.symm⟩
  intro vwin
  simp [State.log]

/-- C14 at a concrete input: the device already has the window of 320 x 240
that the session asks for. -/
theorem v4l1_init_window_maximum_already_set_witness :
    (v4l1_init_window (device_window 640 480) (state_init 4 VIDEO_MMAP)).1 = 0 ∧
    (v4l1_init_window (device_window 640 480) (state_init 4 VIDEO_MMAP)).2.trace
      = [Event.VIDIOCGWIN] ∧
    (v4l1_init_window (device_window 640 480) (state_init 4 VIDEO_MMAP)).2.vdo.width = 320 :=
  ⟨(v4l1_init_window_maximum_already_set (device_window 640 480) (state_init 4 VIDEO_MMAP)
      (by decide) rfl rfl).1,
   (v4l1_init_window_maximum_already_set (device_window 640 480) (state_init 4 VIDEO_MMAP)
      (by decide) rfl rfl).2.1,
   (v4l1_init_window_maximum_already_set (device_window 640 480) (state_init 4 VIDEO_MMAP)
      (by decide) rfl rfl).2.2.2.1⟩

/-- The last window query of a trace that ends with a window query. -/
lemma last_window_query_append (l : List Event) :
    last_window_query (l ++ [Event.VIDIOCGWIN]) = some l := by
  induction l with
  | nil => simp [last_window_query]
  | cons e rest ih => simp [last_window_query, ih]

/-- When the recovery at the end of `v4l1_init_window` returns 0, the session
has the window of the query that ends the trace. -/
lemma init_window_recover_spec (dev : Device) (s : State) (vwin : video_window)
    (h : (init_window_recover dev s vwin).1 = 0) :
    ∃ hist, last_window_query (init_window_recover dev s vwin).2.trace = some hist ∧
      (init_window_recover dev s vwin).2.vdo.width =
        (dev.VIDIOCGWIN hist video_window.zero).2.width ∧
      (init_window_recover dev s vwin).2.vdo.height =
        (dev.VIDIOCGWIN hist video_window.zero).2.height := by
  unfold init_window_recover at h ⊢
  simp only [State.log] at h ⊢
  by_cases hq : (dev.VIDIOCGWIN (s.trace ++ [Event.VIDIOCSWIN vwin]) video_window.zero).1 < 0
  · rw [if_pos hq] at h
    simp [err_capture] at h
  · rw [if_neg hq]
    exact ⟨_, last_window_query_append _, rfl, rfl⟩

/-- C19: whenever `v4l1_init_window` returns 0, on every path, the trace holds
a window query, and the width and the height of the session are those that
the device returned to the last window query of the trace. -/
theorem v4l1_init_window_last_query (dev : Device) (s : State)
    (hok : (v4l1_init_window dev s).1 = 0) :
    ∃ hist, last_window_query (v4l1_init_window dev s).2.trace = some hist ∧
      (v4l1_init_window dev s).2.vdo.width =
        (dev.VIDIOCGWIN hist video_window.zero).2.width ∧
      (v4l1_init_window dev s).2.vdo.height =
        (dev.VIDIOCGWIN hist video_window.zero).2.height := by
  unfold v4l1_init_window at hok ⊢
  simp only [State.log] at hok ⊢
  by_cases hq : (dev.VIDIOCGWIN s.trace video_window.zero).1 < 0
  · rw [if_pos hq] at hok
    simp [err_capture] at hok
  rw [if_neg hq] at hok ⊢
  by_cases hsame : (dev.VIDIOCGWIN s.trace video_window.zero).2.width = s.vdo.width ∧
      (dev.VIDIOCGWIN s.trace video_window.zero).2.height = s.vdo.height
  · rw [if_pos hsame]
    exact ⟨_, last_window_query_append _, hsame.1.symm, hsame.2.symm⟩
  rw [if_neg hsame] at hok ⊢
  split_ifs at hok ⊢ with hset hq2 hkeep
  · simp [err_capture] at hok
  · exact ⟨_, last_window_query_append _, rfl, rfl⟩
  · exact init_window_recover_spec dev _ _ hok
  · exact init_window_recover_spec dev _ _ hok

/-- C19 at concrete inputs: a resize that the device accepts, and a resize
that the device rejects, after which the window of 320 x 240 is restored. -/
theorem v4l1_init_window_last_query_witness :
    (∃ hist, last_window_query (v4l1_init_window (device_window 640 480)
        { state_init 4 VIDEO_MMAP with
          vdo := { vdo_init 4 VIDEO_MMAP with width := 640, height := 480 } }).2.trace
          = some hist ∧
      (v4l1_init_window (device_window 640 480)
        { state_init 4 VIDEO_MMAP with
          vdo := { vdo_init 4 VIDEO_MMAP with width := 640, height := 480 } }).2.vdo.width
        = ((device_window 640 480).VIDIOCGWIN hist video_window.zero).2.width ∧
      (v4l1_init_window (device_window 640 480)
        { state_init 4 VIDEO_MMAP with
          vdo := { vdo_init 4 VIDEO_MMAP with width := 640, height := 480 } }).2.vdo.height
        = ((device_window 640 480).VIDIOCGWIN hist video_window.zero).2.height) ∧
    (v4l1_init_window (device_window 640 480)
        { state_init 4 VIDEO_MMAP with
          vdo := { vdo_init 4 VIDEO_MMAP with width := 640, height := 480 } }).2.vdo.width = 640 ∧
    (v4l1_init_window (device_window 320 240)
        { state_init 4 VIDEO_MMAP with
          vdo := { vdo_init 4 VIDEO_MMAP with width := 640, height := 480 } }).2.vdo.width = 320 :=
  ⟨v4l1_init_window_last_query (device_window 640 480)
      { state_init 4 VIDEO_MMAP with
        vdo := { vdo_init 4 VIDEO_MMAP with width := 640, height := 480 } } rfl,
    rfl, rfl⟩

/-! ### Indices of the images -/

/-- C18, evaluated on the code: a session that asks for four images on a
device that offers eight frames gets from `v4l1_probe_iomode` shared-memory
mode with `num_images` still 4, at most the frame count.  With the device
reporting the same geometry again, the loop of `v4l1_mmap_buffers` runs over
the eight frames of the device: with four images in the array it indexes the
array out of its bounds at index 4; with eight images in the array it returns
0 after writing the pointer of the images 4 to 7 and the length of image 7,
all of them at indices that are not smaller than `num_images`, while image 3
is left without a length. -/
theorem v4l1_mmap_buffers_indexes_past_num_images :
    (v4l1_probe_iomode
      (device_ok video_picture.zero
        ⟨0x800, 8, [0, 0x100, 0x200, 0x300, 0x400, 0x500, 0x600, 0x700]⟩ 4096)
      (state_init 4 VIDEO_INVALID)).2.vdo.iomode = VIDEO_MMAP ∧
    (v4l1_probe_iomode
      (device_ok video_picture.zero
        ⟨0x800, 8, [0, 0x100, 0x200, 0x300, 0x400, 0x500, 0x600, 0x700]⟩ 4096)
      (state_init 4 VIDEO_INVALID)).2.vdo.num_images = 4 ∧
    (v4l1_probe_iomode
      (device_ok video_picture.zero
        ⟨0x800, 8, [0, 0x100, 0x200, 0x300, 0x400, 0x500, 0x600, 0x700]⟩ 4096)
      (state_init 4 VIDEO_INVALID)).2.vdo.images.length = 4 ∧
    v4l1_mmap_buffers
      (device_ok video_picture.zero
        ⟨0x800, 8, [0, 0x100, 0x200, 0x300, 0x400, 0x500, 0x600, 0x700]⟩ 4096)
      (v4l1_probe_iomode
        (device_ok video_picture.zero
          ⟨0x800, 8, [0, 0x100, 0x200, 0x300, 0x400, 0x500, 0x600, 0x700]⟩ 4096)
        (state_init 4 VIDEO_INVALID)).2 = .error crash.out_of_bounds ∧
    (∃ s', v4l1_mmap_buffers
        (device_ok video_picture.zero
          ⟨0x800, 8, [0, 0x100, 0x200, 0x300, 0x400, 0x500, 0x600, 0x700]⟩ 4096)
        (v4l1_probe_iomode
          (device_ok video_picture.zero
            ⟨0x800, 8, [0, 0x100, 0x200, 0x300, 0x400, 0x500, 0x600, 0x700]⟩ 4096)
          { state_init 4 VIDEO_INVALID with
            vdo := { vdo_init 4 VIDEO_INVALID with images := List.range 8 } }).2
          = .ok (0, s') ∧
      s'.vdo.num_images = 4 ∧
      (s'.vdo.images.map (fun p => (s'.image p).data)) =
        [4096, 4096 + 0x100, 4096 + 0x200, 4096 + 0x300, 4096 + 0x400, 4096 + 0x500,
          4096 + 0x600, 4096 + 0x700] ∧
      (s'.vdo.images.map (fun p => (s'.image p).datalen)) =
        [0x100, 0x100, 0x100, 0, 0, 0, 0, 0x100]) :=
  ⟨rfl, rfl, rfl, rfl, ⟨_, rfl, rfl, rfl, rfl⟩⟩

/-! ### Start and stop -/

/-- The fields of the session that `v4l1_nq` leaves as they are. -/
lemma v4l1_nq_frame (dev : Device) (s : State) (img : Nat) :
    (v4l1_nq dev s img).2.vdo.images = s.vdo.images ∧
    (v4l1_nq dev s img).2.vdo.num_images = s.vdo.num_images ∧
    (v4l1_nq dev s img).2.vdo.nq = s.vdo.nq := by
  unfold v4l1_nq
  cases hnq : s.vdo.nq_image <;> cases hdq : s.vdo.dq_image <;>
    simp [State.set_next, State.set_nq_image, State.set_dq_image, video_unlock, State.log,
      err_capture, hnq, hdq] <;>
    split_ifs <;> simp

/-- When the device accepts every capture request, `v4l1_nq` returns 0. -/
lemma v4l1_nq_succeeds (dev : Device) (s : State) (img : Nat)
    (hcap : ∀ hist vmap, 0 ≤ dev.VIDIOCMCAPTURE hist vmap) :
    (v4l1_nq dev s img).1 = 0 := by
  have key : ∀ hist vmap, ¬ dev.VIDIOCMCAPTURE hist vmap < 0 :=
    fun hist vmap => not_lt.mpr (hcap hist vmap)
  unfold v4l1_nq
  simp only [video_unlock, State.log, err_capture, key, if_false]
  split_ifs <;> first | rfl | simp_all

/-- Whether the queue holds a list depends on the images and on the session
only. -/
lemma queue_holds_congr (s t : State) (q : List Nat)
    (himage : t.image = s.image) (hvdo : t.vdo = s.vdo) (h : queue_holds s q) :
    queue_holds t q := by
  unfold queue_holds at h ⊢
  rw [himage, hvdo]
  exact h

/-- Submitting a second buffer behind a first one that is both head and tail
makes the two the queue, whatever the link of the first one was. -/
lemma v4l1_nq_second (dev : Device) (t : State) (a b : Nat)
    (hnq : t.vdo.nq_image = some a) (hdq : t.vdo.dq_image = some a) (hab : a ≠ b) :
    queue_holds (v4l1_nq dev t b).2 [a, b] := by
  obtain ⟨k1, k2, k3⟩ := v4l1_nq_queue dev t b
  refine ⟨by simp [hab], ?_, fun _ => by rw [k1]; rfl⟩
  rw [k2, k3, hnq, hdq]
  simp only [if_false, reduceCtorEq]
  refine ⟨rfl, ?_⟩
  have e1 : (((t.set_next b none).set_next a (some b)).image a).next = some b := by
    simp [State.set_next]
  have e2 : (((t.set_next b none).set_next a (some b)).image b).next = none := by
    simp [State.set_next, hab.symm]
  rw [e1]
  exact ⟨rfl, e2⟩

/-- One iteration of the loop of `v4l1_start` on a session of this backend, on
a device that accepts every capture request: image `i` is submitted, and the
loop goes on from a state that differs from the one after `v4l1_nq` by its
trace at most. -/
lemma v4l1_start_loop_step (dev : Device)
    (hcap : ∀ hist vmap, 0 ≤ dev.VIDIOCMCAPTURE hist vmap)
    (fuel i : Nat) (s : State) (a : Nat)
    (hi : (i : Int) < s.vdo.num_images) (ha : s.vdo.images[i]? = some a)
    (hnq : s.vdo.nq = some video_fn.v4l1_nq) :
    ∃ t, v4l1_start_loop dev (fuel + 1) i s = v4l1_start_loop dev fuel (i + 1) t ∧
      t.image = (v4l1_nq dev s a).2.image ∧ t.vdo = (v4l1_nq dev s a).2.vdo := by
  have hrc := v4l1_nq_succeeds dev s a hcap
  simp only [v4l1_start_loop, if_pos hi, ha, call_nq, hnq]
  by_cases hlast : (i : Int) + 1 < (v4l1_nq dev s a).2.vdo.num_images
  · refine ⟨(video_lock (v4l1_nq dev s a).2).2, ?_, rfl, rfl⟩
    simp [hrc, hlast, video_lock]
  · refine ⟨(v4l1_nq dev s a).2, ?_, rfl, rfl⟩
    simp [hrc, hlast]

/-- The loop of `v4l1_start`, from an index `i` of at least 1 at which the
queue holds the images of the slots below `i`, ends with the queue holding
the images of all `n` slots. -/
lemma v4l1_start_loop_appends (dev : Device)
    (hcap : ∀ hist vmap, 0 ≤ dev.VIDIOCMCAPTURE hist vmap)
    (l : List Nat) (n : Nat) (hnd : (l.take n).Nodup) (hlen : n ≤ l.length) :
    ∀ fuel i s, i + fuel = n → 1 ≤ i → s.vdo.images = l → s.vdo.num_images = (n : Int) →
      s.vdo.nq = some video_fn.v4l1_nq → queue_holds s (l.take i) →
      ∃ s', v4l1_start_loop dev fuel i s = .ok (0, s') ∧ queue_holds s' (l.take n) := by
  intro fuel
  induction fuel with
  | zero =>
      intro i s hi _ _ _ _ hq
      have : i = n := by omega
      subst this
      exact ⟨s, rfl, hq⟩
  | succ m ih =>
      intro i s hi h1 himgs hn hnq hq
      have hil : i < l.length := by omega
      have ha : s.vdo.images[i]? = some l[i] := by
        rw [himgs]; exact List.getElem?_eq_getElem hil
      have hlt : (i : Int) < s.vdo.num_images := by
        rw [hn]; exact_mod_cast (by omega : i < n)
      obtain ⟨t, ht, himage, hvdo⟩ := v4l1_start_loop_step dev hcap m i s l[i] hlt ha hnq
      obtain ⟨f1, f2, f3⟩ := v4l1_nq_frame dev s l[i]
      have htake : l.take (i + 1) = l.take i ++ [l[i]] := by
        rw [List.take_succ, List.getElem?_eq_getElem hil]; rfl
      have hnd' : (l.take (i + 1)).Nodup := by
        have hsub : (l.take (i + 1)).Sublist (l.take n) :=
          List.take_sublist_take_left l (by omega)
        exact hsub.nodup hnd
      have hnotin : l[i] ∉ l.take i := by
        rw [htake] at hnd'
        intro hmem
        exact (List.nodup_append.mp hnd').2.2 hmem (List.mem_singleton_self _)
      have hne : l.take i ≠ [] := by
        intro hcon
        rcases List.take_eq_nil_iff.mp hcon with h | h
        · omega
        · rw [h] at hil
          simp at hil
      have hq' : queue_holds t (l.take (i + 1)) := by
        rw [htake]
        exact queue_holds_congr _ t _ himage hvdo (v4l1_nq_appends dev s _ l[i] hq hne hnotin)
      rw [ht]
      exact ih (i + 1) t (by omega) (by omega) (by rw [hvdo, f1, himgs])
        (by rw [hvdo, f2, hn]) (by rw [hvdo, f3, hnq]) hq'

/-- On a session of this backend whose array of images holds `num_images`
distinct images, from an empty queue and on a device that accepts every
capture request, `v4l1_start` returns 0 and leaves the queue holding the
images in the order of their slots, unless the session has a single image and
`nq_image` still points at it. -/
lemma v4l1_start_queues (dev : Device) (s : State) (n : Nat)
    (hnq : s.vdo.nq = some video_fn.v4l1_nq)
    (hn : s.vdo.num_images = (n : Int)) (hlen : n ≤ s.vdo.images.length)
    (hnodup : (s.vdo.images.take n).Nodup)
    (hempty : s.vdo.dq_image = none)
    (htail : ∀ a, s.vdo.images.take n = [a] → s.vdo.nq_image ≠ some a)
    (hcap : ∀ hist vmap, 0 ≤ dev.VIDIOCMCAPTURE hist vmap) :
    ∃ s', v4l1_start dev s = .ok (0, s') ∧ queue_holds s' (s.vdo.images.take n) := by
  have htn : s.vdo.num_images.toNat = n := by rw [hn]; exact Int.toNat_natCast n
  unfold v4l1_start
  rw [htn]
  rcases Nat.lt_or_ge n 1 with h0 | h1
  · have : n = 0 := by omega
    subst this
    exact ⟨s, rfl, List.nodup_nil, hempty, fun h => absurd rfl h⟩
  have h0l : 0 < s.vdo.images.length := by omega
  have ha : s.vdo.images[0]? = some s.vdo.images[0] := List.getElem?_eq_getElem h0l
  have hlt0 : ((0 : Nat) : Int) < s.vdo.num_images := by
    rw [hn]; exact_mod_cast (by omega : 0 < n)
  obtain ⟨m, rfl⟩ : ∃ m, n = m + 1 := ⟨n - 1, by omega⟩
  obtain ⟨t, ht, himage, hvdo⟩ :=
    v4l1_start_loop_step dev hcap m 0 s s.vdo.images[0] hlt0 ha hnq
  obtain ⟨f1, f2, f3⟩ := v4l1_nq_frame dev s s.vdo.images[0]
  obtain ⟨g1, g2, -⟩ := v4l1_nq_queue dev s s.vdo.images[0]
  rw [if_pos hempty] at g2
  rw [ht]
  have htake1 : s.vdo.images.take 1 = [s.vdo.images[0]] := by
    rw [List.take_succ, List.getElem?_eq_getElem h0l]; rfl
  rcases Nat.eq_zero_or_pos m with hm | hm
  · subst hm
    refine ⟨t, rfl, ?_⟩
    rw [htake1]
    exact queue_holds_congr _ t _ himage hvdo
      (v4l1_nq_first dev s _ hempty (htail _ htake1))
  · have h1l : 1 < s.vdo.images.length := by omega
    obtain ⟨m', rfl⟩ : ∃ m', m = m' + 1 := ⟨m - 1, by omega⟩
    have hb : t.vdo.images[1]? = some s.vdo.images[1] := by
      rw [hvdo, f1]; exact List.getElem?_eq_getElem h1l
    have hlt1 : ((1 : Nat) : Int) < t.vdo.num_images := by
      rw [hvdo, f2, hn]; exact_mod_cast (by omega : 1 < m' + 1 + 1)
    obtain ⟨t2, ht2, himage2, hvdo2⟩ :=
      v4l1_start_loop_step dev hcap m' 1 t s.vdo.images[1] hlt1 hb (by rw [hvdo, f3, hnq])
    obtain ⟨e1, e2, e3⟩ := v4l1_nq_frame dev t s.vdo.images[1]
    have htake2 : s.vdo.images.take 2 = [s.vdo.images[0], s.vdo.images[1]] := by
      rw [List.take_succ, htake1, List.getElem?_eq_getElem h1l]; rfl
    have hab : s.vdo.images[0] ≠ s.vdo.images[1] := by
      have hsub : (s.vdo.images.take 2).Sublist (s.vdo.images.take (m' + 1 + 1)) :=
        List.take_sublist_take_left _ (by omega)
      have := hsub.nodup hnodup
      rw [htake2] at this
      intro hcon
      simp [hcon] at this
    have hq2 : queue_holds t2 (s.vdo.images.take 2) := by
      rw [htake2]
      exact queue_holds_congr _ t2 _ himage2 hvdo2
        (v4l1_nq_second dev t _ _ (by rw [hvdo, g1]) (by rw [hvdo, g2]) hab)
    rw [ht2]
    exact v4l1_start_loop_appends dev hcap s.vdo.images (m' + 1 + 1) hnodup hlen m' 2 t2
      (by omega) (by omega) (by rw [hvdo2, e1, hvdo, f1]) (by rw [hvdo2, e2, hvdo, f2, hn])
      (by rw [hvdo2, e3, hvdo, f3, hnq]) hq2

/-- Retrieving from an empty queue records the error `ZEBRA_ERR_BUSY`. -/
lemma v4l1_dq_busy (dev : Device) (s : State) (hempty : s.vdo.dq_image = none) :
    (v4l1_dq dev s).1 = none ∧ (v4l1_dq dev s).2.vdo.err_type = ZEBRA_ERR_BUSY := by
  simp [v4l1_dq, hempty, video_unlock, err_capture, State.log]

/-- On a session of this backend whose `num_images` images are distinct, from
an empty queue (`dq_image` is `NULL`) and with all device requests succeeding,
`v4l1_start` returns 0 and leaves the queue holding every image once, in the
order of the slots; the following calls of `v4l1_dq` return the images in that
order, and from then on `v4l1_dq` returns `NULL` with the error
`ZEBRA_ERR_BUSY`; unless the session has a single image and `nq_image` still
points at it. -/
lemma v4l1_start_returns_slots (dev : Device) (s : State) (n : Nat)
    (hnq : s.vdo.nq = some video_fn.v4l1_nq)
    (hn : s.vdo.num_images = (n : Int)) (hlen : n ≤ s.vdo.images.length)
    (hnodup : (s.vdo.images.take n).Nodup)
    (hhead : s.vdo.dq_image = none)
    (htail : ∀ a, s.vdo.images.take n = [a] → s.vdo.nq_image ≠ some a)
    (hcap : ∀ hist vmap, 0 ≤ dev.VIDIOCMCAPTURE hist vmap)
    (hdev : retrieval_succeeds dev) :
    ∃ s', v4l1_start dev s = .ok (0, s') ∧
      queue_holds s' (s.vdo.images.take n) ∧
      (∀ k, (dq_n dev s' (n + k)).1 =
        (s.vdo.images.take n).map some ++ List.replicate k none) ∧
      (v4l1_dq dev (dq_n dev s' n).2).1 = none ∧
      (v4l1_dq dev (dq_n dev s' n).2).2.vdo.err_type = ZEBRA_ERR_BUSY := by
  obtain ⟨s', h1, h2⟩ := v4l1_start_queues dev s n hnq hn hlen hnodup hhead htail hcap
  have hl : (s.vdo.images.take n).length = n := by
    rw [List.length_take]; omega
  refine ⟨s', h1, h2, ?_, ?_⟩
  · intro k
    have := (dq_n_returns_queue dev hdev _ s' k h2).1
    rw [hl] at this
    exact this
  · have := (dq_n_returns_queue dev hdev _ s' 0 h2).2
    rw [hl, Nat.add_zero] at this
    exact v4l1_dq_busy dev _ this.2.1

/-- C16: from every state of a session whose array of images holds
`num_images` images, `v4l1_stop` returns 0, leaves `nq_image` and `dq_image`
`NULL` and the link of every image `NULL`, and makes no request but the
release of the lock; a following `v4l1_dq` returns `NULL` with the error
`ZEBRA_ERR_BUSY`; and when the images are distinct and the device accepts
every capture request, a following `v4l1_start` of this backend returns 0 and
leaves the queue holding every image once, in the order of the slots. -/
theorem v4l1_stop_resets_queue (dev : Device) (s : State) (n : Nat)
    (hn : s.vdo.num_images = (n : Int)) (hlen : n ≤ s.vdo.images.length) :
    ∃ s1, v4l1_stop s = .ok (0, s1) ∧
      s1.vdo.nq_image = none ∧ s1.vdo.dq_image = none ∧
      (∀ i, i < n → ∃ p, s1.vdo.images[i]? = some p ∧ (s1.image p).next = none) ∧
      s1.trace = s.trace ++ [Event.unlock] ∧
      (v4l1_dq dev s1).1 = none ∧
      (v4l1_dq dev s1).2.vdo.err_type = ZEBRA_ERR_BUSY ∧
      (s.vdo.nq = some video_fn.v4l1_nq → (s.vdo.images.take n).Nodup →
        (∀ hist vmap, 0 ≤ dev.VIDIOCMCAPTURE hist vmap) →
        ∃ s2, v4l1_start dev s1 = .ok (0, s2) ∧ queue_holds s2 (s1.vdo.images.take n)) := by
  obtain ⟨s1, h1, h2, h3, h4⟩ := v4l1_stop_spec s n hn hlen
  have hnq : s1.vdo.nq_image = none := by rw [h2]
  have hdq : s1.vdo.dq_image = none := by rw [h2]
  have himgs : s1.vdo.images = s.vdo.images := by rw [h2]
  refine ⟨s1, h1, hnq, hdq, ?_, h3, (v4l1_dq_busy dev s1 hdq).1, (v4l1_dq_busy dev s1 hdq).2, ?_⟩
  · intro i hi
    rw [himgs]
    exact h4 i hi
  · intro hfn hnodup hcap
    exact v4l1_start_queues dev s1 n (by rw [h2]; exact hfn) (by rw [h2]; exact hn)
      (by rw [himgs]; exact hlen) (by rw [himgs]; exact hnodup) hdq
      (fun a _ => by rw [hnq]; simp) hcap

/-- C16 at a concrete session: a session of this backend with four buffers
that has been started and has had its first buffer retrieved, so that buffer 1
is the head of the queue, is stopped and started again. -/
theorem v4l1_stop_resets_queue_witness :
    state_streaming.vdo.dq_image = some 1 ∧
    state_streaming.vdo.nq_image = some 3 ∧
    ∃ s1, v4l1_stop state_streaming = .ok (0, s1) ∧
      s1.vdo.nq_image = none ∧ s1.vdo.dq_image = none ∧
      (∀ i, i < 4 → ∃ p, s1.vdo.images[i]? = some p ∧ (s1.image p).next = none) ∧
      s1.trace = state_streaming.trace ++ [Event.unlock] ∧
      (v4l1_dq (device_ok video_picture.zero (video_mbuf.zero 0) 4096) s1).1 = none ∧
      (v4l1_dq (device_ok video_picture.zero (video_mbuf.zero 0) 4096) s1).2.vdo.err_type
        = ZEBRA_ERR_BUSY ∧
      (state_streaming.vdo.nq = some video_fn.v4l1_nq →
        (state_streaming.vdo.images.take 4).Nodup →
        (∀ hist vmap, 0 ≤ (device_ok video_picture.zero (video_mbuf.zero 0) 4096).VIDIOCMCAPTURE
          hist vmap) →
        ∃ s2, v4l1_start (device_ok video_picture.zero (video_mbuf.zero 0) 4096) s1
            = .ok (0, s2) ∧
          queue_holds s2 (s1.vdo.images.take 4)) :=
  ⟨rfl, rfl,
    v4l1_stop_resets_queue (device_ok video_picture.zero (video_mbuf.zero 0) 4096)
      state_streaming 4 rfl (by decide)⟩

/-! ### The lock -/

/-- The steps of a call of `v4l1_nq`: the assignments to the queue in the
order of the source, then the release of the lock, then requests only, which
are the requests that the call appends to the trace after the release, none of
them a release. -/
lemma v4l1_nq_steps (dev : Device) (s : State) (img : Nat) :
    ∃ rest,
      (v4l1_nq dev s img).2.trace = s.trace ++ [Event.unlock] ++ rest ∧
      Event.unlock ∉ rest ∧
      (v4l1_nq dev s img).2.steps = s.steps ++
        ([Step.set_next img none] ++
          (match s.vdo.nq_image with
            | some t => [Step.set_next t (some img)]
            | none => []) ++
          [Step.set_nq_image (some img)] ++
          (if s.vdo.dq_image = none then [Step.set_dq_image (some img)] else [])) ++
        [Step.request Event.unlock] ++ rest.map Step.request := by
  unfold v4l1_nq
  cases hnq : s.vdo.nq_image <;> cases hdq : s.vdo.dq_image <;>
    simp only [State.set_next, State.set_nq_image, State.set_dq_image, video_unlock,
      State.log, err_capture, hnq, hdq] <;>
    split_ifs <;>
    first
      | (refine ⟨[], ?_, ?_, ?_⟩ <;> simp <;> done)
      | (refine ⟨_, rfl, ?_, ?_⟩ <;> simp)

/-- The steps of a call of `v4l1_dq`: the assignments to the queue in the
order of the source, then the release of the lock, then requests only, which
are the requests that the call appends to the trace after the release, none of
them a release. -/
lemma v4l1_dq_steps (dev : Device) (s : State) :
    ∃ rest,
      (v4l1_dq dev s).2.trace = s.trace ++ [Event.unlock] ++ rest ∧
      Event.unlock ∉ rest ∧
      (v4l1_dq dev s).2.steps = s.steps ++
        (match s.vdo.dq_image with
          | some p => [Step.set_dq_image (s.image p).next, Step.set_next p none]
          | none => []) ++
        [Step.request Event.unlock] ++ rest.map Step.request := by
  unfold v4l1_dq
  cases hdq : s.vdo.dq_image <;>
    simp only [State.set_next, State.set_dq_image, video_unlock, State.log, err_capture, hdq] <;>
    split_ifs <;>
    first
      | (refine ⟨[], ?_, ?_, ?_⟩ <;> simp <;> done)
      | (refine ⟨_, rfl, ?_, ?_⟩ <;> simp)

/-- Steps that are assignments to the queue, one release and requests that
are no release hold exactly one release. -/
lemma count_unlock_of_order (pre : List Step) (rest : List Event)
    (hpre : ∀ a ∈ pre, a.is_queue_write = true ∧ a.is_device_request = false)
    (hrest : Event.unlock ∉ rest) :
    (pre ++ [Step.request Event.unlock] ++ rest.map Step.request).count
      (Step.request Event.unlock) = 1 := by
  have h1 : pre.count (Step.request Event.unlock) = 0 := by
    rw [List.count_eq_zero]
    intro hmem
    have := (hpre _ hmem).1
    simp [Step.is_queue_write] at this
  have h2 : (rest.map Step.request).count (Step.request Event.unlock) = 0 := by
    rw [List.count_eq_zero]
    intro hmem
    obtain ⟨e, he, heq⟩ := List.mem_map.mp hmem
    injection heq with heq
    exact hrest (heq ▸ he)
  rw [List.count_append, List.count_append, h1, h2]
  simp

/-- C17: the steps that a call of `v4l1_nq` and a call of `v4l1_dq` add to the
steps of the program are, in the order in which the function makes them:
assignments to fields of the queue only, then the one release of the lock,
then requests only, none of them a release; and these requests are what the
call adds to the trace of requests behind the release.  So exactly one unlock
is performed, every update of the queue comes before it, every request to the
device (`VIDIOCMCAPTURE`, `VIDIOCSYNC`, `read`) comes after it, and no field
of the queue is written after it.  On the session that has been started and
has had its first buffer retrieved, submitting buffer 0 links it behind the
tail 3 and makes it the tail before the release and the capture request, and
retrieving moves the head from 1 to 2 and clears the link of 1 before the
release and the wait for frame 1. -/
theorem v4l1_queue_unlock_before_requests (dev : Device) (s : State) (img : Nat) :
    (∃ pre rest,
      (v4l1_nq dev s img).2.steps =
        s.steps ++ pre ++ [Step.request Event.unlock] ++ rest.map Step.request ∧
      (v4l1_nq dev s img).2.trace = s.trace ++ [Event.unlock] ++ rest ∧
      (∀ a ∈ pre, a.is_queue_write = true ∧ a.is_device_request = false) ∧
      (∀ a ∈ rest.map Step.request, a.is_queue_write = false) ∧
      Event.unlock ∉ rest ∧
      (pre ++ [Step.request Event.unlock] ++ rest.map Step.request).count
        (Step.request Event.unlock) = 1) ∧
    (∃ pre rest,
      (v4l1_dq dev s).2.steps =
        s.steps ++ pre ++ [Step.request Event.unlock] ++ rest.map Step.request ∧
      (v4l1_dq dev s).2.trace = s.trace ++ [Event.unlock] ++ rest ∧
      (∀ a ∈ pre, a.is_queue_write = true ∧ a.is_device_request = false) ∧
      (∀ a ∈ rest.map Step.request, a.is_queue_write = false) ∧
      Event.unlock ∉ rest ∧
      (pre ++ [Step.request Event.unlock] ++ rest.map Step.request).count
        (Step.request Event.unlock) = 1) ∧
    ((v4l1_nq (device_ok video_picture.zero (video_mbuf.zero 0) 4096)
        state_streaming 0).2.steps.drop state_streaming.steps.length =
      [Step.set_next 0 none, Step.set_next 3 (some 0), Step.set_nq_image (some 0),
        Step.request Event.unlock,
        Step.request (Event.VIDIOCMCAPTURE
          { frame := 0, height := 240, width := 320, format := 0 })]) ∧
    ((v4l1_dq (device_ok video_picture.zero (video_mbuf.zero 0) 4096)
        state_streaming).2.steps.drop state_streaming.steps.length =
      [Step.set_dq_image (some 2), Step.set_next 1 none,
        Step.request Event.unlock, Step.request (Event.VIDIOCSYNC 1)]) := by
  have hreq : ∀ rest : List Event, ∀ a ∈ rest.map Step.request, a.is_queue_write = false := by
    intro rest a ha
    obtain ⟨e, -, rfl⟩ := List.mem_map.mp ha
    rfl
  refine ⟨?_, ?_, by decide, by decide⟩
  · obtain ⟨rest, h1, h2, h3⟩ := v4l1_nq_steps dev s img
    have hpre : ∀ a ∈ [Step.set_next img none] ++
          (match s.vdo.nq_image with
            | some t => [Step.set_next t (some img)]
            | none => []) ++
          [Step.set_nq_image (some img)] ++
          (if s.vdo.dq_image = none then [Step.set_dq_image (some img)] else []),
        a.is_queue_write = true ∧ a.is_device_request = false := by
      cases hnq : s.vdo.nq_image <;> cases hdq : s.vdo.dq_image <;>
        simp [Step.is_queue_write, Step.is_device_request]
    exact ⟨_, rest, h3, h1, hpre, hreq rest, h2, count_unlock_of_order _ rest hpre h2⟩
  · obtain ⟨rest, h1, h2, h3⟩ := v4l1_dq_steps dev s
    have hpre : ∀ a ∈ (match s.vdo.dq_image with
          | some p => [Step.set_dq_image (s.image p).next, Step.set_next p none]
          | none => []),
        a.is_queue_write = true ∧ a.is_device_request = false := by
      cases hdq : s.vdo.dq_image <;>
        simp [Step.is_queue_write, Step.is_device_request]
    exact ⟨_, rest, h3, h1, hpre, hreq rest, h2, count_unlock_of_order _ rest hpre h2⟩

/-! ### The list of supported formats -/

/-- Writing a code into the first free entry of the list. -/
lemma set_first_free (written : List Nat) (k c : Nat) :
    (written ++ List.replicate (k + 1) 0).set written.length c =
      (written ++ [c]) ++ List.replicate k 0 := by
  rw [List.set_append_right _ _ (le_refl _)]
  simp [List.replicate_succ]

/-- `v4l1_set_format` leaves the list of supported formats as it is. -/
lemma set_format_keeps_formats (dev : Device) (s : State) (fmt : Nat) :
    (v4l1_set_format dev s fmt).2.vdo.formats = s.vdo.formats := by
  unfold v4l1_set_format
  simp only [State.log, err_capture, err_capture_int]
  split_ifs <;> rfl

/-- The loop of `v4l1_probe_formats`, from the index `i` on, with the codes of
the strictly increasing indices `idx` below `i` written so far at the front of
the 16 entries: it ends with the codes of a strictly increasing list of
indices of non-zero table entries at the front, the other entries zero. -/
lemma probe_formats_loop_spec (dev : Device) :
    ∀ fuel i vpic num s (idx : List Nat),
      i + fuel = VIDEO_PALETTE_YUV410P + 1 → 1 ≤ i →
      num = idx.length → idx.length < i →
      (∀ j ∈ idx, 1 ≤ j ∧ j < i ∧ (v4l1_formats_at j).format ≠ 0) →
      idx.Sorted (· < ·) →
      s.vdo.formats = some (idx.map (fun j => (v4l1_formats_at j).format) ++
        List.replicate (16 - idx.length) 0) →
      ∃ idx' : List Nat,
        (∀ j ∈ idx', 1 ≤ j ∧ j ≤ VIDEO_PALETTE_YUV410P ∧ (v4l1_formats_at j).format ≠ 0) ∧
        idx'.Sorted (· < ·) ∧
        (probe_formats_loop dev fuel i vpic num s).2.1 = idx'.length ∧
        (probe_formats_loop dev fuel i vpic num s).2.2.vdo.formats =
          some (idx'.map (fun j => (v4l1_formats_at j).format) ++
            List.replicate (16 - idx'.length) 0) := by
  intro fuel
  induction fuel with
  | zero =>
      intro i vpic num s idx hi h1 hnum hlen hidx hsorted hf
      refine ⟨idx, fun j hj => ⟨(hidx j hj).1, by have := (hidx j hj).2.1; omega,
        (hidx j hj).2.2⟩, hsorted, hnum, hf⟩
  | succ m ih =>
      intro i vpic num s idx hi h1 hnum hlen hidx hsorted hf
      have hV : VIDEO_PALETTE_YUV410P = 16 := rfl
      have hle : i ≤ VIDEO_PALETTE_YUV410P := by omega
      have hidx' : ∀ j ∈ idx, 1 ≤ j ∧ j < i + 1 ∧ (v4l1_formats_at j).format ≠ 0 :=
        fun j hj => ⟨(hidx j hj).1, by have := (hidx j hj).2.1; omega, (hidx j hj).2.2⟩
      simp only [probe_formats_loop, if_pos hle]
      by_cases hz : (v4l1_formats_at i).format = 0
      · rw [if_pos hz]
        exact ih (i + 1) vpic num s idx (by omega) (by omega) hnum (by omega) hidx' hsorted hf
      · rw [if_neg hz]
        simp only [State.log]
        split_ifs with hset hget
        · exact ih (i + 1) _ num _ idx (by omega) (by omega) hnum (by omega) hidx' hsorted hf
        · exact ih (i + 1) _ num _ idx (by omega) (by omega) hnum (by omega) hidx' hsorted hf
        · refine ih (i + 1) _ (num + 1) _ (idx ++ [i]) (by omega) (by omega)
            (by simp [hnum]) (by simp; omega) ?_ ?_ ?_
          · intro j hj
            rcases List.mem_append.mp hj with h | h
            · exact hidx' j h
            · have : j = i := by simpa using h
              subst this
              exact ⟨h1, by omega, hz⟩
          · refine List.pairwise_append.mpr ⟨hsorted, List.pairwise_singleton _ _, ?_⟩
            intro a ha b hb
            have : b = i := by simpa using hb
            subst this
            exact (hidx a ha).2.1
          · show Option.map _ s.vdo.formats = _
            rw [hf, hnum]
            have hk : 16 - idx.length = (16 - (idx ++ [i]).length) + 1 := by
              simp; omega
            simp only [Option.map_some', List.map_append, List.map_cons, List.map_nil]
            rw [hk]
            have := set_first_free (idx.map (fun j => (v4l1_formats_at j).format))
              (16 - (idx ++ [i]).length) (v4l1_formats_at i).format
            rw [List.length_map] at this
            rw [this]

/-- A strictly increasing list of indices of non-zero table entries has at
most 14 members, and the codes of its entries are pairwise distinct. -/
lemma table_indices_bound (idx : List Nat)
    (hidx : ∀ j ∈ idx, 1 ≤ j ∧ j ≤ VIDEO_PALETTE_YUV410P ∧ (v4l1_formats_at j).format ≠ 0)
    (hsorted : idx.Sorted (· < ·)) :
    idx.length ≤ 14 ∧ (idx.map (fun j => (v4l1_formats_at j).format)).Nodup := by
  constructor
  · have hsub : idx ⊆ (List.range 17).filter
        (fun j => decide (1 ≤ j ∧ (v4l1_formats_at j).format ≠ 0)) := by
      intro j hj
      obtain ⟨a, b, c⟩ := hidx j hj
      have hV : VIDEO_PALETTE_YUV410P = 16 := rfl
      simp only [List.mem_filter, List.mem_range, decide_eq_true_eq]
      exact ⟨by omega, a, c⟩
    have hlen : ((List.range 17).filter
        (fun j => decide (1 ≤ j ∧ (v4l1_formats_at j).format ≠ 0))).length = 14 := by
      decide
    have := (List.subperm_of_subset hsorted.nodup hsub).length_le
    omega
  · refine List.Nodup.map_on ?_ hsorted.nodup
    intro x hx y hy hxy
    obtain ⟨a, b, c⟩ := hidx x hx
    obtain ⟨a', b', c'⟩ := hidx y hy
    have e1 := set_format_ifmt_of_entry x a b c
    have e2 := set_format_ifmt_of_entry y a' b' c'
    simp only at hxy
    rw [hxy, e2] at e1
    exact e1.symm

/-- C20: for every device, the loop of `v4l1_probe_formats`, started on the 16
zero entries that `calloc` returns, writes the codes of a strictly increasing
list of indices of non-zero table entries: at most 14 codes, pairwise
distinct, at the front of the list, the number of codes being `num_formats`;
the entry after them is zero, and so is the last entry of the list shrunk to
`num_formats + 1` entries.  And when `v4l1_probe_formats` has got the list and
returns, the list of the session is these codes followed by one zero. -/
theorem v4l1_probe_formats_supported_list (dev : Device) (s : State) :
    (∀ vpic, s.vdo.formats = some (List.replicate 16 0) →
      ∃ idx : List Nat,
        (∀ j ∈ idx, 1 ≤ j ∧ j ≤ VIDEO_PALETTE_YUV410P ∧ (v4l1_formats_at j).format ≠ 0) ∧
        idx.Sorted (· < ·) ∧ idx.length ≤ 14 ∧
        (idx.map (fun j => (v4l1_formats_at j).format)).Nodup ∧
        (probe_formats_loop dev VIDEO_PALETTE_YUV410P 1 vpic 0 s).2.1 = idx.length ∧
        (probe_formats_loop dev VIDEO_PALETTE_YUV410P 1 vpic 0 s).2.2.vdo.formats =
          some (idx.map (fun j => (v4l1_formats_at j).format) ++
            List.replicate (16 - idx.length) 0) ∧
        (idx.map (fun j => (v4l1_formats_at j).format) ++
          List.replicate (16 - idx.length) 0)[idx.length]? = some 0 ∧
        (idx.map (fun j => (v4l1_formats_at j).format) ++
          List.replicate (16 - idx.length) 0).take (idx.length + 1) =
            idx.map (fun j => (v4l1_formats_at j).format) ++ [0]) ∧
    (∀ rc s', 0 ≤ (dev.VIDIOCGPICT s.trace video_picture.zero).1 →
      dev.calloc (s.trace ++ [Event.VIDIOCGPICT]) 16 = true →
      v4l1_probe_formats dev s = .ok (rc, s') →
      ∃ idx : List Nat,
        (∀ j ∈ idx, 1 ≤ j ∧ j ≤ VIDEO_PALETTE_YUV410P ∧ (v4l1_formats_at j).format ≠ 0) ∧
        idx.Sorted (· < ·) ∧ idx.length ≤ 14 ∧
        (idx.map (fun j => (v4l1_formats_at j).format)).Nodup ∧
        s'.vdo.formats = some (idx.map (fun j => (v4l1_formats_at j).format) ++ [0])) := by
  have shrink : ∀ idx : List Nat, idx.length ≤ 14 →
      (idx.map (fun j => (v4l1_formats_at j).format) ++
        List.replicate (16 - idx.length) 0).take (idx.length + 1) =
          idx.map (fun j => (v4l1_formats_at j).format) ++ [0] := by
    intro idx hlen
    have hk : 16 - idx.length = (15 - idx.length) + 1 := by omega
    rw [hk, List.replicate_succ, List.take_append_eq_append_take]
    simp
  have loop : ∀ vpic (t : State), t.vdo.formats = some (List.replicate 16 0) →
      ∃ idx : List Nat,
        (∀ j ∈ idx, 1 ≤ j ∧ j ≤ VIDEO_PALETTE_YUV410P ∧ (v4l1_formats_at j).format ≠ 0) ∧
        idx.Sorted (· < ·) ∧ idx.length ≤ 14 ∧
        (idx.map (fun j => (v4l1_formats_at j).format)).Nodup ∧
        (probe_formats_loop dev VIDEO_PALETTE_YUV410P 1 vpic 0 t).2.1 = idx.length ∧
        (probe_formats_loop dev VIDEO_PALETTE_YUV410P 1 vpic 0 t).2.2.vdo.formats =
          some (idx.map (fun j => (v4l1_formats_at j).format) ++
            List.replicate (16 - idx.length) 0) := by
    intro vpic t ht
    obtain ⟨idx, h1, h2, h3, h4⟩ := probe_formats_loop_spec dev VIDEO_PALETTE_YUV410P 1 vpic 0 t
      [] (by omega) (le_refl _) rfl (by simp) (by simp) (by simp [List.Sorted]) (by simpa using ht)
    obtain ⟨b1, b2⟩ := table_indices_bound idx h1 h2
    exact ⟨idx, h1, h2, b1, b2, h3, h4⟩
  have loop' : ∀ vpic (t : State) r,
      probe_formats_loop dev VIDEO_PALETTE_YUV410P 1 vpic 0 t = r →
      t.vdo.formats = some (List.replicate 16 0) →
      ∃ idx : List Nat,
        (∀ j ∈ idx, 1 ≤ j ∧ j ≤ VIDEO_PALETTE_YUV410P ∧ (v4l1_formats_at j).format ≠ 0) ∧
        idx.Sorted (· < ·) ∧ idx.length ≤ 14 ∧
        (idx.map (fun j => (v4l1_formats_at j).format)).Nodup ∧
        r.2.1 = idx.length ∧
        r.2.2.vdo.formats =
          some (idx.map (fun j => (v4l1_formats_at j).format) ++
            List.replicate (16 - idx.length) 0) := by
    intro vpic t r hr ht
    subst hr
    exact loop vpic t ht
  constructor
  · intro vpic hs
    obtain ⟨idx, h1, h2, b1, b2, h3, h4⟩ := loop vpic s hs
    refine ⟨idx, h1, h2, b1, b2, h3, h4, ?_, shrink idx b1⟩
    have hk : 16 - idx.length = (15 - idx.length) + 1 := by omega
    rw [List.getElem?_append_right (by simp), hk]
    simp [List.replicate_succ]
  · intro rc s' hq hcalloc hok
    have hq' : ¬ (dev.VIDIOCGPICT s.trace video_picture.zero).1 < 0 := not_lt.mpr hq
    unfold v4l1_probe_formats at hok
    simp only [hq', if_false, State.log, hcalloc, Bool.true_eq_false] at hok
    split_ifs at hok
    all_goals first
      | (cases hok; done)
      | (exfalso
         have hno : dev.calloc (s.trace ++ [Event.VIDIOCGPICT]) 16 = false := by assumption
         rw [hcalloc] at hno
         cases hno)
      | (injection hok with hok
         generalize hr : probe_formats_loop dev VIDEO_PALETTE_YUV410P 1 _ 0 _ = r at hok
         obtain ⟨idx, h1, h2, b1, b2, h3, h4⟩ := loop' _ _ r hr rfl
         refine ⟨idx, h1, h2, b1, b2, ?_⟩
         rw [← congrArg (fun r => r.2.vdo.formats) hok]
         simp only [set_format_keeps_formats]
         rw [h4, h3]
         simp only [Option.map_some']
         rw [shrink idx b1])

/-- C20 at a concrete device: on the device that answers with what was set,
all fourteen codes are listed, in the order of the table, followed by a
zero. -/
theorem v4l1_probe_formats_supported_list_witness :
    ∃ rc s', v4l1_probe_formats device_echo (state_init 4 VIDEO_MMAP) = .ok (rc, s') ∧
      ∃ idx : List Nat,
        (∀ j ∈ idx, 1 ≤ j ∧ j ≤ VIDEO_PALETTE_YUV410P ∧ (v4l1_formats_at j).format ≠ 0) ∧
        idx.Sorted (· < ·) ∧ idx.length ≤ 14 ∧
        (idx.map (fun j => (v4l1_formats_at j).format)).Nodup ∧
        s'.vdo.formats = some (idx.map (fun j => (v4l1_formats_at j).format) ++ [0]) :=
  ⟨_, _, rfl,
    (v4l1_probe_formats_supported_list device_echo (state_init 4 VIDEO_MMAP)).2 _ _
      (by decide) rfl rfl⟩

end V4l1
